import Mathlib

/-!
# IKEv2TunnelManager: status interpreter and credential store manager

A shallow embedding of `internal/vpn/status.go` and `internal/vpn/users.go`,
together with the part of `internal/ssh/client.go` they call.

Go strings are modelled as lists of characters. The remote host is not part of
the repository: it is a field of the client model (an oracle for `Run`, a
state-passing function on the secrets file for `RunSudo`), and every property
that depends on what the host does says so in its hypotheses.
-/

namespace IKEv2

/-- Text: a Go `string`, as the list of its characters. -/
abbrev Str := List Char

/-! ## The `strings` functions used by the two files -/

/-- The white-space characters of Go's `unicode.IsSpace`. -/
def isSpace (c : Char) : Bool :=
  let n := c.toNat
  n == 9 || n == 10 || n == 11 || n == 12 || n == 13 || n == 32 ||
  n == 0x85 || n == 0xA0 || n == 0x1680 || (0x2000 ≤ n && n ≤ 0x200A) ||
  n == 0x2028 || n == 0x2029 || n == 0x202F || n == 0x205F || n == 0x3000

/-- Go `strings.TrimSpace`: drop leading and trailing white space. -/
def TrimSpace (s : Str) : Str :=
  ((s.dropWhile isSpace).reverse.dropWhile isSpace).reverse

/-- Go `strings.HasPrefix`. -/
def HasPrefix (s pre : Str) : Bool := pre.isPrefixOf s

/-- Go `strings.Contains`: `sub` occurs in `s` as a contiguous block. -/
def Contains : Str → Str → Bool
  | [], sub => sub.isPrefixOf []
  | c :: cs, sub => sub.isPrefixOf (c :: cs) || Contains cs sub

/-- Go `strings.Split(s, "\n")`: the pieces between newlines, at least one piece. -/
def splitLines : Str → List Str
  | [] => [[]]
  | c :: cs =>
    if c = '\n' then [] :: splitLines cs
    else
      match splitLines cs with
      | [] => [[c]]
      | l :: ls => (c :: l) :: ls

/-- Worker of `Fields`: `cur` is the field being read, in reverse. -/
def fieldsAux : Str → Str → List Str
  | [], cur => if cur.isEmpty then [] else [cur.reverse]
  | c :: cs, cur =>
    if isSpace c then
      (if cur.isEmpty then fieldsAux cs [] else cur.reverse :: fieldsAux cs [])
    else fieldsAux cs (c :: cur)

/-- Go `strings.Fields`: the maximal runs of non-space characters. -/
def Fields (s : Str) : List Str := fieldsAux s []

/-- Go `strings.ContainsAny`: some character of `s` is one of `chars`. -/
def ContainsAny (s chars : Str) : Bool := s.any (fun c => chars.contains c)

/-- First element of Go `strings.SplitN(s, ":", 2)`: the text before the first colon. -/
def beforeColon (s : Str) : Str := s.takeWhile (fun c => c != ':')

/-- Go `strings.Index(s, "\"")`, as an option instead of `-1`. -/
def indexQuote : Str → Option Nat
  | [] => none
  | c :: cs => if c = '"' then some 0 else (indexQuote cs).map (· + 1)

/-- Go `strings.LastIndex(s, "\"")`, as an option instead of `-1`. -/
def lastIndexQuote : Str → Option Nat
  | [] => none
  | c :: cs =>
    match lastIndexQuote cs with
    | some i => some (i + 1)
    | none => if c = '"' then some 0 else none

/-- Go slice expression `s[lo:hi]` for `lo ≤ hi ≤ len s`. -/
def slice (s : Str) (lo hi : Nat) : Str := (s.take hi).drop lo

/-! ## `internal/ssh/client.go` -/

/-- The SSH client, with the remote host it talks to.
`connectErr` is what `Connect` would return, `run` what the host answers to an
unprivileged command, `runSudo` what it answers to a privileged command given the
current secrets file, and the new content of that file. `sent` records every
command handed to a session, oldest first. -/
structure Client where
  connected : Bool
  connectErr : Option Str
  run : Str → Except Str Str
  runSudo : Str → Str → Except Str Str × Str
  secrets : Str
  sent : List Str

/-- Method `Client.IsConnected`. -/
def Client.IsConnected (c : Client) : Bool := c.connected

/-- Method `Client.Connect`: the connection is stored only on success. -/
def Client.Connect (c : Client) : Option Str × Client :=
  match c.connectErr with
  | some e => (some e, c)
  | none => (none, { c with connected := true })

/-- Method `Client.Run`. -/
def Client.Run (c : Client) (command : Str) : Except Str Str × Client :=
  if !c.connected then (.error "not connected".toList, c)
  else (c.run command, { c with sent := c.sent ++ [command] })

/-- Method `Client.RunSudo`. -/
def Client.RunSudo (c : Client) (command : Str) : Except Str Str × Client :=
  if !c.connected then (.error "not connected".toList, c)
  else
    let r := c.runSudo command c.secrets
    (r.1, { c with secrets := r.2, sent := c.sent ++ [command] })

/-! ## `internal/vpn/status.go` -/

/-- Go struct `ConnectionInfo`. -/
structure ConnectionInfo where
  Name : Str
  RemoteAddr : Str
  State : Str
  Uptime : Str
  deriving DecidableEq, Repr

/-- Go struct `Status`. `ActiveClients` counts lines of one string, so it stays
far below the range of Go's `int`. -/
structure Status where
  Connected : Bool
  TunnelActive : Bool
  ActiveClients : Nat
  Uptime : Str
  ServerIP : Str
  Connections : List ConnectionInfo
  deriving DecidableEq, Repr

/-- The zero value `&Status{}`. -/
def Status.zero : Status :=
  { Connected := false, TunnelActive := false, ActiveClients := 0,
    Uptime := [], ServerIP := [], Connections := [] }

def probeCmd : Str :=
  "pgrep -x charon >/dev/null && echo 'running' || echo 'stopped'".toList

def statusCmd : Str :=
  "sudo ipsec statusall 2>/dev/null || echo 'No connections'".toList

def uptimeCmd : Str :=
  "systemctl show strongswan-starter --property=ActiveEnterTimestamp 2>/dev/null | cut -d= -f2".toList

def ipCmd : Str :=
  "curl -4 -s --max-time 5 ifconfig.me 2>/dev/null || echo 'unknown'".toList

def saHeader : Str := "Security Associations".toList
def established : Str := "ESTABLISHED".toList
def clientTag : Str := "ikev2-vpn[".toList
def tunnelTag : Str := "tunnel-to-server2[".toList

/-- One iteration of the parsing loop of `GetStatus` (lines 59-89): the state
is the flag `inSecurityAssociations` and the snapshot built so far. -/
def parseLine (acc : Bool × Status) (raw : Str) : Bool × Status :=
  let line := TrimSpace raw
  if HasPrefix line saHeader then (true, acc.2)
  else if acc.1 && Contains line established then
    let s1 := if Contains line clientTag
      then { acc.2 with ActiveClients := acc.2.ActiveClients + 1 } else acc.2
    let s2 := if Contains line tunnelTag then { s1 with TunnelActive := true } else s1
    let parts := Fields line
    let s3 := if parts.length ≥ 2
      then { s2 with Connections := s2.Connections ++
              [{ Name := parts.headD [], RemoteAddr := [], State := established, Uptime := [] }] }
      else s2
    (acc.1, s3)
  else acc

/-- The parsing loop of `GetStatus` over the lines of the status output. -/
def parseStatus (ipsecOutput : Str) (s : Status) : Status :=
  ((splitLines ipsecOutput).foldl parseLine (false, s)).2

def runningStr : Str := "running".toList
def stoppedStr : Str := "stopped".toList

/-- Lines 40-43: the probe's output, replaced by "stopped" when the probe failed. -/
def probeOutput (r : Except Str Str) : Str :=
  match r with
  | .ok o => o
  | .error _ => stoppedStr

/-- Lines 92-95: the uptime field is set only when the command succeeded. -/
def setUptime (status : Status) (r : Except Str Str) : Status :=
  match r with
  | .ok o => { status with Uptime := TrimSpace o }
  | .error _ => status

/-- Lines 98-101: the address field is set only when the command succeeded. -/
def setServerIP (status : Status) (r : Except Str Str) : Status :=
  match r with
  | .ok o => { status with ServerIP := TrimSpace o }
  | .error _ => status

/-- Lines 30-34, shared by every operation: connect unless already connected. -/
def ensureConnected (client : Client) : Option Str × Client :=
  if !client.IsConnected then client.Connect else (none, client)

/-- Function `GetStatus`: the returned pair `(*Status, error)` as an `Except`,
and the client after the call. -/
def GetStatus (client : Client) : Except Str Status × Client :=
  match ensureConnected client with
  | (some err, c0) => (.error err, c0)
  | (none, c0) =>
    let p1 := c0.Run probeCmd
    let status := { Status.zero with Connected := (TrimSpace (probeOutput p1.1) == runningStr) }
    if !status.Connected then (.ok status, p1.2)
    else
      let p2 := p1.2.Run statusCmd
      match p2.1 with
      | .error _ => (.ok status, p2.2)
      | .ok ipsecOutput =>
        let status := parseStatus ipsecOutput status
        let p3 := p2.2.Run uptimeCmd
        let status := setUptime status p3.1
        let p4 := p3.2.Run ipCmd
        let status := setServerIP status p4.1
        (.ok status, p4.2)

/-! ### Reading of the status claims -/

/-- A line whose trimmed text starts with the section header. -/
def isHeader (l : Str) : Bool := HasPrefix (TrimSpace l) saHeader

/-- The lines that come after the first header line. -/
def afterHeader (lines : List Str) : List Str :=
  (lines.dropWhile (fun l => !isHeader l)).drop 1

/-- A line that contains both the ESTABLISHED marker and the client-tunnel name. -/
def isClientLine (l : Str) : Bool := Contains l established && Contains l clientTag

/-- A line that contains both the ESTABLISHED marker and the inter-host tunnel name. -/
def isTunnelLine (l : Str) : Bool := Contains l established && Contains l tunnelTag

/-- The snapshot `GetStatus` returns on a connected session, as a function of
the host's answers. -/
def statusOf (c : Client) : Status :=
  let st := { Status.zero with Connected := (TrimSpace (probeOutput (c.run probeCmd)) == runningStr) }
  if !st.Connected then st
  else
    match c.run statusCmd with
    | .error _ => st
    | .ok out => setServerIP (setUptime (parseStatus out st) (c.run uptimeCmd)) (c.run ipCmd)

/-- A connected session whose host answers the probe with `probe` and the
status command with `out`, and fails every other command. -/
def statusClient (probe out : Str) : Client :=
  { connected := true, connectErr := none,
    run := fun cmd =>
      if cmd == probeCmd then .ok probe
      else if cmd == statusCmd then .ok out
      else .error "command failed".toList,
    runSudo := fun _ s => (.error "command failed".toList, s),
    secrets := [], sent := [] }

/-- Status output with two established client tunnels and the inter-host tunnel. -/
def exampleBlob : Str :=
  ("Status of IKE charon daemon (strongSwan 5.9.5):\n" ++
   "Security Associations (3 up, 0 connecting):\n" ++
   "   ikev2-vpn[3]: ESTABLISHED 5 minutes ago, 10.0.0.1[a]...10.0.0.2[b]\n" ++
   "   ikev2-vpn[4]: ESTABLISHED 2 minutes ago, 10.0.0.1[a]...10.0.0.3[c]\n" ++
   "tunnel-to-server2[1]: ESTABLISHED 1 hour ago, 10.0.0.1[a]...10.0.0.9[d]\n").toList

/-- Status output whose second header-like line also carries both markers. -/
def headerTwiceBlob : Str :=
  ("Security Associations (1 up, 0 connecting):\n" ++
   "Security Associations ESTABLISHED ikev2-vpn[1] tunnel-to-server2[1]\n").toList

/-- The probe output of a running daemon. -/
def runningLine : Str := "running\n".toList

/-- Status output without any header line, though one line carries both markers. -/
def noSectionBlob : Str :=
  ("Status of IKE charon daemon:\n" ++
   "   ikev2-vpn[3]: ESTABLISHED 5 minutes ago\n").toList

/-! ## `internal/vpn/users.go` -/

/-- Go struct `User`. -/
structure User where
  Username : Str
  Password : Str
  deriving DecidableEq, Repr

/-- One call received by the `Logger` interface, with the formatted message. -/
inductive LogEntry where
  | logf (msg : Str)
  | errorf (msg : Str)
  deriving DecidableEq, Repr

/-- Go struct `UserManager`. The logger is an interface value; the model keeps
the calls it has received, oldest first. -/
structure UserManager where
  client : Client
  logger : List LogEntry

def catCmd : Str := "cat /etc/ipsec.secrets".toList
def rereadCmd : Str := "ipsec rereadsecrets".toList
def eapMark : Str := ": EAP".toList
def reservedUser : Str := "tunnel-user".toList

/-- The characters `AddUser` forbids in a username: space, colon, newline,
single quote, double quote. -/
def forbiddenChars : Str := [' ', ':', '\n', Char.ofNat 39, Char.ofNat 34]

def invalidUsernameErr : Str := "invalid username: contains forbidden characters".toList

/-- The error of `fmt.Errorf("user %s already exists", username)`. -/
def alreadyExistsErr (username : Str) : Str :=
  "user ".toList ++ username ++ " already exists".toList

/-- The error of `fmt.Errorf("password not found for user %s", username)`. -/
def notFoundErr (username : Str) : Str := "password not found for user ".toList ++ username

/-- The text of `fmt.Sprintf("%s : EAP \"%s\"", username, password)`. -/
def secretLine (username password : Str) : Str :=
  username ++ " : EAP ".toList ++ [Char.ofNat 34] ++ password ++ [Char.ofNat 34]

/-- The command of line 96, which appends `line` to the secrets file. -/
def appendCmd (line : Str) : Str :=
  "echo ".toList ++ [Char.ofNat 39] ++ line ++ [Char.ofNat 39] ++
    " | tee -a /etc/ipsec.secrets".toList

/-- The command of line 150, which deletes the lines matching `^username : EAP`. -/
def removeCmd (username : Str) : Str :=
  "sed -i ".toList ++ [Char.ofNat 39] ++ "/^".toList ++ username ++ " : EAP/d".toList ++
    [Char.ofNat 39] ++ " /etc/ipsec.secrets".toList

/-- The warning of lines 105 and 159. -/
def reloadWarning (err : Str) : LogEntry :=
  .errorf ("Warning: failed to reload secrets: ".toList ++ err)

/-- One hexadecimal digit of `encoding/hex`. -/
def hexDigit (n : Nat) : Char := "0123456789abcdef".toList.getD n '0'

/-- Go `hex.EncodeToString` on bytes given as numbers below 256. -/
def hexEncode (bytes : List Nat) : Str :=
  (bytes.map (fun b => [hexDigit (b % 256 / 16), hexDigit (b % 16)])).flatten

/-- A buffer of `n` bytes after `rand.Read`: the bytes the random source `rnd`
delivers, zero where it delivers none. -/
def randBytes (rnd : List Nat) (n : Nat) : List Nat :=
  (List.range n).map (fun i => rnd.getD i 0 % 256)

/-- One iteration of the loop of `ListUsers` (lines 47-58). -/
def listLine (users : List User) (raw : Str) : List User :=
  let line := TrimSpace raw
  if Contains line eapMark then
    let username := TrimSpace (beforeColon line)
    if username != [] && username != reservedUser then
      users ++ [{ Username := username, Password := [] }]
    else users
  else users

/-- The loop of `ListUsers` over the output of `cat`. -/
def parseUsers (output : Str) : List User := (splitLines output).foldl listLine []

/-- Method `UserManager.ListUsers`. -/
def ListUsers (um : UserManager) : Except Str (List User) × UserManager :=
  match ensureConnected um.client with
  | (some err, c0) => (.error err, { um with client := c0 })
  | (none, c0) =>
    let p := c0.RunSudo catCmd
    match p.1 with
    | .error err => (.error err, { um with client := p.2 })
    | .ok output => (.ok (parseUsers output), { um with client := p.2 })

/-- Method `UserManager.AddUser`; `rnd` is what `crypto/rand` delivers. -/
def AddUser (um : UserManager) (username password : Str) (rnd : List Nat) :
    Except Str Str × UserManager :=
  match ensureConnected um.client with
  | (some err, c0) => (.error err, { um with client := c0 })
  | (none, c0) =>
    if ContainsAny username forbiddenChars then
      (.error invalidUsernameErr, { um with client := c0 })
    else
      let password := if password == [] then hexEncode (randBytes rnd 16) else password
      match ListUsers { um with client := c0 } with
      | (.error err, um1) => (.error err, um1)
      | (.ok users, um1) =>
        if users.any (fun u => u.Username == username) then
          (.error (alreadyExistsErr username), um1)
        else
          let p := um1.client.RunSudo (appendCmd (secretLine username password))
          match p.1 with
          | .error err => (.error ("failed to add user: ".toList ++ err), { um1 with client := p.2 })
          | .ok _ =>
            let q := p.2.RunSudo rereadCmd
            let logger := match q.1 with
              | .error err => um1.logger ++ [reloadWarning err]
              | .ok _ => um1.logger
            (.ok password,
              { client := q.2, logger := logger ++ [.logf ("Added user: ".toList ++ username)] })

/-- The loop of `GetUserPassword` (lines 126-136). -/
def findPassword (username : Str) : List Str → Option Str
  | [] => none
  | raw :: rest =>
    let line := TrimSpace raw
    if HasPrefix line (username ++ " : EAP".toList) then
      match indexQuote line, lastIndexQuote line with
      | some start, some stop =>
        if stop > start then some (slice line (start + 1) stop)
        else findPassword username rest
      | _, _ => findPassword username rest
    else findPassword username rest

/-- Method `UserManager.GetUserPassword`. -/
def GetUserPassword (um : UserManager) (username : Str) : Except Str Str × UserManager :=
  match ensureConnected um.client with
  | (some err, c0) => (.error err, { um with client := c0 })
  | (none, c0) =>
    let p := c0.RunSudo catCmd
    match p.1 with
    | .error err => (.error err, { um with client := p.2 })
    | .ok output =>
      match findPassword username (splitLines output) with
      | some pw => (.ok pw, { um with client := p.2 })
      | none => (.error (notFoundErr username), { um with client := p.2 })

/-- Method `UserManager.RemoveUser`; the returned `error` is `none` for `nil`. -/
def RemoveUser (um : UserManager) (username : Str) : Option Str × UserManager :=
  match ensureConnected um.client with
  | (some err, c0) => (some err, { um with client := c0 })
  | (none, c0) =>
    let p := c0.RunSudo (removeCmd username)
    match p.1 with
    | .error err => (some ("failed to remove user: ".toList ++ err), { um with client := p.2 })
    | .ok _ =>
      let q := p.2.RunSudo rereadCmd
      let logger := match q.1 with
        | .error err => um.logger ++ [reloadWarning err]
        | .ok _ => um.logger
      (none, { client := q.2, logger := logger ++ [.logf ("Removed user: ".toList ++ username)] })

/-! ### A reference host -/

/-- The rest of `s` after the prefix `pre`, if `s` starts with it. -/
def stripPrefix (pre s : Str) : Option Str :=
  if pre.isPrefixOf s then some (s.drop pre.length) else none

/-- The part of `s` before the suffix `suf`, if `s` ends with it. -/
def stripSuffix (suf s : Str) : Option Str :=
  (stripPrefix suf.reverse s.reverse).map List.reverse

/-- What `sed -i '/^pat/d'` leaves of a file when `pat` has no character that
is special in a regular expression: the lines that do not start with `pat`,
each with its line end. -/
def sedDelete (pat content : Str) : Str :=
  let pieces := splitLines content
  let keep := fun (l : Str) => !pat.isPrefixOf l
  ((pieces.dropLast.filter keep).map (fun l => l ++ ['\n'])).flatten ++
    (if keep (pieces.getLastD []) then pieces.getLastD [] else [])

/-- A host on which the four privileged commands of `users.go` do what they are
written for; `reloadOk` says whether `ipsec rereadsecrets` succeeds. Any other
command fails. -/
def refHost (reloadOk : Bool) (cmd secrets : Str) : Except Str Str × Str :=
  if cmd == catCmd then (.ok secrets, secrets)
  else if cmd == rereadCmd then
    (if reloadOk then .ok [] else .error "command failed".toList, secrets)
  else
    match (stripPrefix ("echo ".toList ++ [Char.ofNat 39]) cmd).bind
        (stripSuffix ([Char.ofNat 39] ++ " | tee -a /etc/ipsec.secrets".toList)) with
    | some line => (.ok (line ++ ['\n']), secrets ++ line ++ ['\n'])
    | none =>
      match (stripPrefix ("sed -i ".toList ++ [Char.ofNat 39] ++ "/^".toList) cmd).bind
          (stripSuffix ("/d".toList ++ [Char.ofNat 39] ++ " /etc/ipsec.secrets".toList)) with
      | some pat => (.ok [], sedDelete pat secrets)
      | none => (.error "command failed".toList, secrets)

/-- A manager on a connected session to the reference host, whose secrets file
holds `secrets`. -/
def refManager (reloadOk : Bool) (secrets : Str) : UserManager :=
  { client :=
      { connected := true, connectErr := none,
        run := fun _ => .error "command failed".toList,
        runSudo := refHost reloadOk, secrets := secrets, sent := [] },
    logger := [] }

/-! ### Reading of the credential-store claims -/

/-- The user a line of the secrets file stands for in a listing: the trimmed
text before its first colon, when the line contains ": EAP" and that text is
neither empty nor the reserved identifier. -/
def lineName (l : Str) : Option Str :=
  if Contains l eapMark then
    (if TrimSpace (beforeColon l) = [] ∨ TrimSpace (beforeColon l) = reservedUser then none
     else some (TrimSpace (beforeColon l)))
  else none

/-- The user names of a secrets file, in file order. -/
def listedNames (content : Str) : List Str := (splitLines content).filterMap lineName

/-- The listing entry for a name: `ListUsers` leaves the password empty. -/
def userOf (name : Str) : User := { Username := name, Password := [] }

/-- A user name with a tab in it. -/
def tabUser : Str := "bad\tuser".toList

/-- A user name with a space in it. -/
def spaceUser : Str := "bad user".toList

/-- An ordinary user name. -/
def alice : Str := "alice".toList

/-- A secrets file as the setup leaves it: the server key and the tunnel's own entry. -/
def baseSecrets : Str := ": RSA server-key.pem\ntunnel-user : EAP \"s3cret\"\n".toList

/-- A secrets file whose entry for alice has no blank before the colon. -/
def looseSecrets : Str := "alice: EAP \"pw\"\n".toList

/-! ## `internal/vpn/setup.go`: the command texts -/

/-- Lines put together with a newline between them: the text of a Go raw string. -/
def joinLines : List Str → Str
  | [] => []
  | [l] => l
  | l :: l2 :: rest => l ++ '\n' :: joinLines (l2 :: rest)

/-- Line 115: the install probe. -/
def whichCmd : Str :=
  "which ipsec".toList

/-- Line 120: the install command of the exit host. -/
def installCmd2 : Str :=
  "sudo apt-get update && sudo DEBIAN_FRONTEND=noninteractive apt-get install -y strongswan strongswan-pki libcharon-extra-plugins libcharon-extauth-plugins".toList

/-- Line 127: disabling the kernel-libipsec plugin. -/
def libipsecCmd : Str :=
  "echo 'kernel-libipsec \x7b load = no \x7d' | sudo tee /etc/strongswan.d/charon/kernel-libipsec.conf".toList

/-- Lines 131-136 and 198-203: IP forwarding and redirects. -/
def forwardScript : Str :=
  ("\n" ++
   "\t\tsudo sysctl -w net.ipv4.ip_forward=1\n" ++
   "\t\tsudo sysctl -w net.ipv4.conf.all.accept_redirects=0\n" ++
   "\t\tsudo sysctl -w net.ipv4.conf.all.send_redirects=0\n" ++
   "\t\techo 'net.ipv4.ip_forward=1' | sudo tee -a /etc/sysctl.conf\n" ++
   "\t").toList

/-- Lines 143 and 210: the presence probe for certificate and key. -/
def checkCertCmd : Str :=
  "test -f /etc/ipsec.d/certs/server-cert.pem && test -f /etc/ipsec.d/private/server-key.pem".toList

/-- Lines 167, 234, 483 and 484: restarting the daemon. -/
def restartCmd : Str :=
  "sudo systemctl restart strongswan-starter".toList

/-- Lines 183-190: the install script of the entry host. -/
def installScript1 : Str :=
  ("\n" ++
   "\t\texport DEBIAN_FRONTEND=noninteractive\n" ++
   "\t\tsudo apt-get update\n" ++
   "\t\tsudo apt-get install -y strongswan strongswan-pki libcharon-extra-plugins libcharon-extauth-plugins\n" ++
   "\t\t\n" ++
   "\t\t# Disable kernel-libipsec - native kernel IPsec is better to avoid routing lockouts\n" ++
   "\t\techo 'kernel-libipsec \x7b load = no \x7d' | sudo tee /etc/strongswan.d/charon/kernel-libipsec.conf\n" ++
   "\t").toList

/-- Lines 243-273: the certificate-generation script of `generateCertificates`. -/
def certScript (caName ip : Str) : Str :=
  ("\n" ++
   "\t\tsudo mkdir -p /etc/ipsec.d/\x7bcacerts,certs,private\x7d\n" ++
   "\t\t\n" ++
   "\t\t# Generate CA key and certificate\n" ++
   "\t\tif [ ! -f /etc/ipsec.d/private/ca-key.pem ]; then\n" ++
   "\t\t\tsudo ipsec pki --gen --type rsa --size 4096 --outform pem > /tmp/ca-key.pem\n" ++
   "\t\t\tsudo mv /tmp/ca-key.pem /etc/ipsec.d/private/ca-key.pem\n" ++
   "\t\t\t\n" ++
   "\t\t\tsudo ipsec pki --self --ca --lifetime 3650 \\\n" ++
   "\t\t\t\t--in /etc/ipsec.d/private/ca-key.pem \\\n" ++
   "\t\t\t\t--type rsa --dn \"CN=").toList ++
  caName ++
  ("\" \\\n" ++
   "\t\t\t\t--outform pem > /tmp/ca-cert.pem\n" ++
   "\t\t\tsudo mv /tmp/ca-cert.pem /etc/ipsec.d/cacerts/ca-cert.pem\n" ++
   "\t\tfi\n" ++
   "\t\t\n" ++
   "\t\t# Generate server key and certificate\n" ++
   "\t\tsudo ipsec pki --gen --type rsa --size 4096 --outform pem > /tmp/server-key.pem\n" ++
   "\t\tsudo mv /tmp/server-key.pem /etc/ipsec.d/private/server-key.pem\n" ++
   "\t\t\n" ++
   "\t\tsudo ipsec pki --pub --in /etc/ipsec.d/private/server-key.pem --type rsa \\\n" ++
   "\t\t\t| sudo ipsec pki --issue --lifetime 1825 \\\n" ++
   "\t\t\t--cacert /etc/ipsec.d/cacerts/ca-cert.pem \\\n" ++
   "\t\t\t--cakey /etc/ipsec.d/private/ca-key.pem \\\n" ++
   "\t\t\t--dn \"CN=").toList ++
  ip ++
  "\" --san \"".toList ++
  ip ++
  ("\" \\\n" ++
   "\t\t\t--flag serverAuth --flag ikeIntermediate \\\n" ++
   "\t\t\t--outform pem > /tmp/server-cert.pem\n" ++
   "\t\tsudo mv /tmp/server-cert.pem /etc/ipsec.d/certs/server-cert.pem\n" ++
   "\n" ++
   "\t\t# Add server key to ipsec.secrets if not present\n" ++
   "\t\tgrep -q \": RSA server-key.pem\" /etc/ipsec.secrets || echo \": RSA server-key.pem\" | sudo tee -a /etc/ipsec.secrets\n" ++
   "\t").toList

/-- Lines 283-310: the daemon configuration of the exit node, line by line. -/
def exitConfLines (serverIP subnet : Str) : List Str :=
  [ [],
    "config setup".toList,
    "    charondebug=\"ike 1, knl 1, cfg 0\"".toList,
    "    uniqueids=no".toList,
    [],
    "conn ikev2-tunnel".toList,
    "    auto=add".toList,
    "    compress=no".toList,
    "    type=tunnel".toList,
    "    keyexchange=ikev2".toList,
    "    fragmentation=yes".toList,
    "    forceencaps=yes".toList,
    "    dpdaction=clear".toList,
    "    dpddelay=300s".toList,
    "    rekey=no".toList,
    "    left=%any".toList,
    "    leftid=".toList ++ serverIP,
    "    leftcert=server-cert.pem".toList,
    "    leftsendcert=always".toList,
    "    leftsubnet=0.0.0.0/0".toList,
    "    right=%any".toList,
    "    rightid=%any".toList,
    "    rightauth=eap-mschapv2".toList,
    "    rightsourceip=".toList ++ subnet,
    "    rightdns=8.8.8.8,8.8.4.4".toList,
    "    rightsendcert=never".toList,
    "    eap_identity=%identity".toList,
    [] ]

/-- Lines 283-310: the daemon configuration of the exit node. -/
def exitConf (serverIP subnet : Str) : Str :=
  joinLines (exitConfLines serverIP subnet)

/-- Lines 312-339: the daemon configuration of the entry node, line by line. -/
def entryConfLines (serverIP subnet : Str) : List Str :=
  [ [],
    "config setup".toList,
    "    charondebug=\"ike 1, knl 1, cfg 0\"".toList,
    "    uniqueids=no".toList,
    [],
    "conn ikev2-vpn".toList,
    "    auto=add".toList,
    "    compress=no".toList,
    "    type=tunnel".toList,
    "    keyexchange=ikev2".toList,
    "    fragmentation=yes".toList,
    "    forceencaps=yes".toList,
    "    dpdaction=clear".toList,
    "    dpddelay=300s".toList,
    "    rekey=no".toList,
    "    left=%any".toList,
    "    leftid=".toList ++ serverIP,
    "    leftcert=server-cert.pem".toList,
    "    leftsendcert=always".toList,
    "    leftsubnet=0.0.0.0/0".toList,
    "    right=%any".toList,
    "    rightid=%any".toList,
    "    rightauth=eap-mschapv2".toList,
    "    rightsourceip=".toList ++ subnet,
    "    rightdns=8.8.8.8,8.8.4.4".toList,
    "    rightsendcert=never".toList,
    "    eap_identity=%identity".toList,
    [] ]

/-- Lines 312-339: the daemon configuration of the entry node. -/
def entryConf (serverIP subnet : Str) : Str :=
  joinLines (entryConfLines serverIP subnet)

/-- The command `echo '%s' | sudo tee path` of lines 343, 356, 402, 408, 455 and 480. -/
def teeCmd (text path : Str) : Str :=
  "echo ".toList ++ [Char.ofNat 39] ++ text ++ [Char.ofNat 39] ++ " | sudo tee ".toList ++ path

/-- The daemon configuration file. -/
def ipsecConfPath : Str :=
  "/etc/ipsec.conf".toList

/-- The file of line 356. -/
def charonPrioPath : Str :=
  "/etc/strongswan.d/charon-prio.conf".toList

/-- The file of line 402. -/
def server2CaPath : Str :=
  "/etc/ipsec.d/cacerts/server2-ca.pem".toList

/-- The file of line 408. -/
def server1CaPath : Str :=
  "/etc/ipsec.d/cacerts/server1-ca.pem".toList

/-- Lines 350-355: the charon settings that stop automatic route installation. -/
def charonConf : Str :=
  ("\n" ++
   "charon \x7b\n" ++
   "    install_routes = no\n" ++
   "    fragment_size = 1200\n" ++
   "\x7d\n").toList

/-- Lines 362 and 493: detecting the default interface. -/
def ifaceCmd : Str :=
  "ip route | grep default | awk '\x7bprint $5\x7d' | head -1".toList

/-- Lines 369-390: the firewall script, line by line. -/
def firewallScriptLines (iface : Str) : List Str :=
  [ [],
    "\t\t# Always ensure SSH is allowed first".toList,
    "\t\tsudo iptables -I INPUT 1 -p tcp --dport 22 -j ACCEPT".toList,
    "\t\tsudo iptables -I INPUT 1 -p udp --dport 500 -j ACCEPT".toList,
    "\t\tsudo iptables -I INPUT 1 -p udp --dport 4500 -j ACCEPT".toList,
    "\t\tsudo iptables -I INPUT 1 -p esp -j ACCEPT".toList,
    [],
    "\t\t# Skip NAT for traffic going through IPsec tunnel (critical for VPN chain)".toList,
    "\t\tsudo iptables -t nat -I POSTROUTING -s 10.10.0.0/16 -m policy --pol ipsec --dir out -j ACCEPT".toList,
    "\t\t".toList,
    "\t\t# Enable NAT for traffic NOT going through IPsec (fallback)".toList,
    "\t\tsudo iptables -t nat -A POSTROUTING -s 10.10.0.0/16 -o ".toList ++ iface ++ " -j MASQUERADE".toList,
    "\t\t".toList,
    "\t\t# Allow forwarding".toList,
    "\t\tsudo iptables -A FORWARD -m conntrack --ctstate RELATED,ESTABLISHED -j ACCEPT".toList,
    "\t\tsudo iptables -A FORWARD -s 10.10.0.0/16 -j ACCEPT".toList,
    "\t\t".toList,
    "\t\t# Persistent rules".toList,
    "\t\tif command -v netfilter-persistent >/dev/null; then".toList,
    "\t\t\tsudo netfilter-persistent save".toList,
    "\t\tfi".toList,
    "\t".toList ]

/-- Lines 369-390: the firewall script. -/
def firewallScript (iface : Str) : Str :=
  joinLines (firewallScriptLines iface)

/-- Lines 398 and 404: the certificate authority file of a host. -/
def caCertPath : Str :=
  "/etc/ipsec.d/cacerts/ca-cert.pem".toList

/-- Lines 411-453: the entry host configuration with the tunnel definition, line by line. -/
def tunnelConf1Lines (host1 vpnSubnet host2 : Str) : List Str :=
  [ [],
    "config setup".toList,
    "    charondebug=\"ike 1, knl 1, cfg 0\"".toList,
    "    uniqueids=no".toList,
    [],
    "conn ikev2-vpn".toList,
    "    auto=add".toList,
    "    compress=no".toList,
    "    type=tunnel".toList,
    "    keyexchange=ikev2".toList,
    "    fragmentation=yes".toList,
    "    forceencaps=yes".toList,
    "    dpdaction=clear".toList,
    "    dpddelay=300s".toList,
    "    rekey=no".toList,
    "    left=%any".toList,
    "    leftid=".toList ++ host1,
    "    leftcert=server-cert.pem".toList,
    "    leftsendcert=always".toList,
    "    leftsubnet=0.0.0.0/0".toList,
    "    right=%any".toList,
    "    rightid=%any".toList,
    "    rightauth=eap-mschapv2".toList,
    "    rightsourceip=".toList ++ vpnSubnet,
    "    rightdns=8.8.8.8,8.8.4.4".toList,
    "    rightsendcert=never".toList,
    "    eap_identity=%identity".toList,
    [],
    "conn tunnel-to-server2".toList,
    "    auto=start".toList,
    "    type=tunnel".toList,
    "    keyexchange=ikev2".toList,
    "    left=%defaultroute".toList,
    "    leftid=".toList ++ host1,
    "    leftauth=pubkey".toList,
    "    leftsendcert=always".toList,
    "    leftcert=server-cert.pem".toList,
    "    leftsubnet=".toList ++ vpnSubnet,
    "    right=".toList ++ host2,
    "    rightid=".toList ++ host2,
    "    rightauth=pubkey".toList,
    "    rightsubnet=0.0.0.0/0".toList,
    [] ]

/-- Lines 411-453: the entry host configuration with the tunnel definition. -/
def tunnelConf1 (host1 vpnSubnet host2 : Str) : Str :=
  joinLines (tunnelConf1Lines host1 vpnSubnet host2)

/-- Lines 458-478: the exit host configuration with the tunnel definition, line by line. -/
def tunnelConf2Lines (host1 vpnSubnet host2 : Str) : List Str :=
  [ [],
    "config setup".toList,
    "    charondebug=\"ike 1, knl 1, cfg 0\"".toList,
    "    uniqueids=no".toList,
    [],
    "conn tunnel-from-server1".toList,
    "    auto=add".toList,
    "    type=tunnel".toList,
    "    keyexchange=ikev2".toList,
    "    left=%defaultroute".toList,
    "    leftid=".toList ++ host2,
    "    leftauth=pubkey".toList,
    "    leftsendcert=always".toList,
    "    leftcert=server-cert.pem".toList,
    "    leftsubnet=0.0.0.0/0".toList,
    "    right=".toList ++ host1,
    "    rightid=".toList ++ host1,
    "    rightauth=pubkey".toList,
    "    rightsubnet=".toList ++ vpnSubnet,
    "    rightsendcert=never".toList,
    [] ]

/-- Lines 458-478: the exit host configuration with the tunnel definition. -/
def tunnelConf2 (host1 vpnSubnet host2 : Str) : Str :=
  joinLines (tunnelConf2Lines host1 vpnSubnet host2)

/-- Line 497: detecting the default gateway. -/
def gwCmd (iface : Str) : Str :=
  "ip route show default dev ".toList ++
  iface ++
  " | awk '\x7bprint $3\x7d' | head -1".toList

/-- Lines 501-522: the policy-routing script, line by line. -/
def routingScriptLines (host1 host2 gw iface vpnSubnet : Str) : List Str :=
  [ [],
    "\t\t# 1. Prevent lockout: Traffic FROM server IP always goes via main table".toList,
    "\t\tsudo ip rule add from ".toList ++ host1 ++ " lookup main pref 100 2>/dev/null || true".toList,
    [],
    "\t\t# 2. Ensure route to Server 2 is always via direct gateway".toList,
    "\t\tsudo ip route add ".toList ++ host2 ++ " via ".toList ++ gw ++ " dev ".toList ++ iface ++ " 2>/dev/null || true".toList,
    [],
    "\t\t# 3. Handle VPN client routing: ONLY traffic from VPNSubnet follows IPsec table 220".toList,
    "\t\t# First, remove existing generic 'from all' rule if any".toList,
    "\t\tsudo ip rule del from all lookup 220 2>/dev/null || true".toList,
    "\t\t".toList,
    "\t\t# Add specific rule for our clients".toList,
    "\t\tsudo ip rule add from ".toList ++ vpnSubnet ++ " lookup 220 pref 220 2>/dev/null || true".toList,
    [],
    "\t\t# Ensure table 220 has a default route to trigger the SPD (even if dummy)".toList,
    "\t\t# If kernel-libipsec created ipsec0, use it. Otherwise use eth0.".toList,
    "\t\tif ip link show ipsec0 >/dev/null 2>&1; then".toList,
    "\t\t\tsudo ip route add default dev ipsec0 table 220 2>/dev/null || true".toList,
    "\t\telse".toList,
    "\t\t\tsudo ip route add default dev ".toList ++ iface ++ " table 220 2>/dev/null || true".toList,
    "\t\tfi".toList,
    "\t".toList ]

/-- Lines 501-522: the policy-routing script. -/
def routingScript (host1 host2 gw iface vpnSubnet : Str) : Str :=
  joinLines (routingScriptLines host1 host2 gw iface vpnSubnet)

/-! ## `internal/vpn/setup.go`: the provisioning run -/

/-- Go struct `ssh.ServerConfig`. -/
structure ServerConfig where
  Host : Str
  Port : Int
  User : Str
  Password : Str
  KeyPath : Str
  KeyContent : List Nat
  deriving DecidableEq, Repr

/-- Go struct `SetupConfig`; the two server configurations are shared with the caller. -/
structure SetupConfig where
  Server1 : ServerConfig
  Server2 : ServerConfig
  VPNSubnet : Str
  TunnelSubnet : Str
  Server1Domain : Str
  Server2Domain : Str
  deriving DecidableEq, Repr

/-- The two hosts of the chain: Server 1 is the entry host, Server 2 the exit host. -/
inductive Host where
  | server1
  | server2
  deriving DecidableEq, Repr

/-- What a provisioning run does, as seen from outside. -/
inductive Event where
  | log (msg : Str)
  | connect (h : Host)
  | run (h : Host) (cmd : Str)
  | close (h : Host)
  deriving DecidableEq, Repr

/-- The two remote hosts: `dial` is the error of `Connect` (`none` for success),
`answer` what a host answers to a command, given everything that happened
before in the run. -/
structure Remote where
  dial : Host → Option Str
  answer : Host → List Event → Str → Except Str Str

/-- Go struct `Manager` with the world it acts on. A client is `none` for a nil
pointer, and otherwise says whether it holds a connection. The logger's calls
are events of the trace. -/
structure Manager where
  config : SetupConfig
  remote : Remote
  client1 : Option Bool
  client2 : Option Bool
  trace : List Event

/-- A part of the run: it returns the Go `error` (`none` for nil) and the new state. -/
abbrev Step := Manager → Option Str × Manager

/-- Method `Logger.Log`, and `Logf` with the message already formatted. -/
def Manager.log (m : Manager) (msg : Str) : Manager :=
  { m with trace := m.trace ++ [.log msg] }

/-- The client for a host. -/
def Manager.client (m : Manager) : Host → Option Bool
  | .server1 => m.client1
  | .server2 => m.client2

/-- Method `Client.Run` on the client for `h`. -/
def Manager.run (m : Manager) (h : Host) (cmd : Str) : Except Str Str × Manager :=
  if m.client h = some true then
    (m.remote.answer h m.trace cmd, { m with trace := m.trace ++ [.run h cmd] })
  else (.error "not connected".toList, m)

/-- Method `Client.ReadFile`: `cat` of the path. -/
def Manager.readFile (m : Manager) (h : Host) (path : Str) : Except Str Str × Manager :=
  m.run h ("cat ".toList ++ path)

/-- Method `Client.Close` on the client for `h`: only a held connection is closed. -/
def Manager.close (m : Manager) (h : Host) : Manager :=
  if m.client h = some true then { m with trace := m.trace ++ [.close h] } else m

/-- Function `ssh.NewClient`: it fills in the default port in the caller's configuration. -/
def NewClient (config : ServerConfig) : ServerConfig :=
  if config.Port = 0 then { config with Port := 22 } else config

/-- The output of a `Run` whose error is discarded: empty when the command failed. -/
def outputOf (r : Except Str Str) : Str :=
  match r with
  | .ok o => o
  | .error _ => []

/-- Prefixing an error as `fmt.Errorf("...: %w", err)` does. -/
def wrapErr (pre : Str) (r : Option Str × Manager) : Option Str × Manager :=
  match r with
  | (some err, m) => (some (pre ++ err), m)
  | (none, m) => (none, m)

/-- The error of a `Run`, as a step result. -/
def errOf (r : Except Str Str × Manager) : Option Str × Manager :=
  match r with
  | (.error err, m) => (some err, m)
  | (.ok _, m) => (none, m)

/-- Steps in sequence, stopping at the first error. -/
def runSteps : List Step → Step
  | [], m => (none, m)
  | s :: rest, m =>
    match s m with
    | (some err, m1) => (some err, m1)
    | (none, m1) => runSteps rest m1

/-- Go `strings.ReplaceAll(s, "'", "'\\''")`. -/
def escapeQuotes (s : Str) : Str :=
  (s.map (fun c => if c = Char.ofNat 39 then
    [Char.ofNat 39, Char.ofNat 92, Char.ofNat 39, Char.ofNat 39] else [c])).flatten

/-- Method `Manager.connectServers`. -/
def connectServers (m : Manager) : Option Str × Manager :=
  let m := m.log "Connecting to servers...".toList
  let m := { m with config := { m.config with Server1 := NewClient m.config.Server1 },
                    client1 := some false }
  match m.remote.dial .server1 with
  | some err => (some ("failed to connect to Server 1: ".toList ++ err), m)
  | none =>
    let m := { m with client1 := some true, trace := m.trace ++ [Event.connect Host.server1] }
    let m := m.log ("Connected to Server 1: ".toList ++ m.config.Server1.Host)
    let m := { m with config := { m.config with Server2 := NewClient m.config.Server2 },
                      client2 := some false }
    match m.remote.dial .server2 with
    | some err => (some ("failed to connect to Server 2: ".toList ++ err), m.close .server1)
    | none =>
      let m := { m with client2 := some true, trace := m.trace ++ [Event.connect Host.server2] }
      let m := m.log ("Connected to Server 2: ".toList ++ m.config.Server2.Host)
      (none, m)

/-- Method `Manager.disconnectServers`. -/
def disconnectServers (m : Manager) : Manager :=
  let m := if m.client1 ≠ none then m.close .server1 else m
  if m.client2 ≠ none then m.close .server2 else m

/-- Method `Manager.generateCertificates`; the domain argument is not used by the script. -/
def generateCertificates (h : Host) (domain ip caName : Str) : Step := fun m =>
  errOf (m.run h (certScript caName ip))

/-- The configuration text of `configureIPsec` (lines 280-340). -/
def ipsecConf (isExitNode : Bool) (serverIP subnet : Str) : Str :=
  if isExitNode then exitConf serverIP subnet else entryConf serverIP subnet

/-- Method `Manager.configureIPsec`. -/
def configureIPsec (h : Host) (serverIP subnet : Str) (isExitNode : Bool) : Step := fun m =>
  let p := m.run h (teeCmd (escapeQuotes (ipsecConf isExitNode serverIP subnet)) ipsecConfPath)
  match p.1 with
  | .error err => (some err, p.2)
  | .ok _ =>
    let q := p.2.run h (teeCmd charonConf charonPrioPath)
    (none, q.2)

/-- Method `Manager.configureFirewall`; the role argument is not used by the script. -/
def configureFirewall (h : Host) (isExitNode : Bool) : Step := fun m =>
  let p := m.run h ifaceCmd
  match p.1 with
  | .error err => (some err, p.2)
  | .ok iface => errOf (p.2.run h (firewallScript (TrimSpace iface)))

/-- Lines 114-124 and 177-194: install the daemon unless `which ipsec` succeeds. -/
def installStep (h : Host) (tag installCmd : Str) : Step := fun m =>
  let m := m.log (tag ++ " Checking StrongSwan installation...".toList)
  let p := m.run h whichCmd
  match p.1 with
  | .ok _ => (none, p.2.log (tag ++ " StrongSwan already installed.".toList))
  | .error _ =>
    let m := p.2.log (tag ++ " Installing StrongSwan...".toList)
    wrapErr "failed to install StrongSwan: ".toList (errOf (m.run h installCmd))

/-- Line 127: the plugin is disabled on the exit host, whatever the outcome. -/
def libipsecStep : Step := fun m =>
  (none, (m.run .server2 libipsecCmd).2)

/-- Lines 130-139 and 197-206. -/
def forwardStep (h : Host) (tag : Str) : Step := fun m =>
  let m := m.log (tag ++ " Enabling IP forwarding...".toList)
  wrapErr "failed to enable IP forwarding: ".toList (errOf (m.run h forwardScript))

/-- Lines 141-151 and 208-218: certificates are generated unless the probe succeeds. -/
def certStep (h : Host) (tag domain ip caName : Str) : Step := fun m =>
  let m := m.log (tag ++ " Checking certificates...".toList)
  let p := m.run h checkCertCmd
  match p.1 with
  | .ok _ => (none, p.2.log (tag ++ " Certificates already exist.".toList))
  | .error _ =>
    let m := p.2.log (tag ++ " Generating certificates...".toList)
    wrapErr "failed to generate certificates: ".toList (generateCertificates h domain ip caName m)

/-- Lines 153-157 and 220-224. -/
def ipsecStep (h : Host) (tag serverIP subnet : Str) (isExitNode : Bool) : Step := fun m =>
  let m := m.log (tag ++ " Configuring IPsec...".toList)
  wrapErr "failed to configure IPsec: ".toList (configureIPsec h serverIP subnet isExitNode m)

/-- Lines 159-163 and 226-230. -/
def firewallStep (h : Host) (tag : Str) (isExitNode : Bool) : Step := fun m =>
  let m := m.log (tag ++ " Configuring firewall...".toList)
  wrapErr "failed to configure firewall: ".toList (configureFirewall h isExitNode m)

/-- Lines 165-170 and 232-237. -/
def restartStep (h : Host) (tag : Str) : Step := fun m =>
  let m := m.log (tag ++ " Restarting StrongSwan...".toList)
  wrapErr "failed to restart StrongSwan: ".toList (errOf (m.run h restartCmd))

def tag1 : Str := "[Server 1]".toList
def tag2 : Str := "[Server 2]".toList

/-- The steps of `setupServer2`, in the order of the source. -/
def server2Steps (c : SetupConfig) : List Step :=
  [ installStep .server2 tag2 installCmd2,
    libipsecStep,
    forwardStep .server2 tag2,
    certStep .server2 tag2 c.Server2Domain c.Server2.Host "VPN CA Server 2".toList,
    ipsecStep .server2 tag2 c.Server2.Host c.TunnelSubnet true,
    firewallStep .server2 tag2 true,
    restartStep .server2 tag2 ]

/-- Method `Manager.setupServer2`. -/
def setupServer2 : Step := fun m => runSteps (server2Steps m.config) m

/-- The steps of `setupServer1`, in the order of the source. -/
def server1Steps (c : SetupConfig) : List Step :=
  [ installStep .server1 tag1 installScript1,
    forwardStep .server1 tag1,
    certStep .server1 tag1 c.Server1Domain c.Server1.Host "VPN CA Server 1".toList,
    ipsecStep .server1 tag1 c.Server1.Host c.VPNSubnet false,
    firewallStep .server1 tag1 false,
    restartStep .server1 tag1 ]

/-- Method `Manager.setupServer1`. -/
def setupServer1 : Step := fun m => runSteps (server1Steps m.config) m

/-- Method `Manager.setupTunnel`. -/
def setupTunnel : Step := fun m =>
  let c := m.config
  let p := m.readFile .server2 caCertPath
  match p.1 with
  | .error err => (some ("failed to read CA cert from Server 2: ".toList ++ err), p.2)
  | .ok caCert2 =>
    let m := (p.2.run .server1 (teeCmd caCert2 server2CaPath)).2
    let q := m.readFile .server1 caCertPath
    match q.1 with
    | .error err => (some ("failed to read CA cert from Server 1: ".toList ++ err), q.2)
    | .ok caCert1 =>
      let m := (q.2.run .server2 (teeCmd caCert1 server1CaPath)).2
      let m := (m.run .server1 (teeCmd
        (escapeQuotes (tunnelConf1 c.Server1.Host c.VPNSubnet c.Server2.Host)) ipsecConfPath)).2
      let m := (m.run .server2 (teeCmd
        (escapeQuotes (tunnelConf2 c.Server1.Host c.VPNSubnet c.Server2.Host)) ipsecConfPath)).2
      let m := (m.run .server1 restartCmd).2
      let m := (m.run .server2 restartCmd).2
      (none, m)

/-- Method `Manager.setupRouting`. -/
def setupRouting : Step := fun m =>
  let c := m.config
  let m := m.log "Configuring policy routing and fixing potential lockouts...".toList
  let p := m.run .server1 ifaceCmd
  let iface := TrimSpace (outputOf p.1)
  let q := p.2.run .server1 (gwCmd iface)
  let gw := TrimSpace (outputOf q.1)
  errOf (q.2.run .server1 (routingScript c.Server1.Host c.Server2.Host gw iface c.VPNSubnet))

/-- The four stages of `SetupAll` (lines 56-78), each with its log line and its
error prefix. -/
def stageSteps : List Step :=
  [ fun m => wrapErr "failed to setup Server 2: ".toList
      (setupServer2 (m.log "Setting up Server 2 (exit node)...".toList)),
    fun m => wrapErr "failed to setup Server 1: ".toList
      (setupServer1 (m.log "Setting up Server 1 (entry point + tunnel client)...".toList)),
    fun m => wrapErr "failed to setup tunnel: ".toList
      (setupTunnel (m.log "Configuring tunnel between servers...".toList)),
    fun m => wrapErr "failed to setup routing: ".toList
      (setupRouting (m.log "Configuring routing...".toList)) ]

/-- Method `Manager.SetupAll`; the deferred `disconnectServers` runs on every
return after the connection. -/
def SetupAll : Step := fun m =>
  let m := m.log "Starting VPN chain setup...".toList
  match connectServers m with
  | (some err, m1) => (some err, m1)
  | (none, m1) =>
    match runSteps stageSteps m1 with
    | (some err, m2) => (some err, disconnectServers m2)
    | (none, m2) =>
      (none, disconnectServers (m2.log "VPN chain setup completed successfully!".toList))

/-- Function `NewManager`, on a given pair of hosts. -/
def NewManager (config : SetupConfig) (remote : Remote) : Manager :=
  { config := config, remote := remote, client1 := none, client2 := none, trace := [] }

/-! ### Reading of the provisioning claims -/

/-- State `m2` is state `m1` after more events, all of them satisfying `P`;
configuration, hosts and clients are the same. -/
def Grows (P : Event → Prop) (m1 m2 : Manager) : Prop :=
  m2.config = m1.config ∧ m2.remote = m1.remote ∧
  m2.client1 = m1.client1 ∧ m2.client2 = m1.client2 ∧
  ∃ evs, m2.trace = m1.trace ++ evs ∧ ∀ ev ∈ evs, P ev

/-- A log line or a command sent to host `h`. -/
def onHost (h : Host) : Event → Prop
  | .log _ => True
  | .run h2 _ => h2 = h
  | .connect _ => False
  | .close _ => False

/-- A log line or a command, to either host. -/
def isWork : Event → Prop
  | .log _ => True
  | .run _ _ => True
  | .connect _ => False
  | .close _ => False

/-- Anything but a certificate-generation command. -/
def notCertGen : Event → Prop
  | .run _ cmd => ∀ caName ip, cmd ≠ certScript caName ip
  | _ => True

def startMsg : Str := "Starting VPN chain setup...".toList
def connectingMsg : Str := "Connecting to servers...".toList

/-- The state in which the stages start: after the first log line and the connection. -/
def connected (m : Manager) : Manager :=
  (connectServers (m.log startMsg)).2

def server2Msg : Str := "Setting up Server 2 (exit node)...".toList
def server1Msg : Str := "Setting up Server 1 (entry point + tunnel client)...".toList
def tunnelMsg : Str := "Configuring tunnel between servers...".toList
def routingMsg : Str := "Configuring routing...".toList
def doneMsg : Str := "VPN chain setup completed successfully!".toList

/-- An event of a stage on host `h` that generates no certificate. -/
def stageEvent (h : Host) (ev : Event) : Prop := onHost h ev ∧ notCertGen ev


/-- A topology with two hosts and the usual address pools. -/
def sampleConfig : SetupConfig :=
  { Server1 := { Host := "198.51.100.1".toList, Port := 0, User := "root".toList,
                 Password := "pw1".toList, KeyPath := [], KeyContent := [] },
    Server2 := { Host := "203.0.113.2".toList, Port := 22, User := "root".toList,
                 Password := "pw2".toList, KeyPath := [], KeyContent := [] },
    VPNSubnet := "10.10.10.0/24".toList, TunnelSubnet := "10.10.20.0/24".toList,
    Server1Domain := "vpn1.example.org".toList, Server2Domain := "vpn2.example.org".toList }

/-- Hosts that accept the connection unless listed in `refuse`, and answer
every command with the interface name, except that a command on a host for
which `failing` holds fails. -/
def sampleRemote (refuse : List Host) (failing : Host → Str → Bool) : Remote :=
  { dial := fun h => if h ∈ refuse then some "connection refused".toList else none,
    answer := fun h _ cmd =>
      if failing h cmd then .error "exit status 1".toList else .ok "eth0\n".toList }

/-- The exit-host stage, run in its place: after the connection and its log line. -/
def stage2 (m : Manager) : Option Str × Manager :=
  setupServer2 ((connected m).log server2Msg)

/-- The entry-host stage, run in its place. -/
def stage1 (m : Manager) : Option Str × Manager :=
  setupServer1 ((stage2 m).2.log server1Msg)

/-- The tunnel stage, run in its place. -/
def stageT (m : Manager) : Option Str × Manager :=
  setupTunnel ((stage1 m).2.log tunnelMsg)

/-- The routing stage, run in its place. -/
def stageR (m : Manager) : Option Str × Manager :=
  setupRouting ((stageT m).2.log routingMsg)

/-- Hosts on which only the daemon restart of the exit host fails. -/
def restartFails : Remote :=
  sampleRemote [] (fun h cmd => h == .server2 && cmd == restartCmd)

/-- Hosts on which only writing Server 2's certificate authority to the entry
host fails. -/
def caWriteFails : Remote :=
  sampleRemote [] (fun _ cmd => server2CaPath.reverse.isPrefixOf cmd.reverse)

/-- Hosts on which only the certificate probe fails. -/
def probeFails : Remote :=
  sampleRemote [] (fun _ cmd => cmd == checkCertCmd)

/-- An event that is not a certificate-generation command sent to host `h`. -/
def noCertGenOn (h : Host) (ev : Event) : Prop :=
  ∀ cmd, ev = .run h cmd → ∀ caName ip, cmd ≠ certScript caName ip

/-! ### The packet filter, as the firewall claims read it -/

/-- A rule row of a chain: the words of the rule specification. -/
abbrev Row := List Str

/-- The three chains the firewall script changes. -/
inductive Chain where
  | INPUT
  | FORWARD
  | POSTROUTING
  deriving DecidableEq, Repr

/-- What an `iptables` command line asks for: insert a row at a position of a
chain (positions count from 1), or append it. -/
inductive RuleCmd where
  | insert (chain : Chain) (pos : Nat) (row : Row)
  | append (chain : Chain) (row : Row)
  deriving DecidableEq, Repr

/-- The chains of a host, each an ordered list of rule rows; the first match wins. -/
structure Firewall where
  INPUT : List Row
  FORWARD : List Row
  POSTROUTING : List Row
  deriving DecidableEq, Repr

def Firewall.get (fw : Firewall) : Chain → List Row
  | .INPUT => fw.INPUT
  | .FORWARD => fw.FORWARD
  | .POSTROUTING => fw.POSTROUTING

def Firewall.set (fw : Firewall) (c : Chain) (rows : List Row) : Firewall :=
  match c with
  | .INPUT => { fw with INPUT := rows }
  | .FORWARD => { fw with FORWARD := rows }
  | .POSTROUTING => { fw with POSTROUTING := rows }

/-- A decimal number, if the word is one. -/
def toNat? (s : Str) : Option Nat :=
  if s.isEmpty || !s.all Char.isDigit then none
  else some (s.foldl (fun n c => 10 * n + (c.toNat - '0'.toNat)) 0)

/-- The chain named by a table and a chain name, for the three chains of the model. -/
def chainOf (table name : Str) : Option Chain :=
  if table == "filter".toList && name == "INPUT".toList then some .INPUT
  else if table == "filter".toList && name == "FORWARD".toList then some .FORWARD
  else if table == "nat".toList && name == "POSTROUTING".toList then some .POSTROUTING
  else none

/-- The words after `sudo iptables [-t table]`, read as a rule command:
`-I chain [rulenum] rule` inserts (at position 1 when no number is given) and
`-A chain rule` appends. -/
def ruleOf (table : Str) (words : List Str) : Option RuleCmd :=
  match words with
  | op :: name :: spec =>
    match chainOf table name with
    | none => none
    | some chain =>
      if op == "-I".toList then
        match spec with
        | n :: spec2 =>
          match toNat? n with
          | some k => some (.insert chain k spec2)
          | none => some (.insert chain 1 spec)
        | [] => some (.insert chain 1 [])
      else if op == "-A".toList then some (.append chain spec)
      else none
  | _ => none

/-- A line of a script, read as a rule command of `iptables`, if it is one. -/
def parseRule (line : Str) : Option RuleCmd :=
  match Fields line with
  | s :: i :: rest =>
    if s == "sudo".toList && i == "iptables".toList then
      match rest with
      | t :: table :: rest2 =>
        if t == "-t".toList then ruleOf table rest2 else ruleOf "filter".toList rest
      | _ => ruleOf "filter".toList rest
    else none
  | _ => none

/-- Inserting a row before index `n`; nothing happens when the index is too big. -/
def insertAt : Nat → Row → List Row → List Row
  | 0, r, rows => r :: rows
  | _ + 1, _, [] => []
  | n + 1, r, x :: xs => x :: insertAt n r xs

/-- The effect of one rule command. -/
def applyRule (fw : Firewall) (c : RuleCmd) : Firewall :=
  match c with
  | .insert chain pos row =>
    if pos = 0 then fw else fw.set chain (insertAt (pos - 1) row (fw.get chain))
  | .append chain row => fw.set chain (fw.get chain ++ [row])

/-- The rule commands of a script, in order. -/
def ruleCmds (script : Str) : List RuleCmd := (splitLines script).filterMap parseRule

/-- The effect of a script on the chains. -/
def applyScript (script : Str) (fw : Firewall) : Firewall :=
  (ruleCmds script).foldl applyRule fw

def allowSsh : Row := ["-p".toList, "tcp".toList, "--dport".toList, "22".toList, "-j".toList, "ACCEPT".toList]
def allowIke : Row := ["-p".toList, "udp".toList, "--dport".toList, "500".toList, "-j".toList, "ACCEPT".toList]
def allowNatT : Row := ["-p".toList, "udp".toList, "--dport".toList, "4500".toList, "-j".toList, "ACCEPT".toList]
def allowEsp : Row := ["-p".toList, "esp".toList, "-j".toList, "ACCEPT".toList]

/-- The NAT exemption for traffic that leaves through the IPsec policy. -/
def natExempt : Row :=
  ["-s".toList, "10.10.0.0/16".toList, "-m".toList, "policy".toList, "--pol".toList,
   "ipsec".toList, "--dir".toList, "out".toList, "-j".toList, "ACCEPT".toList]

/-- The masquerade rule for the detected interface. -/
def masquerade (iface : Str) : Row :=
  ["-s".toList, "10.10.0.0/16".toList, "-o".toList] ++ Fields iface ++
    ["-j".toList, "MASQUERADE".toList]

def forwardEstablished : Row :=
  ["-m".toList, "conntrack".toList, "--ctstate".toList, "RELATED,ESTABLISHED".toList,
   "-j".toList, "ACCEPT".toList]

def forwardPool : Row := ["-s".toList, "10.10.0.0/16".toList, "-j".toList, "ACCEPT".toList]

/-- A packet filter without rules. -/
def emptyFirewall : Firewall := { INPUT := [], FORWARD := [], POSTROUTING := [] }

/-- The line of the firewall script that holds the interface name. -/
def masqLine (iface : Str) : Str :=
  "\t\tsudo iptables -t nat -A POSTROUTING -s 10.10.0.0/16 -o ".toList ++ iface ++
    " -j MASQUERADE".toList

/-- The packet filter of host `h` after the commands of a run, in order: every
command sent to `h` acts through its rule commands. -/
def firewallAfter (h : Host) (evs : List Event) (fw : Firewall) : Firewall :=
  evs.foldl (fun fw ev =>
    match ev with
    | .run h2 cmd => if h2 = h then applyScript cmd fw else fw
    | _ => fw) fw

/-- A manager connected to two hosts that answer every command with `eth0`. -/
def sampleManager : Manager :=
  connected (NewManager sampleConfig (sampleRemote [] (fun _ _ => false)))

/-- The events a step adds to the run of `m`. -/
def eventsOf (s : Step) (m : Manager) : List Event :=
  (s m).2.trace.drop m.trace.length

/-- Two applications of `configureFirewall` in succession. -/
def configureFirewallTwice (h : Host) (isExitNode : Bool) : Step := fun m =>
  match configureFirewall h isExitNode m with
  | (some err, m1) => (some err, m1)
  | (none, m1) => configureFirewall h isExitNode m1

/-! ### The daemon configuration, as the rendering claim reads it -/

/-- The configuration text of `configureIPsec`, line by line. -/
def ipsecConfLines (isExitNode : Bool) (serverIP subnet : Str) : List Str :=
  if isExitNode then exitConfLines serverIP subnet else entryConfLines serverIP subnet

/-- The start of the line that holds the address pool of the clients. -/
def sourceKey : Str := "    rightsourceip=".toList

/-! ### Policy routing, as the routing claim reads it -/

/-- What an `ip rule` command line asks for: add or delete the rule that sends
traffic from a source to a routing table, with a preference if one is given. -/
structure IpRule where
  add : Bool
  src : Str
  table : Str
  pref : Option Nat
  deriving DecidableEq, Repr

/-- The words after `sudo ip rule`, read as `add|del from SRC lookup TABLE [pref N]`. -/
def ipRuleOf (words : List Str) : Option IpRule :=
  match words with
  | op :: f :: src :: l :: table :: rest =>
    if (op == "add".toList || op == "del".toList) && f == "from".toList &&
        l == "lookup".toList then
      some { add := op == "add".toList, src := src, table := table,
             pref := match rest with
               | p :: n :: _ => if p == "pref".toList then toNat? n else none
               | _ => none }
    else none
  | _ => none

/-- A line of a script, read as an `ip rule` command, if it is one. The line is
split at white space, which is how the shell splits a command line that holds
no character special to it (see `isPlain`). -/
def parseIpRule (line : Str) : Option IpRule :=
  match Fields line with
  | s :: i :: r :: rest =>
    if s == "sudo".toList && i == "ip".toList && r == "rule".toList then ipRuleOf rest
    else none
  | _ => none

/-- The `ip rule` commands of a script, in order. -/
def ipRules (script : Str) : List IpRule := (splitLines script).filterMap parseIpRule

/-- A word: not empty and without white space. -/
def isWord (s : Str) : Bool := !s.isEmpty && s.all (fun c => !isSpace c)

/-- The rule that keeps traffic from the entry host's own address on the main table. -/
def lockoutRule (host1 : Str) : IpRule :=
  { add := true, src := host1, table := "main".toList, pref := some 100 }

/-- The deletion of the rule that sends all traffic to table 220. -/
def dropAllRule : IpRule :=
  { add := false, src := "all".toList, table := "220".toList, pref := none }

/-- The rule that sends traffic from the client pool to table 220. -/
def poolRule (vpnSubnet : Str) : IpRule :=
  { add := true, src := vpnSubnet, table := "220".toList, pref := some 220 }

/-- The four lines of the routing script that hold parameters. -/
def lockoutLine (host1 : Str) : Str :=
  "\t\tsudo ip rule add from ".toList ++ host1 ++
    " lookup main pref 100 2>/dev/null || true".toList

def directRouteLine (host2 gw iface : Str) : Str :=
  "\t\tsudo ip route add ".toList ++ host2 ++ " via ".toList ++ gw ++ " dev ".toList ++ iface ++
    " 2>/dev/null || true".toList

def poolLine (vpnSubnet : Str) : Str :=
  "\t\tsudo ip rule add from ".toList ++ vpnSubnet ++
    " lookup 220 pref 220 2>/dev/null || true".toList

def defaultRouteLine (iface : Str) : Str :=
  "\t\t\tsudo ip route add default dev ".toList ++ iface ++
    " table 220 2>/dev/null || true".toList

/-- The interface name `setupRouting` works with: the trimmed answer to the probe. -/
def routingIface (m : Manager) : Str :=
  TrimSpace (outputOf (m.remote.answer .server1
    (m.trace ++ [.log "Configuring policy routing and fixing potential lockouts...".toList])
    ifaceCmd))

/-- The gateway `setupRouting` works with: the trimmed answer to the second probe. -/
def routingGw (m : Manager) : Str :=
  TrimSpace (outputOf (m.remote.answer .server1
    (m.trace ++ [.log "Configuring policy routing and fixing potential lockouts...".toList,
      .run .server1 ifaceCmd])
    (gwCmd (routingIface m))))

/-- The script `setupRouting` sends from state `m`. -/
def routingScriptOf (m : Manager) : Str :=
  routingScript m.config.Server1.Host m.config.Server2.Host (routingGw m) (routingIface m)
    m.config.VPNSubnet

/-- A character that means nothing to the shell: a letter, a digit, or one of
`.`, `:`, `/`, `-`, `_`. The shell passes a word of such characters to the
command as it is written. -/
def isPlainChar (c : Char) : Bool :=
  let n := c.toNat
  (48 ≤ n && n ≤ 57) || (65 ≤ n && n ≤ 90) || (97 ≤ n && n ≤ 122) ||
  n == 46 || n == 58 || n == 47 || n == 45 || n == 95

/-- A text of plain characters only; it may be empty. -/
def isPlain (s : Str) : Bool := s.all isPlainChar

/-- The prefix length written after the first slash of a source, if it is a
decimal number. -/
def prefixLen (src : Str) : Option Nat :=
  match src.dropWhile (fun c => c != '/') with
  | [] => none
  | _ :: n => toNat? n

/-- A source that `ip rule` reads as every address: one of the words `all`,
`any` and `default`, or a prefix of length zero such as `0.0.0.0/0`. -/
def everySource (src : Str) : Bool :=
  src == "all".toList || src == "any".toList || src == "default".toList ||
    prefixLen src == some 0

/-- The address of a host: a non-empty plain word without a slash that is not
one of the words for every address. -/
def isHostAddr (s : Str) : Bool :=
  !s.isEmpty && isPlain s && !s.contains '/' && !everySource s

/-- A client pool in prefix notation: a plain word with a decimal prefix length
above zero after its slash. -/
def isPool (s : Str) : Bool :=
  isPlain s && (match prefixLen s with
    | some n => decide (0 < n)
    | none => false)

/-! ## `internal/vpn/config.go`: `cleanPEMCert` -/

/-- Worker of `removeAll`: `skip` characters of the match just found are still
to be dropped. -/
def removeAllAux (old : Str) : Nat → Str → Str
  | _, [] => []
  | skip + 1, _ :: cs => removeAllAux old skip cs
  | 0, c :: cs =>
    if old.isPrefixOf (c :: cs) then removeAllAux old (old.length - 1) cs
    else c :: removeAllAux old 0 cs

/-- Go `strings.ReplaceAll(s, old, "")` for a non-empty `old`: the matches are
taken from left to right, without overlap, in one pass. -/
def removeAll (s old : Str) : Str := removeAllAux old 0 s

def beginMark : Str := "-----BEGIN CERTIFICATE-----".toList
def endMark : Str := "-----END CERTIFICATE-----".toList

/-- Function `cleanPEMCert` (config.go, lines 142-147). -/
def cleanPEMCert (pem : Str) : Str :=
  TrimSpace (removeAll (removeAll (removeAll pem beginMark) endMark) ['\n'])

/-- A text in which the line break sits inside the words of a header. -/
def brokenHeader : Str := "-----BEGIN CERT\nIFICATE-----".toList

/-- A certificate as the hosts store it: header line, body lines, footer line. -/
def samplePEM : Str :=
  "-----BEGIN CERTIFICATE-----\nMIIB\nAQID\n-----END CERTIFICATE-----\n".toList

/-! ## `internal/vpn/users.go`: `GeneratePassword` -/

/-- Go `make([]byte, n)`: a buffer of `n` zero bytes. The call does not return
(`none`) when `n` is negative or more than the runtime can allocate:
`maxAlloc` is that bound in bytes (at most 2^48 on 64-bit Linux, less where
memory is short). -/
def makeBytes (maxAlloc : Nat) (n : Int) : Option (List Nat) :=
  if 0 ≤ n ∧ n ≤ (maxAlloc : Int) then some (List.replicate n.toNat 0) else none

/-- The largest value of a Go `int` on a 64-bit platform. -/
def maxInt : Int := 2 ^ 63 - 1

/-- Go `rand.Read(buf)` of `crypto/rand`, whose results line 169 does not look
at; `rnd` lists the bytes the source delivers. When it delivers fewer bytes than
the buffer holds, the source has failed: a runtime that ends the program then
(`readFatal`, Go 1.24 and later) gives `none`; an earlier one returns an error,
which is dropped, and the rest of the buffer keeps the zeros of `make`. -/
def randRead (readFatal : Bool) (rnd buf : List Nat) : Option (List Nat) :=
  if readFatal && decide (rnd.length < buf.length) then none
  else some (randBytes rnd buf.length)

/-- Function `GeneratePassword` (users.go, lines 167-171); `length` is a Go
`int`, `maxAlloc` is what `make` can allocate, `readFatal` says whether a
failing random source ends the program, and `rnd` is what `crypto/rand`
delivers. The result is `none` when the Go code does not return: `make` with a
negative or too large length, a random source whose failure ends the program,
or a slice bound out of range. Go's `/` on `int` truncates toward zero. -/
def GeneratePassword (maxAlloc : Nat) (readFatal : Bool) (length : Int) (rnd : List Nat) :
    Option Str :=
  match makeBytes maxAlloc (Int.tdiv length 2 + 1) with
  | none => none
  | some buf =>
    match randRead readFatal rnd buf with
    | none => none
    | some bytes =>
      let text := hexEncode bytes
      if 0 ≤ length ∧ length ≤ (text.length : Int) then some (text.take length.toNat)
      else none

/-- The digits of `encoding/hex`. -/
def hexDigits : Str := "0123456789abcdef".toList

/-! ## `internal/ssh/keygen.go`: `RemoveKeyFromServer` -/

/-- Go `strings.ReplaceAll(s, "/", "\\/")`. -/
def escapeSlashes (s : Str) : Str :=
  (s.map (fun c => if c = '/' then [Char.ofNat 92, '/'] else [c])).flatten

def homeCmd : Str := "echo $HOME".toList

/-- The command of line 151, for a pattern and the path of the key file. -/
def removeKeyCmd (pat authKeysPath : Str) : Str :=
  "sed -i ".toList ++ [Char.ofNat 39] ++ "/".toList ++ pat ++ "/d".toList ++ [Char.ofNat 39] ++
    " ".toList ++ authKeysPath ++ " 2>/dev/null || true".toList

/-- Method `KeyGenerator.RemoveKeyFromServer` (the receiver has no part in it).
The key is a Go string, a sequence of bytes, here one character per byte. The
outer `none` is the run-time panic of the slice `escapedKey[:50]` when the
escaped key has fewer than 50 bytes; otherwise the result is the returned
`error` (`none` for nil) and the client after the call. -/
def RemoveKeyFromServer (client : Client) (publicKey : Str) : Option (Option Str × Client) :=
  match ensureConnected client with
  | (some err, c0) => some (some ("failed to connect: ".toList ++ err), c0)
  | (none, c0) =>
    let p := c0.Run homeCmd
    match p.1 with
    | .error err => some (some ("failed to get home directory: ".toList ++ err), p.2)
    | .ok homeDir =>
      let authKeysPath := TrimSpace homeDir ++ "/.ssh/authorized_keys".toList
      let escapedKey := escapeSlashes publicKey
      if 50 ≤ escapedKey.length then
        let q := p.2.Run (removeKeyCmd (escapedKey.take 50) authKeysPath)
        match q.1 with
        | .error err =>
          some (some ("failed to remove key from authorized_keys: ".toList ++ err), q.2)
        | .ok _ => some (none, q.2)
      else none

/-- A connected session whose host answers every command with `/root`. -/
def homeClient : Client :=
  { connected := true, connectErr := none, run := fun _ => .ok "/root\n".toList,
    runSudo := fun _ s => (.ok [], s), secrets := [], sent := [] }

/-- A public key line of 80 bytes, as `ssh-keygen -t ed25519` writes it. -/
def sampleKey : Str :=
  "ssh-ed25519 AAAAC3NzaC1lZDI1NTE5AAAAIHk/0v6Yq1mQn8m3o0v7m6n4bUuQq1c0Zr0m5S0d9XyZ".toList

/-! ## `internal/storage` -/

/-- Go struct `storage.ServerConfig`. -/
structure storage.ServerConfig where
  Name : Str
  Host : Str
  Port : Int
  User : Str
  Password : Str
  KeyPath : Str
  deriving DecidableEq, Repr

/-- Go struct `storage.AppConfig`. -/
structure storage.AppConfig where
  Servers : List storage.ServerConfig
  SSHKeyPath : Str
  deriving DecidableEq, Repr

/-- The entry the padding loop of `Load` appends when `n` servers are there:
the name ends in the character `'1' + n`. -/
def storage.padEntry (n : Nat) : storage.ServerConfig :=
  { Name := "Server ".toList ++ [Char.ofNat ('1'.toNat + n)], Host := [], Port := 22,
    User := [], Password := [], KeyPath := [] }

/-- Function `storage.NewAppConfig`. -/
def storage.NewAppConfig : storage.AppConfig :=
  { Servers := [{ Name := "Server 1".toList, Host := [], Port := 22, User := [], Password := [],
                  KeyPath := [] },
                { Name := "Server 2".toList, Host := [], Port := 22, User := [], Password := [],
                  KeyPath := [] }],
    SSHKeyPath := [] }

/-- The loop of lines 87-92 of `Load`: append entries while there are fewer than two. -/
def storage.padServers (servers : List storage.ServerConfig) : List storage.ServerConfig :=
  if servers.length < 2 then storage.padServers (servers ++ [storage.padEntry servers.length])
  else servers
termination_by 2 - servers.length
decreasing_by simp only [List.length_append, List.length_singleton]; omega

/-- What `os.ReadFile` gives: the content, the error of a missing file, or another error. -/
inductive storage.ReadResult where
  | data (content : Str)
  | notExist (err : Str)
  | failed (err : Str)
  deriving DecidableEq, Repr

/-- Method `Storage.Load`, given the outcome of reading the file and what
`json.Unmarshal` makes of a content. -/
def storage.Load (read : storage.ReadResult) (unmarshal : Str → Except Str storage.AppConfig) :
    Except Str storage.AppConfig :=
  match read with
  | .notExist _ => .ok storage.NewAppConfig
  | .failed err => .error err
  | .data content =>
    match unmarshal content with
    | .error err => .error err
    | .ok config => .ok { config with Servers := storage.padServers config.Servers }

/-- The name of the server at the 1-based position `k`. -/
def storage.serverName (k : Nat) : Str := "Server ".toList ++ (toString k).toList

/-! ### Reading of the tolerant-parsing claim -/

/-- The text `out` with the line `l` put in before its line of index `k` (after
the last line when `k` is large). -/
def insertLine (out : Str) (k : Nat) (l : Str) : Str :=
  joinLines ((splitLines out).take k ++ l :: (splitLines out).drop k)

/-- The session `c`, except that the host answers the status command with `out`. -/
def withStatusOutput (c : Client) (out : Str) : Client :=
  { c with run := fun cmd => if cmd == statusCmd then .ok out else c.run cmd }

/-- A saved configuration with one server. -/
def storage.oneServer : storage.AppConfig :=
  { Servers := [{ Name := "gw".toList, Host := "198.51.100.1".toList, Port := 2222,
                  User := "root".toList, Password := [], KeyPath := [] }],
    SSHKeyPath := "/k".toList }

/-! ### Reading of the claims on the whole run -/

/-- A manager for the sample topology on hosts that accept everything. -/
def freshManager : Manager := NewManager sampleConfig (sampleRemote [] (fun _ _ => false))

/-! ### Connection definitions, as the tunnel-stage claim reads them -/

/-- A line that opens the definition of the connection `name` in `ipsec.conf`:
it starts in the first column with the word `conn`, followed by the name. -/
def isConnLine (name l : Str) : Bool :=
  HasPrefix l "conn".toList && Fields l == ["conn".toList, name]

/-- The number of definitions of the connection `name` in a configuration text. -/
def connCount (name text : Str) : Nat := ((splitLines text).filter (isConnLine name)).length

/-- The configuration text the tunnel stage writes to the entry host from state `m`. -/
def entryTunnelConf (m : Manager) : Str :=
  tunnelConf1 m.config.Server1.Host m.config.VPNSubnet m.config.Server2.Host

/-- The configuration text the tunnel stage writes to the exit host from state `m`. -/
def exitTunnelConf (m : Manager) : Str :=
  tunnelConf2 m.config.Server1.Host m.config.VPNSubnet m.config.Server2.Host

/-- The events of a tunnel stage in which both certificate authority files are
read, as `caCert2` and `caCert1`. -/
def tunnelEvents (m : Manager) (caCert2 caCert1 : Str) : List Event :=
  [.run .server2 ("cat ".toList ++ caCertPath),
   .run .server1 (teeCmd caCert2 server2CaPath),
   .run .server1 ("cat ".toList ++ caCertPath),
   .run .server2 (teeCmd caCert1 server1CaPath),
   .run .server1 (teeCmd (escapeQuotes (entryTunnelConf m)) ipsecConfPath),
   .run .server2 (teeCmd (escapeQuotes (exitTunnelConf m)) ipsecConfPath),
   .run .server1 restartCmd,
   .run .server2 restartCmd]

/-- A connected manager whose client pool holds a line break and a line that
opens a connection definition. -/
def twoLinePoolManager : Manager :=
  connected (NewManager
    { sampleConfig with VPNSubnet := "10.10.10.0/24\nconn ikev2-vpn".toList }
    (sampleRemote [] (fun _ _ => false)))

/-! ### Logger calls, as the error-reporting claim reads them -/

/-- The messages the logger received during a run, oldest first. -/
def logsOf (tr : List Event) : List Str :=
  tr.filterMap (fun ev => match ev with
    | .log msg => some msg
    | _ => none)

/-- Hosts on which every command whose result the run discards fails: the
plugin switch, the write of the charon settings, the writes of the peer's
certificate authority, the rewrites of the configuration and the restarts of
the tunnel stage, and the detection of interface and gateway of the routing
stage. Every other command succeeds. -/
def silentFailures : Remote :=
  { dial := fun _ => none,
    answer := fun _ tr cmd =>
      if cmd == libipsecCmd
        || cmd == teeCmd charonConf charonPrioPath
        || server2CaPath.reverse.isPrefixOf cmd.reverse
        || server1CaPath.reverse.isPrefixOf cmd.reverse
        || cmd == teeCmd (escapeQuotes (tunnelConf1 sampleConfig.Server1.Host
            sampleConfig.VPNSubnet sampleConfig.Server2.Host)) ipsecConfPath
        || cmd == teeCmd (escapeQuotes (tunnelConf2 sampleConfig.Server1.Host
            sampleConfig.VPNSubnet sampleConfig.Server2.Host)) ipsecConfPath
        || (cmd == restartCmd && tr.contains (.log tunnelMsg))
        || (cmd == ifaceCmd && tr.contains (.log routingMsg))
        || "ip route show default dev ".toList.isPrefixOf cmd
      then .error "exit status 1".toList
      else .ok "eth0\n".toList }

/-! ### A host whose `sed` reads the pattern as a regular expression -/

/-- Match of the start of a line against a pattern of `sed` made of ordinary
characters and `.`: the dot stands for any one character, every other
character for itself. -/
def dotPrefix : Str → Str → Bool
  | [], _ => true
  | _ :: _, [] => false
  | p :: ps, c :: cs => (p == '.' || p == c) && dotPrefix ps cs

/-- What `sed -i '/^pat/d'` leaves of a file when `.` is the only character of
`pat` that is special in a regular expression: the lines whose start does not
match `pat`, each with its line end. -/
def sedDeleteDot (pat content : Str) : Str :=
  let pieces := splitLines content
  let keep := fun (l : Str) => !dotPrefix pat l
  ((pieces.dropLast.filter keep).map (fun l => l ++ ['\n'])).flatten ++
    (if keep (pieces.getLastD []) then pieces.getLastD [] else [])

/-- The reference host, with the pattern of the delete command read as `sed`
reads it; the reload succeeds. -/
def dotHost (cmd secrets : Str) : Except Str Str × Str :=
  match (stripPrefix ("sed -i ".toList ++ [Char.ofNat 39] ++ "/^".toList) cmd).bind
      (stripSuffix ("/d".toList ++ [Char.ofNat 39] ++ " /etc/ipsec.secrets".toList)) with
  | some pat => (.ok [], sedDeleteDot pat secrets)
  | none => refHost true cmd secrets

/-- A manager on a connected session to that host, whose secrets file holds `secrets`. -/
def dotManager (secrets : Str) : UserManager :=
  { client :=
      { connected := true, connectErr := none,
        run := fun _ => .error "command failed".toList,
        runSudo := dotHost, secrets := secrets, sent := [] },
    logger := [] }

/-- A user name with a dot in it. -/
def dotUser : Str := "a.c".toList

/-- A secrets file with the users `abc` and `a.c`, after the server key. -/
def dotSecrets : Str :=
  ": RSA server-key.pem\nabc : EAP \"pw1\"\na.c : EAP \"pw2\"\n".toList

/-! ### Two runs that differ in the tunnel pool -/

/-- The start of every command that writes the exit host's first-stage
configuration: the `echo` and the template up to the name of its connection. -/
def exitConfHead : Str :=
  ("echo '\nconfig setup\n    charondebug=\"ike 1, knl 1, cfg 0\"\n    uniqueids=no\n\n" ++
   "conn ikev2-tunnel\n").toList

/-- A command to the exit host that writes its first-stage configuration. -/
def isExitConfWrite (ev : Event) : Bool :=
  match ev with
  | .run .server2 cmd => HasPrefix cmd exitConfHead
  | _ => false

/-- The events of a run other than the writes of the exit host's first-stage
configuration, in order. -/
def otherEvents (tr : List Event) : List Event := tr.filter (fun ev => !isExitConfWrite ev)

/-- Hosts whose answers do not depend on which first-stage configuration was
written to the exit host: two histories that agree on all other events get the
same answer to every command. Hosts that answer without looking at the history
are of this kind. -/
def PoolBlind (R : Remote) : Prop :=
  ∀ (h : Host) (tr1 tr2 : List Event) (cmd : Str),
    otherEvents tr1 = otherEvents tr2 → R.answer h tr1 cmd = R.answer h tr2 cmd

/-- The write of the exit host's first-stage configuration in `setupServer2`. -/
def exitConfWrite (c : SetupConfig) : Event :=
  .run .server2 (teeCmd (escapeQuotes (ipsecConf true c.Server2.Host c.TunnelSubnet))
    ipsecConfPath)

/-- State `m2` is state `m1` of a run on the same hosts for a topology with the
tunnel pool `t2` instead: same clients, and the same events apart from the
writes of the exit host's first-stage configuration. -/
def Twin (t2 : Str) (m1 m2 : Manager) : Prop :=
  PoolBlind m1.remote ∧ m2.remote = m1.remote ∧
  m2.client1 = m1.client1 ∧ m2.client2 = m1.client2 ∧
  m2.config = { m1.config with TunnelSubnet := t2 } ∧
  otherEvents m1.trace = otherEvents m2.trace

/-- Step `s2` does on the second run what `s1` does on the first. -/
def Sim (t2 : Str) (s1 s2 : Step) : Prop :=
  ∀ m1 m2, Twin t2 m1 m2 → (s1 m1).1 = (s2 m2).1 ∧ Twin t2 (s1 m1).2 (s2 m2).2

/-- Step `s2` does on the second run what `s1` does on the first, when both succeed. -/
def SimOk (t2 : Str) (s1 s2 : Step) : Prop :=
  ∀ m1 m2, Twin t2 m1 m2 → (s1 m1).1 = none → (s2 m2).1 = none → Twin t2 (s1 m1).2 (s2 m2).2

/-! ### The daemon configuration a run leaves on a host -/

/-- The text that a command of the form `echo '<text>' | sudo tee /etc/ipsec.conf`
carries between its quotes, if the command has this form. The commands of
lines 343, 455 and 480 have it, and no other command of `setup.go` writes this
file. -/
def confTextOf (cmd : Str) : Option Str :=
  (stripPrefix ("echo ".toList ++ [Char.ofNat 39]) cmd).bind
    (stripSuffix ([Char.ofNat 39] ++ " | sudo tee ".toList ++ ipsecConfPath))

/-- The daemon configuration of host `h` after the event `ev`, which follows
the history `pre`, when it was `cur` before: a command to `h` that writes the
file and that the host answers without error replaces the text; a write that
the host answers with an error leaves the file as it was, and no other event
touches it. -/
def confStep (R : Remote) (h : Host) (pre : List Event) (ev : Event) (cur : Option Str) :
    Option Str :=
  match ev with
  | .run h2 cmd =>
    if h2 = h then
      match confTextOf cmd, R.answer h pre cmd with
      | some t, .ok _ => some t
      | _, _ => cur
    else cur
  | _ => cur

/-- The daemon configuration of host `h` after the events `evs` that follow the
history `pre`, when it was `cur` before them. -/
def confAfter (R : Remote) (h : Host) : List Event → List Event → Option Str → Option Str
  | _, [], cur => cur
  | pre, ev :: evs, cur => confAfter R h (pre ++ [ev]) evs (confStep R h pre ev cur)

/-- The daemon configuration that a run with the events `tr` leaves on host `h`:
the text of the last write that the host accepted, as the command carried it;
`none` is the file as it was before the run. -/
def finalConf (R : Remote) (h : Host) (tr : List Event) : Option Str :=
  confAfter R h [] tr none

/-- The start of the command that writes the exit host's tunnel-stage
configuration: the `echo` and the template up to the name of its connection. -/
def exitTunnelHead : Str :=
  ("echo '\nconfig setup\n    charondebug=\"ike 1, knl 1, cfg 0\"\n    uniqueids=no\n\n" ++
   "conn tunnel-from-server1\n").toList

/-- Hosts on which only the command that writes the tunnel-stage configuration
of the exit host fails. -/
def exitRewriteFails : Remote :=
  sampleRemote [] (fun h cmd => h == .server2 && HasPrefix cmd exitTunnelHead)

/-- The sample topology with another tunnel pool. -/
def otherTunnelConfig : SetupConfig :=
  { sampleConfig with TunnelSubnet := "10.99.0.0/24".toList }

/-! # Theorems -/

/-! ## Text lemmas -/

theorem Contains_iff_block (s sub : Str) : Contains s sub = true ↔ sub <:+: s := by
  induction s with
  | nil => simp [Contains, List.isPrefixOf_iff_prefix]
  | cons c cs ih =>
    simp only [Contains, Bool.or_eq_true, List.isPrefixOf_iff_prefix, ih, List.infix_cons_iff]

theorem block_dropWhile (p : Char → Bool) (a : Char) (rest s : Str) (ha : p a = false)
    (h : (a :: rest) <:+: s) : (a :: rest) <:+: s.dropWhile p := by
  induction s with
  | nil => simp at h
  | cons x xs ih =>
    by_cases hx : p x = true
    · rw [List.dropWhile_cons_of_pos hx]
      rcases List.infix_cons_iff.mp h with hpre | hin
      · obtain ⟨t, ht⟩ := hpre
        simp only [List.cons_append, List.cons.injEq] at ht
        rw [ht.1, hx] at ha
        exact absurd ha (by simp)
      · exact ih hin
    · rw [List.dropWhile_cons_of_neg hx]
      exact h

theorem TrimSpace_block (s : Str) : TrimSpace s <:+: s := by
  unfold TrimSpace
  have h1 : ((s.dropWhile isSpace).reverse.dropWhile isSpace) <:+ (s.dropWhile isSpace).reverse :=
    List.dropWhile_suffix _
  have h2 : ((s.dropWhile isSpace).reverse.dropWhile isSpace).reverse <+: s.dropWhile isSpace := by
    have := List.reverse_prefix.mpr h1
    simpa using this
  exact h2.isInfix.trans (List.dropWhile_suffix _).isInfix

/-- Trimming does not change whether a block with non-space ends occurs. -/
theorem Contains_TrimSpace (s sub : Str) (a b : Char) (m1 m2 : Str)
    (h1 : sub = a :: m1) (h2 : sub.reverse = b :: m2)
    (ha : isSpace a = false) (hb : isSpace b = false) :
    Contains (TrimSpace s) sub = Contains s sub := by
  rw [Bool.eq_iff_iff, Contains_iff_block, Contains_iff_block]
  constructor
  · intro h
    exact h.trans (TrimSpace_block s)
  · intro h
    have e1 : sub <:+: s.dropWhile isSpace := by
      rw [h1] at h ⊢
      exact block_dropWhile isSpace a m1 s ha h
    have e2 : sub.reverse <:+: (s.dropWhile isSpace).reverse := List.reverse_infix.mpr e1
    have e3 : sub.reverse <:+: (s.dropWhile isSpace).reverse.dropWhile isSpace := by
      rw [h2] at e2 ⊢
      exact block_dropWhile isSpace b m2 _ hb e2
    have e4 := List.reverse_infix.mpr e3
    simpa [TrimSpace] using e4

theorem Contains_trim_established (s : Str) :
    Contains (TrimSpace s) established = Contains s established :=
  Contains_TrimSpace s established 'E' 'D' "STABLISHED".toList "EHSILBATSE".toList rfl rfl
    (by decide) (by decide)

theorem Contains_trim_clientTag (s : Str) :
    Contains (TrimSpace s) clientTag = Contains s clientTag :=
  Contains_TrimSpace s clientTag 'i' '[' "kev2-vpn[".toList "npv-2veki".toList rfl rfl
    (by decide) (by decide)

theorem Contains_trim_tunnelTag (s : Str) :
    Contains (TrimSpace s) tunnelTag = Contains s tunnelTag :=
  Contains_TrimSpace s tunnelTag 't' '[' "unnel-to-server2[".toList "2revres-ot-lennut".toList rfl rfl
    (by decide) (by decide)

/-! ## The parsing loop of `GetStatus` -/

theorem parseLine_header (acc : Bool × Status) (l : Str) (h : isHeader l = true) :
    parseLine acc l = (true, acc.2) := by
  unfold isHeader at h
  simp [parseLine, h]

theorem parseLine_noheader (s : Status) (l : Str) (h : isHeader l = false) :
    parseLine (false, s) l = (false, s) := by
  unfold isHeader at h
  simp [parseLine, h]

theorem foldl_noheader (s : Status) (ls : List Str) (h : ∀ l ∈ ls, isHeader l = false) :
    ls.foldl parseLine (false, s) = (false, s) := by
  induction ls with
  | nil => rfl
  | cons l ls ih =>
    rw [List.foldl_cons, parseLine_noheader s l (h l (List.mem_cons_self _ _))]
    exact ih (fun x hx => h x (List.mem_cons_of_mem _ hx))

/-- Before the first header nothing is recorded: the loop is the loop over the
lines after it, entered with the section flag set. -/
theorem foldl_afterHeader (s : Status) (ls : List Str) (h : ∃ l ∈ ls, isHeader l = true) :
    ls.foldl parseLine (false, s) = (afterHeader ls).foldl parseLine (true, s) := by
  induction ls with
  | nil => simp at h
  | cons l ls ih =>
    by_cases hl : isHeader l = true
    · rw [List.foldl_cons, parseLine_header _ l hl]
      simp [afterHeader, hl]
    · have hl2 : isHeader l = false := by simpa using hl
      rw [List.foldl_cons, parseLine_noheader s l hl2]
      have h2 : ∃ x ∈ ls, isHeader x = true := by
        obtain ⟨x, hx, hxh⟩ := h
        rcases List.mem_cons.mp hx with rfl | hx2
        · rw [hxh] at hl2; exact absurd hl2 (by simp)
        · exact ⟨x, hx2, hxh⟩
      rw [ih h2]
      simp [afterHeader, hl2]

/-- What one line adds inside the section. -/
theorem parseLine_inside (s : Status) (l : Str) :
    (parseLine (true, s) l).1 = true ∧
    (parseLine (true, s) l).2.ActiveClients =
      s.ActiveClients + (if (!isHeader l && isClientLine l) = true then 1 else 0) ∧
    (parseLine (true, s) l).2.TunnelActive =
      (s.TunnelActive || (!isHeader l && isTunnelLine l)) ∧
    (parseLine (true, s) l).2.Connected = s.Connected ∧
    (parseLine (true, s) l).2.Uptime = s.Uptime ∧
    (parseLine (true, s) l).2.ServerIP = s.ServerIP := by
  by_cases hh : isHeader l = true
  · rw [parseLine_header _ l hh]
    simp [hh]
  · have hh2 : isHeader l = false := by simpa using hh
    have hp : HasPrefix (TrimSpace l) saHeader = false := hh2
    by_cases he : Contains l established = true
    · by_cases hc : Contains l clientTag = true <;> by_cases ht : Contains l tunnelTag = true <;>
        simp [parseLine, hp, hh2, isClientLine, isTunnelLine, Contains_trim_established,
          Contains_trim_clientTag, Contains_trim_tunnelTag, he, hc, ht] <;>
        split_ifs <;> simp
    · simp [parseLine, hp, hh2, isClientLine, isTunnelLine, Contains_trim_established, he]

theorem foldl_inside (ls : List Str) (s : Status) :
    (ls.foldl parseLine (true, s)).2.ActiveClients =
      s.ActiveClients + (ls.filter (fun l => !isHeader l && isClientLine l)).length ∧
    (ls.foldl parseLine (true, s)).2.TunnelActive =
      (s.TunnelActive || ls.any (fun l => !isHeader l && isTunnelLine l)) ∧
    (ls.foldl parseLine (true, s)).2.Connected = s.Connected ∧
    (ls.foldl parseLine (true, s)).2.Uptime = s.Uptime ∧
    (ls.foldl parseLine (true, s)).2.ServerIP = s.ServerIP := by
  induction ls generalizing s with
  | nil => simp
  | cons l ls ih =>
    obtain ⟨h1, h2, h3, h4, h5, h6⟩ := parseLine_inside s l
    have e : parseLine (true, s) l = (true, (parseLine (true, s) l).2) :=
      Prod.ext h1 rfl
    rw [List.foldl_cons, e]
    obtain ⟨i1, i2, i3, i4, i5⟩ := ih (parseLine (true, s) l).2
    refine ⟨?_, ?_, ?_, ?_, ?_⟩
    · rw [i1, h2, List.filter_cons]
      split_ifs <;> simp <;> omega
    · rw [i2, h3, List.any_cons, Bool.or_assoc]
    · rw [i3, h4]
    · rw [i4, h5]
    · rw [i5, h6]

theorem afterHeader_noheader (ls : List Str) (h : ∀ l ∈ ls, isHeader l = false) :
    afterHeader ls = [] := by
  have : ls.dropWhile (fun l => !isHeader l) = [] := by
    rw [List.dropWhile_eq_nil_iff]
    intro l hl
    simp [h l hl]
  simp [afterHeader, this]

/-- The parsing loop, read as a count over the lines after the first header. -/
theorem parseStatus_spec (out : Str) (s : Status) :
    (parseStatus out s).ActiveClients = s.ActiveClients +
      ((afterHeader (splitLines out)).filter (fun l => !isHeader l && isClientLine l)).length ∧
    (parseStatus out s).TunnelActive =
      (s.TunnelActive || (afterHeader (splitLines out)).any (fun l => !isHeader l && isTunnelLine l)) ∧
    (parseStatus out s).Connected = s.Connected ∧
    (parseStatus out s).Uptime = s.Uptime ∧
    (parseStatus out s).ServerIP = s.ServerIP := by
  unfold parseStatus
  by_cases h : ∃ l ∈ splitLines out, isHeader l = true
  · rw [foldl_afterHeader s _ h]
    exact foldl_inside _ s
  · have h2 : ∀ l ∈ splitLines out, isHeader l = false := by
      intro l hl
      by_contra hc
      exact h ⟨l, hl, by simpa using hc⟩
    rw [foldl_noheader s _ h2, afterHeader_noheader _ h2]
    simp

/-! ## `GetStatus` -/

theorem Run_of_connected (c : Client) (h : c.connected = true) (cmd : Str) :
    c.Run cmd = (c.run cmd, { c with sent := c.sent ++ [cmd] }) := by
  simp [Client.Run, h]

theorem ensureConnected_ok (c : Client) (h : c.connected = true ∨ c.connectErr = none) :
    ensureConnected c = (none, { c with connected := true }) := by
  by_cases hc : c.connected = true
  · simp only [ensureConnected, Client.IsConnected, hc, Bool.not_true, Bool.false_eq_true,
      if_false]
    cases c
    simp_all
  · have hn : c.connectErr = none := h.resolve_left hc
    simp [ensureConnected, Client.IsConnected, hc, Client.Connect, hn]

/-- On a usable session `GetStatus` always returns a snapshot, the one of `statusOf`. -/
theorem GetStatus_result (c : Client) (h : c.connected = true ∨ c.connectErr = none) :
    (GetStatus c).1 = .ok (statusOf c) := by
  unfold GetStatus statusOf
  rw [ensureConnected_ok c h]
  simp only [Client.Run, Bool.not_true, Bool.false_eq_true, if_false]
  split_ifs with h1
  · rfl
  · cases hs : c.run statusCmd <;> rfl

/-- When the probe does not say "running", the probe is the only command sent. -/
theorem GetStatus_stopped_sent (c : Client) (h : c.connected = true)
    (hp : (TrimSpace (probeOutput (c.run probeCmd)) == runningStr) = false) :
    (GetStatus c).2.sent = c.sent ++ [probeCmd] := by
  unfold GetStatus
  rw [ensureConnected_ok c (Or.inl h)]
  simp only [Client.Run, Bool.not_true, Bool.false_eq_true, if_false]
  simp [hp]

theorem statusOf_stopped (c : Client)
    (hp : (TrimSpace (probeOutput (c.run probeCmd)) == runningStr) = false) :
    statusOf c = Status.zero := by
  unfold statusOf
  simp [hp, Status.zero]

theorem statusOf_running (c : Client) (o out : Str)
    (hprobe : c.run probeCmd = .ok o) (hrun : TrimSpace o = runningStr)
    (hstat : c.run statusCmd = .ok out) :
    statusOf c = setServerIP (setUptime
      (parseStatus out { Status.zero with Connected := true }) (c.run uptimeCmd)) (c.run ipCmd) := by
  unfold statusOf
  simp [hprobe, probeOutput, hrun, hstat]

theorem setUptime_frame (s : Status) (r : Except Str Str) :
    (setUptime s r).Connected = s.Connected ∧ (setUptime s r).TunnelActive = s.TunnelActive ∧
    (setUptime s r).ActiveClients = s.ActiveClients ∧ (setUptime s r).Connections = s.Connections ∧
    (setUptime s r).ServerIP = s.ServerIP := by
  cases r <;> simp [setUptime]

theorem setServerIP_frame (s : Status) (r : Except Str Str) :
    (setServerIP s r).Connected = s.Connected ∧ (setServerIP s r).TunnelActive = s.TunnelActive ∧
    (setServerIP s r).ActiveClients = s.ActiveClients ∧ (setServerIP s r).Connections = s.Connections ∧
    (setServerIP s r).Uptime = s.Uptime := by
  cases r <;> simp [setServerIP]

theorem statusOf_frame (c c' : Client) (h1 : c'.run probeCmd = c.run probeCmd)
    (h2 : c'.run statusCmd = c.run statusCmd) :
    (statusOf c').Connected = (statusOf c).Connected ∧
    (statusOf c').TunnelActive = (statusOf c).TunnelActive ∧
    (statusOf c').ActiveClients = (statusOf c).ActiveClients ∧
    (statusOf c').Connections = (statusOf c).Connections := by
  unfold statusOf
  simp only [h1, h2]
  split_ifs with hc
  · exact ⟨rfl, rfl, rfl, rfl⟩
  · cases c.run statusCmd with
    | error e => exact ⟨rfl, rfl, rfl, rfl⟩
    | ok out =>
      simp only
      obtain ⟨a1, a2, a3, a4, _⟩ := setServerIP_frame
        (setUptime (parseStatus out { Status.zero with
          Connected := (TrimSpace (probeOutput (c.run probeCmd)) == runningStr) })
          (c'.run uptimeCmd)) (c'.run ipCmd)
      obtain ⟨b1, b2, b3, b4, _⟩ := setUptime_frame
        (parseStatus out { Status.zero with
          Connected := (TrimSpace (probeOutput (c.run probeCmd)) == runningStr) })
        (c'.run uptimeCmd)
      obtain ⟨d1, d2, d3, d4, _⟩ := setServerIP_frame
        (setUptime (parseStatus out { Status.zero with
          Connected := (TrimSpace (probeOutput (c.run probeCmd)) == runningStr) })
          (c.run uptimeCmd)) (c.run ipCmd)
      obtain ⟨e1, e2, e3, e4, _⟩ := setUptime_frame
        (parseStatus out { Status.zero with
          Connected := (TrimSpace (probeOutput (c.run probeCmd)) == runningStr) })
        (c.run uptimeCmd)
      refine ⟨?_, ?_, ?_, ?_⟩
      · rw [a1, b1, d1, e1]
      · rw [a2, b2, d2, e2]
      · rw [a3, b3, d3, e3]
      · rw [a4, b4, d4, e4]

theorem statusOf_status_failed (c : Client) (e : Str)
    (hp : (TrimSpace (probeOutput (c.run probeCmd)) == runningStr) = true)
    (hs : c.run statusCmd = .error e) :
    statusOf c = { Status.zero with Connected := true } := by
  unfold statusOf
  simp [hp, hs]

theorem statusOf_status_ok (c : Client) (out : Str)
    (hp : (TrimSpace (probeOutput (c.run probeCmd)) == runningStr) = true)
    (hs : c.run statusCmd = .ok out) :
    statusOf c = setServerIP (setUptime
      (parseStatus out { Status.zero with Connected := true }) (c.run uptimeCmd)) (c.run ipCmd) := by
  unfold statusOf
  simp [hp, hs]

theorem statusOf_uptime_failed (c : Client) (e : Str) (h : c.run uptimeCmd = .error e) :
    (statusOf c).Uptime = [] := by
  by_cases hp : (TrimSpace (probeOutput (c.run probeCmd)) == runningStr) = true
  · cases hs : c.run statusCmd with
    | error e2 => rw [statusOf_status_failed c e2 hp hs]; rfl
    | ok out =>
      rw [statusOf_status_ok c out hp hs, h, (setServerIP_frame _ _).2.2.2.2]
      simp only [setUptime]
      rw [(parseStatus_spec out _).2.2.2.1]
      rfl
  · rw [statusOf_stopped c (by simpa using hp)]; rfl

theorem statusOf_ip_failed (c : Client) (e : Str) (h : c.run ipCmd = .error e) :
    (statusOf c).ServerIP = [] := by
  by_cases hp : (TrimSpace (probeOutput (c.run probeCmd)) == runningStr) = true
  · cases hs : c.run statusCmd with
    | error e2 => rw [statusOf_status_failed c e2 hp hs]; rfl
    | ok out =>
      rw [statusOf_status_ok c out hp hs, h]
      simp only [setServerIP]
      rw [(setUptime_frame _ _).2.2.2.2, (parseStatus_spec out _).2.2.2.2]
      rfl
  · rw [statusOf_stopped c (by simpa using hp)]; rfl

/-! ## Claims on the status interpreter -/

/-- C1, as stated, fails: a later line that itself starts with the header text
comes after the first header and contains both markers, yet the loop skips it.
Here the stated count is 1 and a tunnel line exists, while the snapshot has
ActiveClients = 0 and TunnelActive = false. -/
theorem C1_counterexample :
    (statusClient runningLine headerTwiceBlob).connected = true ∧
    (statusClient runningLine headerTwiceBlob).run probeCmd = .ok runningLine ∧
    TrimSpace runningLine = runningStr ∧
    (statusClient runningLine headerTwiceBlob).run statusCmd = .ok headerTwiceBlob ∧
    ((afterHeader (splitLines headerTwiceBlob)).filter isClientLine).length = 1 ∧
    (∃ l ∈ afterHeader (splitLines headerTwiceBlob), isTunnelLine l = true) ∧
    (∃ s, (GetStatus (statusClient runningLine headerTwiceBlob)).1 = .ok s ∧
      s.ActiveClients = 0 ∧ s.TunnelActive = false) := by
  refine ⟨rfl, rfl, by decide, rfl, by decide, by decide, ?_⟩
  exact ⟨_, rfl, by decide, by decide⟩

/-- C1 (amended): when the probe reports running and the status command
succeeds, ActiveClients is the number of lines after the first header line that
are not header lines themselves and contain both "ESTABLISHED" and "ikev2-vpn[",
and TunnelActive holds exactly when such a non-header line contains both
"ESTABLISHED" and "tunnel-to-server2["; the example blob gives 2 and true. -/
theorem C1_status_counts (c : Client) (o out : Str)
    (hconn : c.connected = true ∨ c.connectErr = none)
    (hprobe : c.run probeCmd = .ok o) (hrun : TrimSpace o = runningStr)
    (hstat : c.run statusCmd = .ok out) :
    ∃ s, (GetStatus c).1 = .ok s ∧
      s.ActiveClients =
        ((afterHeader (splitLines out)).filter (fun l => !isHeader l && isClientLine l)).length ∧
      (s.TunnelActive = true ↔
        ∃ l ∈ afterHeader (splitLines out), isHeader l = false ∧ isTunnelLine l = true) ∧
      (out = exampleBlob → s.ActiveClients = 2 ∧ s.TunnelActive = true) := by
  refine ⟨statusOf c, GetStatus_result c hconn, ?_⟩
  rw [statusOf_running c o out hprobe hrun hstat]
  obtain ⟨p1, p2, _⟩ := parseStatus_spec out { Status.zero with Connected := true }
  have hA : (setServerIP (setUptime (parseStatus out { Status.zero with Connected := true })
      (c.run uptimeCmd)) (c.run ipCmd)).ActiveClients =
      ((afterHeader (splitLines out)).filter (fun l => !isHeader l && isClientLine l)).length := by
    rw [(setServerIP_frame _ _).2.2.1, (setUptime_frame _ _).2.2.1, p1]
    simp [Status.zero]
  have hT : (setServerIP (setUptime (parseStatus out { Status.zero with Connected := true })
      (c.run uptimeCmd)) (c.run ipCmd)).TunnelActive =
      (afterHeader (splitLines out)).any (fun l => !isHeader l && isTunnelLine l) := by
    rw [(setServerIP_frame _ _).2.1, (setUptime_frame _ _).2.1, p2]
    simp [Status.zero]
  refine ⟨hA, ?_, ?_⟩
  · rw [hT, List.any_eq_true]
    constructor
    · rintro ⟨l, hl, h⟩
      simp only [Bool.and_eq_true, Bool.not_eq_true'] at h
      exact ⟨l, hl, h.1, h.2⟩
    · rintro ⟨l, hl, h1, h2⟩
      exact ⟨l, hl, by simp [h1, h2]⟩
  · intro he
    rw [hA, hT, he]
    constructor <;> decide

theorem C1_status_counts_witness :
    ∃ s, (GetStatus (statusClient runningLine exampleBlob)).1 = .ok s ∧
      s.ActiveClients =
        ((afterHeader (splitLines exampleBlob)).filter
          (fun l => !isHeader l && isClientLine l)).length ∧
      (s.TunnelActive = true ↔
        ∃ l ∈ afterHeader (splitLines exampleBlob), isHeader l = false ∧ isTunnelLine l = true) ∧
      (exampleBlob = exampleBlob → s.ActiveClients = 2 ∧ s.TunnelActive = true) :=
  C1_status_counts (statusClient runningLine exampleBlob) runningLine exampleBlob
    (Or.inl rfl) rfl (by decide) rfl

/-- C2: when no line's trimmed text starts with "Security Associations",
GetStatus returns a snapshot with a nil error, ActiveClients = 0,
TunnelActive = false and no connections, whatever else the output holds. -/
theorem C2_no_section (c : Client) (out : Str)
    (hconn : c.connected = true ∨ c.connectErr = none)
    (hstat : c.run statusCmd = .ok out)
    (hno : ∀ l ∈ splitLines out, isHeader l = false) :
    ∃ s, (GetStatus c).1 = .ok s ∧
      s.ActiveClients = 0 ∧ s.TunnelActive = false ∧ s.Connections = [] := by
  refine ⟨statusOf c, GetStatus_result c hconn, ?_⟩
  by_cases hp : (TrimSpace (probeOutput (c.run probeCmd)) == runningStr) = true
  · rw [statusOf_status_ok c out hp hstat]
    have hps : ∀ s : Status, parseStatus out s = s := by
      intro s
      unfold parseStatus
      rw [foldl_noheader s _ hno]
    rw [hps]
    obtain ⟨_, a2, a3, a4, _⟩ := setServerIP_frame
      (setUptime { Status.zero with Connected := true } (c.run uptimeCmd)) (c.run ipCmd)
    obtain ⟨_, b2, b3, b4, _⟩ := setUptime_frame
      { Status.zero with Connected := true } (c.run uptimeCmd)
    refine ⟨?_, ?_, ?_⟩
    · rw [a3, b3]; rfl
    · rw [a2, b2]; rfl
    · rw [a4, b4]; rfl
  · rw [statusOf_stopped c (by simpa using hp)]
    exact ⟨rfl, rfl, rfl⟩

theorem C2_no_section_witness :
    ∃ s, (GetStatus (statusClient runningLine noSectionBlob)).1 = .ok s ∧
      s.ActiveClients = 0 ∧ s.TunnelActive = false ∧ s.Connections = [] :=
  C2_no_section (statusClient runningLine noSectionBlob) noSectionBlob (Or.inl rfl) rfl
    (by decide)

/-- C3: on a connected session, if the probe fails or its trimmed output is not
"running", GetStatus returns with a nil error the snapshot whose fields are all
zero or empty, and the probe is the only command sent. -/
theorem C3_stopped_short_circuit (c : Client) (hconn : c.connected = true)
    (hprobe : ∀ o, c.run probeCmd = .ok o → TrimSpace o ≠ runningStr) :
    (GetStatus c).1 = .ok
      { Connected := false, TunnelActive := false, ActiveClients := 0,
        Uptime := [], ServerIP := [], Connections := [] } ∧
    (GetStatus c).2.sent = c.sent ++ [probeCmd] := by
  have hp : (TrimSpace (probeOutput (c.run probeCmd)) == runningStr) = false := by
    cases h : c.run probeCmd with
    | error e => simp only [probeOutput]; decide
    | ok o =>
      simp only [probeOutput]
      exact beq_false_of_ne (hprobe o h)
  refine ⟨?_, GetStatus_stopped_sent c hconn hp⟩
  rw [GetStatus_result c (Or.inl hconn), statusOf_stopped c hp]
  rfl

theorem C3_stopped_short_circuit_witness :
    (GetStatus (statusClient stoppedStr exampleBlob)).1 = .ok
      { Connected := false, TunnelActive := false, ActiveClients := 0,
        Uptime := [], ServerIP := [], Connections := [] } ∧
    (GetStatus (statusClient stoppedStr exampleBlob)).2.sent =
      (statusClient stoppedStr exampleBlob).sent ++ [probeCmd] :=
  C3_stopped_short_circuit (statusClient stoppedStr exampleBlob) rfl
    (fun o h => by
      have ho : o = stoppedStr := by
        have : (Except.ok stoppedStr : Except Str Str) = .ok o := h
        injection this with h2
        exact h2.symm
      rw [ho]
      decide)

/-- C4: on a connected session GetStatus returns a snapshot and a nil error for
every behaviour of the remote commands; a failing uptime command leaves Uptime
empty, a failing address command leaves ServerIP empty, and Connected,
TunnelActive, ActiveClients and Connections depend only on the answers to the
probe and status commands. -/
theorem C4_graceful_degradation (c : Client) (hconn : c.connected = true) :
    ∃ s, (GetStatus c).1 = .ok s ∧
      ((∃ e, c.run uptimeCmd = .error e) → s.Uptime = []) ∧
      ((∃ e, c.run ipCmd = .error e) → s.ServerIP = []) ∧
      ∀ c2 : Client, c2.connected = true → c2.run probeCmd = c.run probeCmd →
        c2.run statusCmd = c.run statusCmd →
        ∃ s2, (GetStatus c2).1 = .ok s2 ∧ s2.Connected = s.Connected ∧
          s2.TunnelActive = s.TunnelActive ∧ s2.ActiveClients = s.ActiveClients ∧
          s2.Connections = s.Connections := by
  refine ⟨statusOf c, GetStatus_result c (Or.inl hconn), ?_, ?_, ?_⟩
  · rintro ⟨e, he⟩
    exact statusOf_uptime_failed c e he
  · rintro ⟨e, he⟩
    exact statusOf_ip_failed c e he
  · intro c2 h2 hp hs
    exact ⟨statusOf c2, GetStatus_result c2 (Or.inl h2), statusOf_frame c c2 hp hs⟩

theorem C4_graceful_degradation_witness :
    ∃ s, (GetStatus (statusClient runningLine exampleBlob)).1 = .ok s ∧
      ((∃ e, (statusClient runningLine exampleBlob).run uptimeCmd = .error e) → s.Uptime = []) ∧
      ((∃ e, (statusClient runningLine exampleBlob).run ipCmd = .error e) → s.ServerIP = []) ∧
      ∀ c2 : Client, c2.connected = true →
        c2.run probeCmd = (statusClient runningLine exampleBlob).run probeCmd →
        c2.run statusCmd = (statusClient runningLine exampleBlob).run statusCmd →
        ∃ s2, (GetStatus c2).1 = .ok s2 ∧ s2.Connected = s.Connected ∧
          s2.TunnelActive = s.TunnelActive ∧ s2.ActiveClients = s.ActiveClients ∧
          s2.Connections = s.Connections :=
  C4_graceful_degradation (statusClient runningLine exampleBlob) rfl

/-! ## More text lemmas -/

theorem splitLines_ne_nil (s : Str) : splitLines s ≠ [] := by
  induction s with
  | nil => simp [splitLines]
  | cons c cs ih =>
    unfold splitLines
    split_ifs
    · simp
    · cases h : splitLines cs with
      | nil => exact absurd h ih
      | cons l ls => simp

theorem splitLines_cons_newline (cs : Str) :
    splitLines ('\n' :: cs) = [] :: splitLines cs := by
  simp [splitLines]

theorem splitLines_cons_other (c : Char) (cs : Str) (hc : c ≠ '\n') :
    splitLines (c :: cs) =
      (c :: (splitLines cs).headD []) :: (splitLines cs).tail := by
  rw [splitLines, if_neg hc]
  cases h : splitLines cs with
  | nil => exact absurd h (splitLines_ne_nil cs)
  | cons l ls => rfl

/-- Splitting at a newline: the pieces of both sides, one after the other. -/
theorem splitLines_append_newline (a b : Str) :
    splitLines (a ++ '\n' :: b) = splitLines a ++ splitLines b := by
  induction a with
  | nil => simp [splitLines_cons_newline, splitLines]
  | cons c cs ih =>
    rw [List.cons_append]
    by_cases hc : c = '\n'
    · rw [hc, splitLines_cons_newline, splitLines_cons_newline, ih]; rfl
    · rw [splitLines_cons_other _ _ hc, splitLines_cons_other _ _ hc, ih]
      cases h : splitLines cs with
      | nil => exact absurd h (splitLines_ne_nil cs)
      | cons l ls => rfl

/-- Text without a newline stays in front of the first piece. -/
theorem splitLines_prepend (a b : Str) (ha : '\n' ∉ a) :
    splitLines (a ++ b) = (a ++ (splitLines b).headD []) :: (splitLines b).tail := by
  induction a with
  | nil =>
    cases h : splitLines b with
    | nil => exact absurd h (splitLines_ne_nil b)
    | cons l ls => simp [h]
  | cons c cs ih =>
    have hc : c ≠ '\n' := fun e => ha (by simp [e])
    have hcs : '\n' ∉ cs := fun e => ha (List.mem_cons_of_mem _ e)
    rw [List.cons_append, splitLines_cons_other _ _ hc, ih hcs]
    rfl

theorem splitLines_no_newline (a : Str) (ha : '\n' ∉ a) : splitLines a = [a] := by
  have := splitLines_prepend a [] ha
  simpa [splitLines] using this

/-- A file that ends with a newline is some text followed by that newline. -/
theorem ends_newline (s : Str) (h : s.getLast? = some '\n') : ∃ s0, s = s0 ++ ['\n'] := by
  refine ⟨s.dropLast, ?_⟩
  have hne : s ≠ [] := by
    intro e; rw [e] at h; simp at h
  have := List.dropLast_append_getLast hne
  rw [List.getLast?_eq_getLast _ hne] at h
  injection h with h
  rw [h] at this
  exact this.symm

theorem TrimSpace_fix (u : Str) (h : TrimSpace u = u) :
    u.dropWhile isSpace = u ∧ u.reverse.dropWhile isSpace = u.reverse := by
  have hs1 : u.dropWhile isSpace <:+ u := List.dropWhile_suffix _
  have hs2 : (u.dropWhile isSpace).reverse.dropWhile isSpace <:+ (u.dropWhile isSpace).reverse :=
    List.dropWhile_suffix _
  have hl : (TrimSpace u).length = u.length := by rw [h]
  have l1 := hs1.length_le
  have l2 := hs2.length_le
  simp only [TrimSpace, List.length_reverse] at hl l2
  have e1 : u.dropWhile isSpace = u := hs1.eq_of_length (by omega)
  refine ⟨e1, ?_⟩
  rw [e1] at hs2 l2 hl
  exact hs2.eq_of_length (by simp only [List.length_reverse]; omega)

theorem dropWhile_append_of_fix (p : Char → Bool) (u v : Str) (hne : u ≠ [])
    (h : u.dropWhile p = u) : (u ++ v).dropWhile p = u ++ v := by
  cases u with
  | nil => exact absurd rfl hne
  | cons c cs =>
    by_cases hc : p c = true
    · rw [List.dropWhile_cons_of_pos hc] at h
      have := (List.dropWhile_suffix p (l := cs)).length_le
      rw [h] at this
      simp at this
    · rw [List.cons_append, List.dropWhile_cons_of_neg hc]

/-- Trimming removes white space added at the end of a trimmed, non-empty text. -/
theorem TrimSpace_append_spaces (u w : Str) (hne : u ≠ []) (h : TrimSpace u = u)
    (hw : ∀ x ∈ w, isSpace x = true) : TrimSpace (u ++ w) = u := by
  obtain ⟨h1, h2⟩ := TrimSpace_fix u h
  unfold TrimSpace
  rw [dropWhile_append_of_fix isSpace u w hne h1, List.reverse_append]
  have : (w.reverse ++ u.reverse).dropWhile isSpace = u.reverse.dropWhile isSpace := by
    have hw2 : ∀ x ∈ w.reverse, isSpace x = true := fun x hx => hw x (List.mem_reverse.mp hx)
    generalize w.reverse = r at hw2
    induction r with
    | nil => rfl
    | cons y ys ih =>
      rw [List.cons_append, List.dropWhile_cons_of_pos (hw2 y (List.mem_cons_self _ _))]
      exact ih (fun x hx => hw2 x (List.mem_cons_of_mem _ hx))
  rw [this, h2, List.reverse_reverse]

/-- Trimming ignores white space in front. -/
theorem TrimSpace_prepend_spaces (w s : Str) (hw : ∀ x ∈ w, isSpace x = true) :
    TrimSpace (w ++ s) = TrimSpace s := by
  unfold TrimSpace
  have : (w ++ s).dropWhile isSpace = s.dropWhile isSpace := by
    induction w with
    | nil => rfl
    | cons y ys ih =>
      rw [List.cons_append, List.dropWhile_cons_of_pos (hw y (List.mem_cons_self _ _))]
      exact ih (fun x hx => hw x (List.mem_cons_of_mem _ hx))
  rw [this]

theorem beforeColon_append_colon (a b : Str) (ha : ':' ∉ a) :
    beforeColon (a ++ ':' :: b) = a := by
  unfold beforeColon
  induction a with
  | nil => simp
  | cons c cs ih =>
    have hc : c ≠ ':' := fun e => ha (by simp [e])
    have hcs : ':' ∉ cs := fun e => ha (List.mem_cons_of_mem _ e)
    rw [List.cons_append, List.takeWhile_cons_of_pos (by simpa using hc), ih hcs]

theorem Contains_trim_eapMark (s : Str) :
    Contains (TrimSpace s) eapMark = Contains s eapMark :=
  Contains_TrimSpace s eapMark ':' 'P' " EAP".toList "AE :".toList rfl rfl (by decide) (by decide)

theorem takeWhile_append_of_exists (p : Char → Bool) (xs ys : Str)
    (h : ∃ x ∈ xs, p x = false) : (xs ++ ys).takeWhile p = xs.takeWhile p := by
  induction xs with
  | nil => simp at h
  | cons c cs ih =>
    by_cases hc : p c = true
    · rw [List.cons_append, List.takeWhile_cons_of_pos hc, List.takeWhile_cons_of_pos hc]
      obtain ⟨x, hx, hpx⟩ := h
      rcases List.mem_cons.mp hx with rfl | hx2
      · rw [hpx] at hc; exact absurd hc (by simp)
      · rw [ih ⟨x, hx2, hpx⟩]
    · rw [List.cons_append, List.takeWhile_cons_of_neg hc, List.takeWhile_cons_of_neg hc]

theorem takeWhile_append_of_all (p : Char → Bool) (xs ys : Str)
    (h : ∀ x ∈ xs, p x = true) : (xs ++ ys).takeWhile p = xs ++ ys.takeWhile p := by
  induction xs with
  | nil => rfl
  | cons c cs ih =>
    rw [List.cons_append, List.takeWhile_cons_of_pos (h c (List.mem_cons_self _ _)),
      ih (fun x hx => h x (List.mem_cons_of_mem _ hx))]
    rfl

/-- A line is white space, then its trimmed text, then white space. -/
theorem TrimSpace_decompose (l : Str) :
    ∃ w0 w1 : Str, l = w0 ++ (TrimSpace l ++ w1) ∧
      (∀ x ∈ w0, isSpace x = true) ∧ (∀ x ∈ w1, isSpace x = true) := by
  refine ⟨l.takeWhile isSpace,
    (((l.dropWhile isSpace).reverse).takeWhile isSpace).reverse, ?_, ?_, ?_⟩
  · have h1 : l = l.takeWhile isSpace ++ l.dropWhile isSpace :=
      (List.takeWhile_append_dropWhile isSpace l).symm
    have h2 : (l.dropWhile isSpace).reverse =
        ((l.dropWhile isSpace).reverse).takeWhile isSpace ++
        ((l.dropWhile isSpace).reverse).dropWhile isSpace :=
      (List.takeWhile_append_dropWhile isSpace _).symm
    have h3 : l.dropWhile isSpace = TrimSpace l ++
        (((l.dropWhile isSpace).reverse).takeWhile isSpace).reverse := by
      have := congrArg List.reverse h2
      rw [List.reverse_reverse, List.reverse_append] at this
      exact this
    rw [← h3]
    exact h1
  · intro x hx
    exact List.mem_takeWhile_imp hx
  · intro x hx
    exact List.mem_takeWhile_imp (List.mem_reverse.mp hx)

theorem space_ne_colon (x : Char) (h : isSpace x = true) : (x != ':') = true := by
  by_contra hc
  have : x = ':' := by simpa using hc
  rw [this] at h
  exact absurd h (by decide)

/-- The name read from a line does not depend on trimming the line first. -/
theorem beforeColon_trim (l : Str) (h : ':' ∈ TrimSpace l) :
    TrimSpace (beforeColon (TrimSpace l)) = TrimSpace (beforeColon l) := by
  obtain ⟨w0, w1, hl, h0, _⟩ := TrimSpace_decompose l
  have e1 : beforeColon l = w0 ++ beforeColon (TrimSpace l) := by
    conv_lhs => rw [hl]
    unfold beforeColon
    rw [takeWhile_append_of_all _ w0 _ (fun x hx => space_ne_colon x (h0 x hx)),
      takeWhile_append_of_exists _ (TrimSpace l) w1 ⟨':', h, by simp⟩]
  rw [e1, TrimSpace_prepend_spaces w0 _ h0]

theorem colon_mem_of_Contains (s : Str) (h : Contains s eapMark = true) : ':' ∈ s := by
  have hi : eapMark <:+: s := (Contains_iff_block s eapMark).mp h
  exact hi.subset (by decide)

/-! ## `ListUsers` -/

theorem listLine_eq (acc : List User) (raw : Str) :
    listLine acc raw = acc ++ ((lineName raw).toList.map userOf) := by
  unfold listLine lineName
  simp only [Contains_trim_eapMark]
  by_cases hc : Contains raw eapMark = true
  · have hm : ':' ∈ TrimSpace raw :=
      colon_mem_of_Contains _ (by rw [Contains_trim_eapMark]; exact hc)
    simp only [hc, if_true, beforeColon_trim raw hm]
    by_cases h1 : TrimSpace (beforeColon raw) = []
    · simp [h1]
    · by_cases h2 : TrimSpace (beforeColon raw) = reservedUser
      · simp [h2]
      · simp [h1, h2, userOf]
  · simp [hc]

theorem foldl_listLine (ls : List Str) (acc : List User) :
    ls.foldl listLine acc = acc ++ (ls.filterMap lineName).map userOf := by
  induction ls generalizing acc with
  | nil => simp
  | cons l ls ih =>
    rw [List.foldl_cons, ih, listLine_eq, List.filterMap_cons]
    cases lineName l <;> simp

theorem parseUsers_eq (content : Str) :
    parseUsers content = (listedNames content).map userOf := by
  unfold parseUsers listedNames
  rw [foldl_listLine]
  rfl

theorem RunSudo_of_connected (c : Client) (h : c.connected = true) (cmd : Str) :
    c.RunSudo cmd = ((c.runSudo cmd c.secrets).1,
      { c with secrets := (c.runSudo cmd c.secrets).2, sent := c.sent ++ [cmd] }) := by
  simp [Client.RunSudo, h]

/-- On a usable session `ListUsers` sends `cat` once and parses what it returns. -/
theorem ListUsers_ok (um : UserManager) (content : Str)
    (hconn : um.client.connected = true ∨ um.client.connectErr = none)
    (hcat : (um.client.runSudo catCmd um.client.secrets).1 = .ok content) :
    ListUsers um = (.ok (parseUsers content),
      { um with client := { um.client with
          connected := true
          secrets := (um.client.runSudo catCmd um.client.secrets).2
          sent := um.client.sent ++ [catCmd] } }) := by
  unfold ListUsers
  rw [ensureConnected_ok um.client hconn]
  simp only [Client.RunSudo, Bool.not_true, Bool.false_eq_true, if_false, hcat]

/-! ## `AddUser` -/

theorem ContainsAny_false_iff (s chars : Str) :
    ContainsAny s chars = false ↔ ∀ x ∈ s, x ∉ chars := by
  unfold ContainsAny
  rw [List.any_eq_false]
  constructor
  · intro h x hx hc
    exact h x hx (by simpa using hc)
  · intro h x hx
    simpa using h x hx

/-- Rejected user names: nothing is sent and the client is only connected. -/
theorem AddUser_invalid (um : UserManager) (u p : Str) (rnd : List Nat)
    (hconn : um.client.connected = true ∨ um.client.connectErr = none)
    (hbad : ContainsAny u forbiddenChars = true) :
    AddUser um u p rnd =
      (.error invalidUsernameErr, { um with client := { um.client with connected := true } }) := by
  unfold AddUser
  rw [ensureConnected_ok um.client hconn]
  simp only [hbad, if_true]

/-- The outcome of `AddUser` once the user name is accepted and `cat` answers. -/
theorem AddUser_valid (um : UserManager) (u p : Str) (rnd : List Nat) (content : Str)
    (hconn : um.client.connected = true ∨ um.client.connectErr = none)
    (hok : ContainsAny u forbiddenChars = false)
    (hcat : (um.client.runSudo catCmd um.client.secrets).1 = .ok content) :
    AddUser um u p rnd =
      (let c1 : Client := { um.client with
          connected := true
          secrets := (um.client.runSudo catCmd um.client.secrets).2
          sent := um.client.sent ++ [catCmd] }
       let password := if p == [] then hexEncode (randBytes rnd 16) else p
       if (parseUsers content).any (fun x => x.Username == u) then
         (.error (alreadyExistsErr u), { um with client := c1 })
       else
         let r := c1.runSudo (appendCmd (secretLine u password)) c1.secrets
         let c2 : Client := { c1 with secrets := r.2,
                                      sent := c1.sent ++ [appendCmd (secretLine u password)] }
         match r.1 with
         | .error err => (.error ("failed to add user: ".toList ++ err), { um with client := c2 })
         | .ok _ =>
           let q := c2.runSudo rereadCmd c2.secrets
           let logger := match q.1 with
             | .error err => um.logger ++ [reloadWarning err]
             | .ok _ => um.logger
           (.ok password,
             { client := { c2 with secrets := q.2, sent := c2.sent ++ [rereadCmd] },
               logger := logger ++ [.logf ("Added user: ".toList ++ u)] })) := by
  unfold AddUser
  rw [ensureConnected_ok um.client hconn]
  simp only [hok, Bool.false_eq_true, if_false]
  rw [ListUsers_ok { um with client := { um.client with connected := true } } content
    (Or.inl rfl) hcat]
  simp only [Client.RunSudo, Bool.not_true, Bool.false_eq_true, if_false]

theorem ensureConnected_cases (c : Client) :
    (∃ e, ensureConnected c = (some e, c)) ∨
    (c.connected = true ∨ c.connectErr = none) := by
  by_cases hc : c.connected = true
  · exact Or.inr (Or.inl hc)
  · by_cases hn : c.connectErr = none
    · exact Or.inr (Or.inr hn)
    · obtain ⟨e, he⟩ := Option.ne_none_iff_exists'.mp hn
      left
      exact ⟨e, by simp [ensureConnected, Client.IsConnected, hc, Client.Connect, he]⟩

theorem AddUser_cat_failed (um : UserManager) (u p : Str) (rnd : List Nat) (e : Str)
    (hconn : um.client.connected = true ∨ um.client.connectErr = none)
    (hok : ContainsAny u forbiddenChars = false)
    (hcat : (um.client.runSudo catCmd um.client.secrets).1 = .error e) :
    (AddUser um u p rnd).1 = .error e := by
  unfold AddUser
  rw [ensureConnected_ok um.client hconn]
  simp only [hok, Bool.false_eq_true, if_false]
  unfold ListUsers
  rw [ensureConnected_ok _ (Or.inl rfl)]
  simp only [Client.RunSudo, Bool.not_true, Bool.false_eq_true, if_false, hcat]

/-- A successful `AddUser` had an accepted user name and leaves the session connected. -/
theorem AddUser_ok_inv (um : UserManager) (u p pw : Str) (rnd : List Nat)
    (h : (AddUser um u p rnd).1 = .ok pw) :
    ContainsAny u forbiddenChars = false ∧ (AddUser um u p rnd).2.client.connected = true := by
  rcases ensureConnected_cases um.client with ⟨e, he⟩ | hconn
  · unfold AddUser at h
    rw [he] at h
    simp at h
  · by_cases hok : ContainsAny u forbiddenChars = true
    · rw [AddUser_invalid um u p rnd hconn hok] at h
      simp at h
    · have hok2 : ContainsAny u forbiddenChars = false := by simpa using hok
      refine ⟨hok2, ?_⟩
      cases hcat : (um.client.runSudo catCmd um.client.secrets).1 with
      | error e =>
        rw [AddUser_cat_failed um u p rnd e hconn hok2 hcat] at h
        simp at h
      | ok content =>
        rw [AddUser_valid um u p rnd content hconn hok2 hcat]
        simp only
        split_ifs <;> first | rfl | (split <;> rfl)

/-! ## Claims on the credential store -/

/-- C5, as stated, fails: a tab is a white-space character, yet `AddUser`
accepts the user name, reads the store and appends to it. -/
theorem C5_counterexample :
    (∃ ch ∈ tabUser, isSpace ch = true) ∧
    (AddUser (refManager true []) tabUser "pw".toList []).1 = .ok "pw".toList ∧
    (AddUser (refManager true []) tabUser "pw".toList []).2.client.sent =
      [catCmd, appendCmd (secretLine tabUser "pw".toList), rereadCmd] := by
  refine ⟨by decide, rfl, by decide⟩

/-- C5 (amended): on a usable session, for every user name that contains a
space, a newline, a colon, a single quote or a double quote, and for every
password and store content, AddUser fails with the invalid-username error and
sends no remote command: the command log and the secrets file are unchanged. -/
theorem C5_invalid_username (um : UserManager) (u p : Str) (rnd : List Nat)
    (hconn : um.client.connected = true ∨ um.client.connectErr = none)
    (hbad : ∃ ch ∈ u, ch = ' ' ∨ ch = '\n' ∨ ch = ':' ∨ ch = Char.ofNat 39 ∨ ch = Char.ofNat 34) :
    (AddUser um u p rnd).1 = .error invalidUsernameErr ∧
    (AddUser um u p rnd).2.client.sent = um.client.sent ∧
    (AddUser um u p rnd).2.client.secrets = um.client.secrets := by
  have hb : ContainsAny u forbiddenChars = true := by
    obtain ⟨ch, hch, hc⟩ := hbad
    unfold ContainsAny
    rw [List.any_eq_true]
    refine ⟨ch, hch, ?_⟩
    rcases hc with h | h | h | h | h <;> rw [h] <;> decide
  rw [AddUser_invalid um u p rnd hconn hb]
  exact ⟨rfl, rfl, rfl⟩

theorem C5_invalid_username_witness :
    (AddUser (refManager true baseSecrets) spaceUser [] []).1 = .error invalidUsernameErr ∧
    (AddUser (refManager true baseSecrets) spaceUser [] []).2.client.sent =
      (refManager true baseSecrets).client.sent ∧
    (AddUser (refManager true baseSecrets) spaceUser [] []).2.client.secrets =
      (refManager true baseSecrets).client.secrets :=
  C5_invalid_username (refManager true baseSecrets) spaceUser [] [] (Or.inl rfl)
    ⟨' ', by decide, Or.inl rfl⟩

/-- C7: ListUsers returns, in file order, one user per line of the secrets file
that contains ": EAP", named by the trimmed text before the line's first colon,
leaving out empty names and the reserved "tunnel-user"; a line of another type,
such as ": RSA server-key.pem", gives no user. -/
theorem C7_list_users (um : UserManager) (content : Str)
    (hconn : um.client.connected = true ∨ um.client.connectErr = none)
    (hcat : (um.client.runSudo catCmd um.client.secrets).1 = .ok content) :
    (ListUsers um).1 = .ok ((listedNames content).map userOf) ∧
    lineName ": RSA server-key.pem".toList = none := by
  rw [ListUsers_ok um content hconn hcat, parseUsers_eq]
  exact ⟨rfl, by decide⟩

theorem C7_list_users_witness :
    (ListUsers (refManager true baseSecrets)).1 = .ok ((listedNames baseSecrets).map userOf) ∧
    lineName ": RSA server-key.pem".toList = none :=
  C7_list_users (refManager true baseSecrets) baseSecrets (Or.inl rfl) rfl

/-! ## The line `AddUser` writes -/

theorem valid_chars (u : Str) (h : ContainsAny u forbiddenChars = false) :
    ':' ∉ u ∧ '\n' ∉ u ∧ Char.ofNat 34 ∉ u := by
  rw [ContainsAny_false_iff] at h
  refine ⟨?_, ?_, ?_⟩ <;> intro hc <;> exact h _ hc (by decide)

/-- A line that starts with `u : EAP` is listed under `u`, for a trimmed,
non-empty, unreserved name without a colon. -/
theorem lineName_secret (u rest : Str) (hcolon : ':' ∉ u) (hne : u ≠ [])
    (hres : u ≠ reservedUser) (htrim : TrimSpace u = u) :
    lineName (u ++ " : EAP".toList ++ rest) = some u := by
  have e1 : u ++ " : EAP".toList ++ rest = (u ++ [' ']) ++ ':' :: (" EAP".toList ++ rest) := by
    have : " : EAP".toList = [' '] ++ ':' :: " EAP".toList := rfl
    rw [this]
    simp
  have hb : beforeColon (u ++ " : EAP".toList ++ rest) = u ++ [' '] := by
    rw [e1]
    exact beforeColon_append_colon _ _ (by simp [hcolon])
  have ht : TrimSpace (u ++ [' ']) = u :=
    TrimSpace_append_spaces u [' '] hne htrim (by decide)
  have hc : Contains (u ++ " : EAP".toList ++ rest) eapMark = true := by
    rw [Contains_iff_block]
    refine ⟨u ++ [' '], rest, ?_⟩
    have : " : EAP".toList = [' '] ++ eapMark := rfl
    rw [this]
    simp
  unfold lineName
  rw [hc, hb, ht]
  simp [hne, hres]

/-- After the line for `u` is appended to a file that is empty or ends with a
newline, `u` is among the listed names. -/
theorem listed_after_append (s u pw : Str) (hvalid : ContainsAny u forbiddenChars = false)
    (hne : u ≠ []) (hres : u ≠ reservedUser) (htrim : TrimSpace u = u)
    (hfile : s = [] ∨ s.getLast? = some '\n') :
    u ∈ listedNames (s ++ secretLine u pw ++ ['\n']) := by
  obtain ⟨hcolon, hnl, _⟩ := valid_chars u hvalid
  have hH : '\n' ∉ u ++ " : EAP".toList := by
    intro hc
    rcases List.mem_append.mp hc with h | h
    · exact hnl h
    · exact absurd h (by decide)
  have hsl : ∀ t : Str, secretLine u pw ++ t =
      (u ++ " : EAP".toList) ++ (' ' :: Char.ofNat 34 :: (pw ++ [Char.ofNat 34] ++ t)) := by
    intro t
    have : " : EAP ".toList = " : EAP".toList ++ [' '] := rfl
    simp [secretLine, this]
  have hline : ∃ h t, splitLines (secretLine u pw ++ ['\n']) =
      (u ++ " : EAP".toList ++ h) :: t := by
    rw [hsl, splitLines_prepend _ _ hH]
    exact ⟨_, _, rfl⟩
  obtain ⟨h, t, hht⟩ := hline
  have hmem : (u ++ " : EAP".toList ++ h) ∈ splitLines (s ++ secretLine u pw ++ ['\n']) := by
    rcases hfile with hs | hs
    · rw [hs, List.nil_append, hht]
      exact List.mem_cons_self _ _
    · obtain ⟨s0, hs0⟩ := ends_newline s hs
      have : s ++ secretLine u pw ++ ['\n'] = s0 ++ '\n' :: (secretLine u pw ++ ['\n']) := by
        rw [hs0]; simp
      rw [this, splitLines_append_newline, hht]
      exact List.mem_append_right _ (List.mem_cons_self _ _)
  unfold listedNames
  rw [List.mem_filterMap]
  exact ⟨_, hmem, lineName_secret u h hcolon hne hres htrim⟩

theorem any_username_of_listed (content u : Str) (h : u ∈ listedNames content) :
    (parseUsers content).any (fun x => x.Username == u) = true := by
  rw [parseUsers_eq, List.any_eq_true]
  exact ⟨userOf u, List.mem_map_of_mem _ h, by simp [userOf]⟩

theorem any_username_iff_listed (content u : Str) :
    (parseUsers content).any (fun x => x.Username == u) = true ↔ u ∈ listedNames content := by
  constructor
  · intro h
    rw [parseUsers_eq, List.any_eq_true] at h
    obtain ⟨x, hx, hxu⟩ := h
    obtain ⟨n, hn, rfl⟩ := List.mem_map.mp hx
    have : n = u := by simpa [userOf] using hxu
    rw [← this]; exact hn
  · exact any_username_of_listed content u

/-- C6, as stated, fails: the reserved name passes validation and is never
listed, so a second AddUser for it succeeds as well and the store holds two EAP
entries for "tunnel-user". -/
theorem C6_counterexample :
    ContainsAny reservedUser forbiddenChars = false ∧
    (AddUser (refManager true []) reservedUser "x".toList []).1 = .ok "x".toList ∧
    (AddUser (AddUser (refManager true []) reservedUser "x".toList []).2
      reservedUser "y".toList []).1 = .ok "y".toList ∧
    (AddUser (AddUser (refManager true []) reservedUser "x".toList []).2
      reservedUser "y".toList []).2.client.secrets =
      "tunnel-user : EAP \"x\"\ntunnel-user : EAP \"y\"\n".toList := by
  refine ⟨by decide, rfl, rfl, by decide⟩

/-- C6 (amended): for a user name that passes validation, is not empty, is not
the reserved "tunnel-user" and has no white space at either end, and a secrets
file that is empty or ends with a newline: if AddUser(username, p1) succeeds,
appending its line to the store, then a following AddUser(username, p2) on a
host where reading the store succeeds fails with the already-exists error, and
it sends only the read: nothing is appended. -/
theorem C6_duplicate_rejected (um : UserManager) (u p1 p2 pw : Str) (rnd rnd2 : List Nat)
    (hne : u ≠ []) (hres : u ≠ reservedUser) (htrim : TrimSpace u = u)
    (hfile : um.client.secrets = [] ∨ um.client.secrets.getLast? = some '\n')
    (hadd : (AddUser um u p1 rnd).1 = .ok pw)
    (happ : (AddUser um u p1 rnd).2.client.secrets =
      um.client.secrets ++ secretLine u pw ++ ['\n'])
    (hcat : (AddUser um u p1 rnd).2.client.runSudo catCmd (AddUser um u p1 rnd).2.client.secrets =
      (.ok (AddUser um u p1 rnd).2.client.secrets, (AddUser um u p1 rnd).2.client.secrets)) :
    (AddUser (AddUser um u p1 rnd).2 u p2 rnd2).1 = .error (alreadyExistsErr u) ∧
    (AddUser (AddUser um u p1 rnd).2 u p2 rnd2).2.client.secrets =
      (AddUser um u p1 rnd).2.client.secrets ∧
    (AddUser (AddUser um u p1 rnd).2 u p2 rnd2).2.client.sent =
      (AddUser um u p1 rnd).2.client.sent ++ [catCmd] := by
  obtain ⟨hvalid, hconn1⟩ := AddUser_ok_inv um u p1 pw rnd hadd
  generalize AddUser um u p1 rnd = r at *
  have hcat1 : (r.2.client.runSudo catCmd r.2.client.secrets).1 = .ok r.2.client.secrets := by
    rw [hcat]
  have hany : (parseUsers r.2.client.secrets).any (fun x => x.Username == u) = true := by
    apply any_username_of_listed
    rw [happ]
    exact listed_after_append _ u pw hvalid hne hres htrim hfile
  rw [AddUser_valid r.2 u p2 rnd2 r.2.client.secrets (Or.inl hconn1) hvalid hcat1]
  simp only [hany, if_true, hcat]
  exact ⟨trivial, trivial, trivial⟩

theorem C6_duplicate_rejected_witness :
    (AddUser (AddUser (refManager true baseSecrets) alice "pw".toList []).2 alice [] []).1 =
      .error (alreadyExistsErr alice) ∧
    (AddUser (AddUser (refManager true baseSecrets) alice "pw".toList []).2 alice [] []).2.client.secrets =
      (AddUser (refManager true baseSecrets) alice "pw".toList []).2.client.secrets ∧
    (AddUser (AddUser (refManager true baseSecrets) alice "pw".toList []).2 alice [] []).2.client.sent =
      (AddUser (refManager true baseSecrets) alice "pw".toList []).2.client.sent ++ [catCmd] :=
  C6_duplicate_rejected (refManager true baseSecrets) alice "pw".toList [] "pw".toList [] []
    (by decide) (by decide) (by decide) (Or.inr (by decide)) rfl (by decide) rfl

/-! ## `RemoveUser` -/

/-- The outcome of `RemoveUser` on a usable session. -/
theorem RemoveUser_usable (um : UserManager) (u : Str)
    (hconn : um.client.connected = true ∨ um.client.connectErr = none) :
    RemoveUser um u =
      (let r := um.client.runSudo (removeCmd u) um.client.secrets
       let c1 : Client := { um.client with
          connected := true
          secrets := r.2
          sent := um.client.sent ++ [removeCmd u] }
       match r.1 with
       | .error err => (some ("failed to remove user: ".toList ++ err), { um with client := c1 })
       | .ok _ =>
         let q := c1.runSudo rereadCmd c1.secrets
         let logger := match q.1 with
           | .error err => um.logger ++ [reloadWarning err]
           | .ok _ => um.logger
         (none, { client := { c1 with secrets := q.2, sent := c1.sent ++ [rereadCmd] },
                  logger := logger ++ [.logf ("Removed user: ".toList ++ u)] })) := by
  unfold RemoveUser
  rw [ensureConnected_ok um.client hconn]
  simp only [Client.RunSudo, Bool.not_true, Bool.false_eq_true, if_false]

/-- A successful `RemoveUser` leaves the session connected. -/
theorem RemoveUser_ok_inv (um : UserManager) (u : Str) (h : (RemoveUser um u).1 = none) :
    (RemoveUser um u).2.client.connected = true := by
  rcases ensureConnected_cases um.client with ⟨e, he⟩ | hconn
  · unfold RemoveUser at h
    rw [he] at h
    simp at h
  · rw [RemoveUser_usable um u hconn]
    simp only
    split <;> rfl

theorem lineName_nil : lineName [] = none := by decide

/-- C8, as stated, fails: the anchored pattern wants one blank before the colon,
the listing does not. No line of this file matches `^alice : EAP`, so the
delete succeeds and removes nothing, and alice is still listed. -/
theorem C8_counterexample :
    (∀ l ∈ splitLines looseSecrets, HasPrefix l (alice ++ " : EAP".toList) = false) ∧
    (RemoveUser (refManager true looseSecrets) alice).1 = none ∧
    (RemoveUser (refManager true looseSecrets) alice).2.client.sent =
      [removeCmd alice, rereadCmd] ∧
    (RemoveUser (refManager true looseSecrets) alice).2.client.secrets = looseSecrets ∧
    (ListUsers (RemoveUser (refManager true looseSecrets) alice).2).1 = .ok [userOf alice] := by
  refine ⟨by decide, rfl, by decide, by decide, rfl⟩

/-- C8 (amended): for every user name and every secrets file in which each line
listed under that name starts with `username : EAP`, after RemoveUser(username)
succeeds, leaving only lines of the old file (or empty ones) none of which
starts with `username : EAP`, a following ListUsers succeeds and does not
include the user name. -/
theorem C8_remove_then_list (um : UserManager) (u : Str)
    (hrem : (RemoveUser um u).1 = none)
    (hdel : ∀ l ∈ splitLines (RemoveUser um u).2.client.secrets,
      (l = [] ∨ l ∈ splitLines um.client.secrets) ∧
      HasPrefix l (u ++ " : EAP".toList) = false)
    (hcanon : ∀ l ∈ splitLines um.client.secrets,
      lineName l = some u → HasPrefix l (u ++ " : EAP".toList) = true)
    (hcat : ((RemoveUser um u).2.client.runSudo catCmd (RemoveUser um u).2.client.secrets).1 =
      .ok (RemoveUser um u).2.client.secrets) :
    ∃ users, (ListUsers (RemoveUser um u).2).1 = .ok users ∧ ∀ x ∈ users, x.Username ≠ u := by
  have hconn := RemoveUser_ok_inv um u hrem
  generalize RemoveUser um u = r at *
  refine ⟨parseUsers r.2.client.secrets, ?_, ?_⟩
  · rw [ListUsers_ok r.2 r.2.client.secrets (Or.inl hconn) hcat]
  · intro x hx hxu
    rw [parseUsers_eq] at hx
    obtain ⟨n, hn, rfl⟩ := List.mem_map.mp hx
    have hnu : n = u := hxu
    unfold listedNames at hn
    obtain ⟨l, hl, hln⟩ := List.mem_filterMap.mp hn
    rw [hnu] at hln
    obtain ⟨hor, hpre⟩ := hdel l hl
    rcases hor with h0 | hin
    · rw [h0, lineName_nil] at hln
      exact absurd hln (by simp)
    · rw [hcanon l hin hln] at hpre
      exact absurd hpre (by simp)

theorem C8_remove_then_list_witness :
    ∃ users, (ListUsers (RemoveUser
        (AddUser (refManager true baseSecrets) alice "pw".toList []).2 alice).2).1 = .ok users ∧
      ∀ x ∈ users, x.Username ≠ alice :=
  C8_remove_then_list (AddUser (refManager true baseSecrets) alice "pw".toList []).2 alice
    rfl (by decide) (by decide) rfl

/-! ## `GetUserPassword` -/

theorem lineName_trim (l : Str) : lineName (TrimSpace l) = lineName l := by
  unfold lineName
  rw [Contains_trim_eapMark]
  by_cases hc : Contains l eapMark = true
  · have hm : ':' ∈ TrimSpace l :=
      colon_mem_of_Contains _ (by rw [Contains_trim_eapMark]; exact hc)
    have hmm : ':' ∈ TrimSpace (TrimSpace l) := by
      apply colon_mem_of_Contains
      rw [Contains_trim_eapMark, Contains_trim_eapMark]; exact hc
    rw [← beforeColon_trim (TrimSpace l) hmm, beforeColon_trim (TrimSpace l) hmm,
      beforeColon_trim l hm]
  · simp [hc]

/-- A line whose trimmed text starts with `u : EAP` is listed under `u`. -/
theorem listed_of_prefix (u l : Str) (hcolon : ':' ∉ u) (hne : u ≠ [])
    (hres : u ≠ reservedUser) (htrim : TrimSpace u = u)
    (h : HasPrefix (TrimSpace l) (u ++ " : EAP".toList) = true) : lineName l = some u := by
  unfold HasPrefix at h
  rw [List.isPrefixOf_iff_prefix] at h
  obtain ⟨rest, hr⟩ := h
  rw [← lineName_trim, ← hr]
  exact lineName_secret u rest hcolon hne hres htrim

theorem findPassword_skip (u : Str) (ls rest : List Str)
    (h : ∀ l ∈ ls, HasPrefix (TrimSpace l) (u ++ " : EAP".toList) = false) :
    findPassword u (ls ++ rest) = findPassword u rest := by
  induction ls with
  | nil => rfl
  | cons l ls ih =>
    rw [List.cons_append, findPassword]
    simp only [h l (List.mem_cons_self _ _), Bool.false_eq_true, if_false]
    exact ih (fun x hx => h x (List.mem_cons_of_mem _ hx))

theorem indexQuote_append (a b : Str) (ha : Char.ofNat 34 ∉ a) :
    indexQuote (a ++ Char.ofNat 34 :: b) = some a.length := by
  induction a with
  | nil => simp [indexQuote]
  | cons c cs ih =>
    have hc : c ≠ '"' := fun e => ha (by rw [e]; exact List.mem_cons_self _ _)
    have hcs : Char.ofNat 34 ∉ cs := fun e => ha (List.mem_cons_of_mem _ e)
    rw [List.cons_append, indexQuote, if_neg hc, ih hcs]
    rfl

theorem lastIndexQuote_append (a : Str) :
    lastIndexQuote (a ++ [Char.ofNat 34]) = some a.length := by
  induction a with
  | nil => rfl
  | cons c cs ih =>
    rw [List.cons_append, lastIndexQuote, ih]
    rfl

/-- The line `AddUser` writes is its own trimmed text. -/
theorem TrimSpace_secretLine (u p : Str) (hne : u ≠ []) (htrim : TrimSpace u = u) :
    TrimSpace (secretLine u p) = secretLine u p := by
  obtain ⟨h1, _⟩ := TrimSpace_fix u htrim
  have e : secretLine u p =
      u ++ (" : EAP ".toList ++ [Char.ofNat 34] ++ p ++ [Char.ofNat 34]) := by
    simp [secretLine]
  have e2 : (secretLine u p).reverse =
      Char.ofNat 34 :: (u ++ " : EAP ".toList ++ [Char.ofNat 34] ++ p).reverse := by
    simp [secretLine]
  unfold TrimSpace
  rw [e, dropWhile_append_of_fix isSpace u _ hne h1, ← e, e2,
    List.dropWhile_cons_of_neg (by decide), ← e2, List.reverse_reverse]

/-- The loop of `GetUserPassword` on the line `AddUser` writes yields the password. -/
theorem findPassword_secretLine (u p : Str) (rest : List Str) (hvalid : ContainsAny u forbiddenChars = false)
    (hne : u ≠ []) (htrim : TrimSpace u = u) :
    findPassword u (secretLine u p :: rest) = some p := by
  obtain ⟨_, _, hq⟩ := valid_chars u hvalid
  have hq2 : Char.ofNat 34 ∉ u ++ " : EAP ".toList := by
    intro hc
    rcases List.mem_append.mp hc with h | h
    · exact hq h
    · exact absurd h (by decide)
  have hpre : HasPrefix (secretLine u p) (u ++ " : EAP".toList) = true := by
    unfold HasPrefix
    rw [List.isPrefixOf_iff_prefix]
    refine ⟨' ' :: Char.ofNat 34 :: (p ++ [Char.ofNat 34]), ?_⟩
    have : " : EAP ".toList = " : EAP".toList ++ [' '] := rfl
    simp [secretLine, this]
  have e1 : secretLine u p = (u ++ " : EAP ".toList) ++ Char.ofNat 34 :: (p ++ [Char.ofNat 34]) := by
    simp [secretLine]
  have e2 : secretLine u p =
      (u ++ " : EAP ".toList ++ [Char.ofNat 34] ++ p) ++ [Char.ofNat 34] := by
    simp [secretLine]
  have hi : indexQuote (secretLine u p) = some (u ++ " : EAP ".toList).length := by
    rw [e1]; exact indexQuote_append _ _ hq2
  have hl : lastIndexQuote (secretLine u p) =
      some (u ++ " : EAP ".toList ++ [Char.ofNat 34] ++ p).length := by
    rw [e2]; exact lastIndexQuote_append _
  have hgt : (u ++ " : EAP ".toList ++ [Char.ofNat 34] ++ p).length >
      (u ++ " : EAP ".toList).length := by
    simp only [List.length_append, List.length_singleton]; omega
  have hs : slice (secretLine u p) ((u ++ " : EAP ".toList).length + 1)
      (u ++ " : EAP ".toList ++ [Char.ofNat 34] ++ p).length = p := by
    unfold slice
    rw [e2, List.take_left']
    · have : u ++ " : EAP ".toList ++ [Char.ofNat 34] ++ p =
          (u ++ " : EAP ".toList ++ [Char.ofNat 34]) ++ p := rfl
      rw [this, List.drop_left']
      simp
    · rfl
  rw [findPassword]
  simp only [TrimSpace_secretLine u p hne htrim, hpre, if_true, hi, hl, hgt, hs]

/-- The outcome of `GetUserPassword` on a usable session when `cat` answers. -/
theorem GetUserPassword_ok (um : UserManager) (u content : Str)
    (hconn : um.client.connected = true ∨ um.client.connectErr = none)
    (hcat : (um.client.runSudo catCmd um.client.secrets).1 = .ok content) :
    (GetUserPassword um u).1 =
      (match findPassword u (splitLines content) with
       | some pw => .ok pw
       | none => .error (notFoundErr u)) := by
  unfold GetUserPassword
  rw [ensureConnected_ok um.client hconn]
  simp only [Client.RunSudo, Bool.not_true, Bool.false_eq_true, if_false, hcat]
  split <;> rfl

/-- The password `AddUser` returns: the given one unless it is empty. -/
theorem AddUser_ok_password (um : UserManager) (u p pw : Str) (rnd : List Nat)
    (h : (AddUser um u p rnd).1 = .ok pw) :
    pw = if p == [] then hexEncode (randBytes rnd 16) else p := by
  rcases ensureConnected_cases um.client with ⟨e, he⟩ | hconn
  · unfold AddUser at h
    rw [he] at h
    simp at h
  · obtain ⟨hok, _⟩ := AddUser_ok_inv um u p pw rnd h
    cases hcat : (um.client.runSudo catCmd um.client.secrets).1 with
    | error e =>
      rw [AddUser_cat_failed um u p rnd e hconn hok hcat] at h
      simp at h
    | ok content =>
      rw [AddUser_valid um u p rnd content hconn hok hcat] at h
      simp only at h
      split at h
      · simp at h
      · split at h
        · simp at h
        · simp only [Except.ok.injEq] at h
          exact h.symm

/-- C9, as stated, fails: the empty user name passes validation and is not in
the store; AddUser succeeds and appends ` : EAP "pw"`, but no trimmed line
starts with a blank, so GetUserPassword reports the password as not found. -/
theorem C9_counterexample :
    ContainsAny [] forbiddenChars = false ∧
    ([] : Str) ∉ listedNames [] ∧
    (AddUser (refManager true []) [] "pw".toList []).1 = .ok "pw".toList ∧
    (AddUser (refManager true []) [] "pw".toList []).2.client.secrets =
      [] ++ secretLine [] "pw".toList ++ ['\n'] ∧
    (GetUserPassword (AddUser (refManager true []) [] "pw".toList []).2 []).1 =
      .error (notFoundErr []) := by
  refine ⟨by decide, by decide, rfl, by decide, rfl⟩

/-- C9 (amended): for a user name that passes validation, is not empty, is not
the reserved "tunnel-user", has no white space at either end and is not yet
listed in the store, a store that is empty or ends with a newline, and a
non-empty password p without newline (double quotes allowed): after
AddUser(username, p) succeeds and appends the line `username : EAP "p"`,
AddUser has returned p, and GetUserPassword(username), on a host where reading
the store succeeds, returns exactly p. -/
theorem C9_add_then_get (um : UserManager) (u p pw : Str) (rnd : List Nat)
    (hne : u ≠ []) (hres : u ≠ reservedUser) (htrim : TrimSpace u = u)
    (hp : p ≠ []) (hnl : '\n' ∉ p)
    (hfile : um.client.secrets = [] ∨ um.client.secrets.getLast? = some '\n')
    (hnew : u ∉ listedNames um.client.secrets)
    (hadd : (AddUser um u p rnd).1 = .ok pw)
    (happ : (AddUser um u p rnd).2.client.secrets =
      um.client.secrets ++ secretLine u p ++ ['\n'])
    (hcat : ((AddUser um u p rnd).2.client.runSudo catCmd
      (AddUser um u p rnd).2.client.secrets).1 = .ok (AddUser um u p rnd).2.client.secrets) :
    pw = p ∧ (GetUserPassword (AddUser um u p rnd).2 u).1 = .ok p := by
  obtain ⟨hvalid, hconn1⟩ := AddUser_ok_inv um u p pw rnd hadd
  have hpw := AddUser_ok_password um u p pw rnd hadd
  have hpe : (p == []) = false := by simpa using hp
  rw [hpe] at hpw
  refine ⟨by simpa using hpw, ?_⟩
  obtain ⟨hcolon, hunl, hq⟩ := valid_chars u hvalid
  rw [GetUserPassword_ok _ u _ (Or.inl hconn1) hcat, happ]
  have hLnl : '\n' ∉ secretLine u p := by
    intro hc
    simp only [secretLine, List.mem_append, List.mem_singleton] at hc
    rcases hc with (((h | h) | h) | h) | h
    · exact hunl h
    · exact absurd h (by decide)
    · exact absurd h (by decide)
    · exact hnl h
    · exact absurd h (by decide)
  have hL : splitLines (secretLine u p ++ ['\n']) = [secretLine u p, []] := by
    rw [splitLines_append_newline, splitLines_no_newline _ hLnl]
    rfl
  have hskip : ∀ l ∈ splitLines um.client.secrets,
      HasPrefix (TrimSpace l) (u ++ " : EAP".toList) = false := by
    intro l hl
    by_contra hc
    have hc2 : HasPrefix (TrimSpace l) (u ++ " : EAP".toList) = true := by simpa using hc
    have := listed_of_prefix u l hcolon hne hres htrim hc2
    exact hnew (List.mem_filterMap.mpr ⟨l, hl, this⟩)
  have hfind : findPassword u (splitLines (um.client.secrets ++ secretLine u p ++ ['\n'])) =
      some p := by
    rcases hfile with hs | hs
    · rw [hs, List.nil_append, hL]
      exact findPassword_secretLine u p _ hvalid hne htrim
    · obtain ⟨s0, hs0⟩ := ends_newline _ hs
      have e : um.client.secrets ++ secretLine u p ++ ['\n'] =
          s0 ++ '\n' :: (secretLine u p ++ ['\n']) := by
        rw [hs0]; simp
      have hsub : ∀ l ∈ splitLines s0, l ∈ splitLines um.client.secrets := by
        intro l hl
        rw [hs0, splitLines_append_newline]
        exact List.mem_append_left _ hl
      rw [e, splitLines_append_newline, hL,
        findPassword_skip u _ _ (fun l hl => hskip l (hsub l hl))]
      exact findPassword_secretLine u p _ hvalid hne htrim
  rw [hfind]

theorem C9_add_then_get_witness :
    "p\"w".toList = "p\"w".toList ∧
    (GetUserPassword (AddUser (refManager true baseSecrets) alice "p\"w".toList []).2 alice).1 =
      .ok "p\"w".toList :=
  C9_add_then_get (refManager true baseSecrets) alice "p\"w".toList "p\"w".toList []
    (by decide) (by decide) (by decide) (by decide) (by decide) (Or.inr (by decide))
    (by decide) rfl (by decide) rfl

/-- C10: when the append to the secrets file succeeds and the reload command
fails, AddUser still returns the password with a nil error and the logger gets
the reload warning; when the delete succeeds and the reload fails, RemoveUser
returns nil and the logger gets the reload warning. -/
theorem C10_best_effort_reload (um : UserManager) (u p : Str) (rnd : List Nat)
    (content outA eA outR eR : Str)
    (hconn : um.client.connected = true ∨ um.client.connectErr = none) :
    (ContainsAny u forbiddenChars = false →
      (um.client.runSudo catCmd um.client.secrets).1 = .ok content →
      u ∉ listedNames content →
      (um.client.runSudo (appendCmd (secretLine u
          (if p == [] then hexEncode (randBytes rnd 16) else p)))
        (um.client.runSudo catCmd um.client.secrets).2).1 = .ok outA →
      (um.client.runSudo rereadCmd
        (um.client.runSudo (appendCmd (secretLine u
            (if p == [] then hexEncode (randBytes rnd 16) else p)))
          (um.client.runSudo catCmd um.client.secrets).2).2).1 = .error eA →
      (AddUser um u p rnd).1 = .ok (if p == [] then hexEncode (randBytes rnd 16) else p) ∧
      reloadWarning eA ∈ (AddUser um u p rnd).2.logger) ∧
    ((um.client.runSudo (removeCmd u) um.client.secrets).1 = .ok outR →
      (um.client.runSudo rereadCmd
        (um.client.runSudo (removeCmd u) um.client.secrets).2).1 = .error eR →
      (RemoveUser um u).1 = none ∧ reloadWarning eR ∈ (RemoveUser um u).2.logger) := by
  constructor
  · intro hok hcat hnew happ hrr
    have hany : (parseUsers content).any (fun x => x.Username == u) = false := by
      rw [Bool.eq_false_iff]
      intro h
      exact hnew ((any_username_iff_listed content u).mp h)
    rw [AddUser_valid um u p rnd content hconn hok hcat]
    simp only [hany, Bool.false_eq_true, if_false, happ, hrr]
    simp
  · intro hdel hrr
    rw [RemoveUser_usable um u hconn]
    simp only [hdel, hrr]
    simp

theorem C10_best_effort_reload_witness :
    ((AddUser (refManager false baseSecrets) alice "pw".toList []).1 = .ok "pw".toList ∧
      reloadWarning "command failed".toList ∈
        (AddUser (refManager false baseSecrets) alice "pw".toList []).2.logger) ∧
    ((RemoveUser (refManager false baseSecrets) alice).1 = none ∧
      reloadWarning "command failed".toList ∈
        (RemoveUser (refManager false baseSecrets) alice).2.logger) :=
  ⟨(C10_best_effort_reload (refManager false baseSecrets) alice "pw".toList []
      baseSecrets (secretLine alice "pw".toList ++ ['\n']) "command failed".toList []
      "command failed".toList (Or.inl rfl)).1 (by decide) rfl (by decide) rfl rfl,
   (C10_best_effort_reload (refManager false baseSecrets) alice "pw".toList []
      baseSecrets (secretLine alice "pw".toList ++ ['\n']) "command failed".toList []
      "command failed".toList (Or.inl rfl)).2 rfl rfl⟩

/-! ## The provisioning run: how the trace grows -/

theorem Grows.refl (P : Event → Prop) (m : Manager) : Grows P m m :=
  ⟨rfl, rfl, rfl, rfl, [], by simp, by simp⟩

theorem Grows.trans {P : Event → Prop} {m1 m2 m3 : Manager}
    (h12 : Grows P m1 m2) (h23 : Grows P m2 m3) : Grows P m1 m3 := by
  obtain ⟨a1, a2, a3, a4, e1, a5, a6⟩ := h12
  obtain ⟨b1, b2, b3, b4, e2, b5, b6⟩ := h23
  refine ⟨b1.trans a1, b2.trans a2, b3.trans a3, b4.trans a4, e1 ++ e2, ?_, ?_⟩
  · rw [b5, a5, List.append_assoc]
  · intro ev hev
    rcases List.mem_append.mp hev with h | h
    · exact a6 ev h
    · exact b6 ev h

theorem Grows.mono {P Q : Event → Prop} {m1 m2 : Manager} (hPQ : ∀ ev, P ev → Q ev)
    (h : Grows P m1 m2) : Grows Q m1 m2 := by
  obtain ⟨a1, a2, a3, a4, e1, a5, a6⟩ := h
  exact ⟨a1, a2, a3, a4, e1, a5, fun ev hev => hPQ ev (a6 ev hev)⟩

theorem Grows_log (P : Event → Prop) (m : Manager) (msg : Str) (hP : P (.log msg)) :
    Grows P m (m.log msg) :=
  ⟨rfl, rfl, rfl, rfl, [.log msg], rfl, by simpa using hP⟩

theorem Grows_run (P : Event → Prop) (m : Manager) (h : Host) (cmd : Str)
    (hP : P (.run h cmd)) : Grows P m (m.run h cmd).2 := by
  unfold Manager.run
  split_ifs
  · exact ⟨rfl, rfl, rfl, rfl, [.run h cmd], rfl, by simpa using hP⟩
  · exact Grows.refl P m

theorem wrapErr_snd (pre : Str) (r : Option Str × Manager) : (wrapErr pre r).2 = r.2 := by
  obtain ⟨e, m⟩ := r
  cases e <;> rfl

theorem errOf_snd (r : Except Str Str × Manager) : (errOf r).2 = r.2 := by
  obtain ⟨e, m⟩ := r
  cases e <;> rfl

theorem runSteps_Grows (P : Event → Prop) (R : Remote) (steps : List Step)
    (hs : ∀ s ∈ steps, ∀ m, m.remote = R → Grows P m (s m).2) (m : Manager)
    (hm : m.remote = R) : Grows P m (runSteps steps m).2 := by
  induction steps generalizing m with
  | nil => exact Grows.refl P m
  | cons s rest ih =>
    have h1 := hs s (List.mem_cons_self _ _) m hm
    unfold runSteps
    cases hsm : s m with
    | mk e m1 =>
      rw [hsm] at h1
      cases e with
      | some err => exact h1
      | none =>
        exact h1.trans (ih (fun t ht => hs t (List.mem_cons_of_mem _ ht)) m1
          (h1.2.1.trans hm))

/-- A failing step stops the sequence with its error. -/
theorem runSteps_fail (pre post : List Step) (s : Step) (m m2 m3 : Manager) (e : Str)
    (hpre : runSteps pre m = (none, m2)) (hs : s m2 = (some e, m3)) :
    runSteps (pre ++ s :: post) m = (some e, m3) := by
  induction pre generalizing m with
  | nil =>
    simp only [runSteps] at hpre
    injection hpre with _ h2
    subst h2
    simp only [List.nil_append, runSteps, hs]
  | cons t rest ih =>
    simp only [runSteps] at hpre
    simp only [List.cons_append, runSteps]
    cases ht : t m with
    | mk e1 m1 =>
      rw [ht] at hpre
      cases e1 with
      | some err => simp at hpre
      | none => exact ih m1 hpre

/-! ## The commands are not the certificate script -/

theorem certScript_take (caName ip : Str) :
    (certScript caName ip).take 9 = "\n\t\tsudo m".toList := rfl

theorem certScript_head (caName ip : Str) : (certScript caName ip).head? = some '\n' := rfl

theorem ne_certScript_of_take (cmd : Str) (h : cmd.take 9 ≠ "\n\t\tsudo m".toList) :
    ∀ caName ip, cmd ≠ certScript caName ip := by
  intro caName ip e
  rw [e, certScript_take] at h
  exact h rfl

theorem ne_certScript_of_head (cmd : Str) (h : cmd.head? ≠ some '\n') :
    ∀ caName ip, cmd ≠ certScript caName ip := by
  intro caName ip e
  rw [e, certScript_head] at h
  exact h rfl

theorem whichCmd_ne : ∀ caName ip, whichCmd ≠ certScript caName ip :=
  ne_certScript_of_head _ (by decide)

theorem installCmd2_ne : ∀ caName ip, installCmd2 ≠ certScript caName ip :=
  ne_certScript_of_head _ (by decide)

theorem installScript1_ne : ∀ caName ip, installScript1 ≠ certScript caName ip :=
  ne_certScript_of_take _ (by decide)

theorem libipsecCmd_ne : ∀ caName ip, libipsecCmd ≠ certScript caName ip :=
  ne_certScript_of_head _ (by decide)

theorem forwardScript_ne : ∀ caName ip, forwardScript ≠ certScript caName ip :=
  ne_certScript_of_take _ (by decide)

theorem checkCertCmd_ne : ∀ caName ip, checkCertCmd ≠ certScript caName ip :=
  ne_certScript_of_head _ (by decide)

theorem restartCmd_ne : ∀ caName ip, restartCmd ≠ certScript caName ip :=
  ne_certScript_of_head _ (by decide)

theorem ifaceCmd_ne : ∀ caName ip, ifaceCmd ≠ certScript caName ip :=
  ne_certScript_of_head _ (by decide)

theorem teeCmd_ne (text path : Str) : ∀ caName ip, teeCmd text path ≠ certScript caName ip :=
  ne_certScript_of_head _ (by
    have : (teeCmd text path).head? = some 'e' := rfl
    rw [this]; decide)

theorem catCmd_ne (path : Str) : ∀ caName ip, "cat ".toList ++ path ≠ certScript caName ip :=
  ne_certScript_of_head _ (by
    have : ("cat ".toList ++ path).head? = some 'c' := rfl
    rw [this]; decide)

theorem gwCmd_ne (iface : Str) : ∀ caName ip, gwCmd iface ≠ certScript caName ip :=
  ne_certScript_of_head _ (by
    have : (gwCmd iface).head? = some 'i' := rfl
    rw [this]; decide)

theorem firewallScript_ne (iface : Str) :
    ∀ caName ip, firewallScript iface ≠ certScript caName ip :=
  ne_certScript_of_take _ (by
    have : (firewallScript iface).take 9 = "\n\t\t# Alwa".toList := rfl
    rw [this]; decide)

theorem routingScript_ne (host1 host2 gw iface vpnSubnet : Str) :
    ∀ caName ip, routingScript host1 host2 gw iface vpnSubnet ≠ certScript caName ip :=
  ne_certScript_of_take _ (by
    have : (routingScript host1 host2 gw iface vpnSubnet).take 9 = "\n\t\t# 1. P".toList := rfl
    rw [this]; decide)

/-! ## The steps only log and talk to their host -/

theorem stageEvent_log (h : Host) (msg : Str) : stageEvent h (.log msg) := ⟨trivial, trivial⟩

theorem stageEvent_run (h : Host) (cmd : Str) (hc : ∀ caName ip, cmd ≠ certScript caName ip) :
    stageEvent h (.run h cmd) := ⟨rfl, hc⟩

theorem Grows_slog (h : Host) (m : Manager) (msg : Str) : Grows (stageEvent h) m (m.log msg) :=
  Grows_log _ m msg (stageEvent_log h msg)

theorem Grows_srun (h : Host) (m : Manager) (cmd : Str)
    (hc : ∀ caName ip, cmd ≠ certScript caName ip) :
    Grows (stageEvent h) m (m.run h cmd).2 :=
  Grows_run _ m h cmd (stageEvent_run h cmd hc)

theorem installStep_Grows (h : Host) (tag cmd : Str)
    (hc : ∀ caName ip, cmd ≠ certScript caName ip) (m : Manager) :
    Grows (stageEvent h) m (installStep h tag cmd m).2 := by
  unfold installStep
  have g1 := Grows_slog h m (tag ++ " Checking StrongSwan installation...".toList)
  have g2 := Grows_srun h (m.log (tag ++ " Checking StrongSwan installation...".toList))
    whichCmd whichCmd_ne
  simp only
  split
  · exact g1.trans (g2.trans (Grows_slog h _ _))
  · rw [wrapErr_snd, errOf_snd]
    exact g1.trans (g2.trans ((Grows_slog h _ _).trans (Grows_srun h _ _ hc)))

theorem libipsecStep_Grows (m : Manager) :
    Grows (stageEvent .server2) m (libipsecStep m).2 :=
  Grows_srun .server2 m libipsecCmd libipsecCmd_ne

theorem forwardStep_Grows (h : Host) (tag : Str) (m : Manager) :
    Grows (stageEvent h) m (forwardStep h tag m).2 := by
  unfold forwardStep
  simp only
  rw [wrapErr_snd, errOf_snd]
  exact (Grows_slog h m _).trans (Grows_srun h _ _ forwardScript_ne)

theorem configureIPsec_Grows (h : Host) (serverIP subnet : Str) (isExitNode : Bool)
    (m : Manager) : Grows (stageEvent h) m (configureIPsec h serverIP subnet isExitNode m).2 := by
  unfold configureIPsec
  have g1 := Grows_srun h m
    (teeCmd (escapeQuotes (ipsecConf isExitNode serverIP subnet)) ipsecConfPath) (teeCmd_ne _ _)
  simp only
  split
  · exact g1
  · exact g1.trans (Grows_srun h _ _ (teeCmd_ne _ _))

theorem ipsecStep_Grows (h : Host) (tag serverIP subnet : Str) (isExitNode : Bool)
    (m : Manager) : Grows (stageEvent h) m (ipsecStep h tag serverIP subnet isExitNode m).2 := by
  unfold ipsecStep
  simp only
  rw [wrapErr_snd]
  exact (Grows_slog h m _).trans (configureIPsec_Grows h _ _ _ _)

theorem configureFirewall_Grows (h : Host) (isExitNode : Bool) (m : Manager) :
    Grows (stageEvent h) m (configureFirewall h isExitNode m).2 := by
  unfold configureFirewall
  have g1 := Grows_srun h m ifaceCmd ifaceCmd_ne
  simp only
  split
  · exact g1
  · rw [errOf_snd]
    exact g1.trans (Grows_srun h _ _ (firewallScript_ne _))

theorem firewallStep_Grows (h : Host) (tag : Str) (isExitNode : Bool) (m : Manager) :
    Grows (stageEvent h) m (firewallStep h tag isExitNode m).2 := by
  unfold firewallStep
  simp only
  rw [wrapErr_snd]
  exact (Grows_slog h m _).trans (configureFirewall_Grows h _ _)

theorem restartStep_Grows (h : Host) (tag : Str) (m : Manager) :
    Grows (stageEvent h) m (restartStep h tag m).2 := by
  unfold restartStep
  simp only
  rw [wrapErr_snd, errOf_snd]
  exact (Grows_slog h m _).trans (Grows_srun h _ _ restartCmd_ne)

/-- The certificate step only logs and talks to its host. -/
theorem certStep_Grows (h : Host) (tag domain ip caName : Str) (m : Manager) :
    Grows (onHost h) m (certStep h tag domain ip caName m).2 := by
  unfold certStep generateCertificates
  have hl : ∀ msg, onHost h (.log msg) := fun _ => trivial
  have g1 := Grows_log (onHost h) m (tag ++ " Checking certificates...".toList) (hl _)
  have g2 := Grows_run (onHost h) (m.log (tag ++ " Checking certificates...".toList)) h
    checkCertCmd rfl
  simp only
  split
  · exact g1.trans (g2.trans (Grows_log _ _ _ (hl _)))
  · rw [wrapErr_snd, errOf_snd]
    exact g1.trans (g2.trans ((Grows_log _ _ _ (hl _)).trans (Grows_run _ _ _ _ rfl)))

/-- With a probe that always succeeds the certificate step generates nothing. -/
theorem certStep_Grows_probed (h : Host) (tag domain ip caName : Str) (m : Manager)
    (hp : ∀ tr, ∃ o, m.remote.answer h tr checkCertCmd = .ok o) :
    Grows (stageEvent h) m (certStep h tag domain ip caName m).2 := by
  unfold certStep generateCertificates
  have g1 := Grows_slog h m (tag ++ " Checking certificates...".toList)
  have g2 := Grows_srun h (m.log (tag ++ " Checking certificates...".toList))
    checkCertCmd checkCertCmd_ne
  simp only
  split
  · exact g1.trans (g2.trans (Grows_slog h _ _))
  · rename_i e he
    rw [wrapErr_snd, errOf_snd]
    unfold Manager.run at he ⊢
    by_cases hc : (m.log (tag ++ " Checking certificates...".toList)).client h = some true
    · obtain ⟨o, ho⟩ := hp (m.log (tag ++ " Checking certificates...".toList)).trace
      simp only [hc, if_true] at he
      have hr : (m.log (tag ++ " Checking certificates...".toList)).remote = m.remote := rfl
      rw [hr, ho] at he
      exact absurd he (by simp)
    · have hc2 : ((m.log (tag ++ " Checking certificates...".toList)).log
          (tag ++ " Generating certificates...".toList)).client h ≠ some true := hc
      simp only [hc, hc2, if_false]
      exact g1.trans (Grows_slog h _ _)

theorem stageEvent_onHost (h : Host) (ev : Event) (he : stageEvent h ev) : onHost h ev := he.1

theorem onHost_isWork (h : Host) (ev : Event) (he : onHost h ev) : isWork ev := by
  cases ev <;> simp_all [onHost, isWork]

theorem setupServer2_Grows (m : Manager) : Grows (onHost .server2) m (setupServer2 m).2 := by
  unfold setupServer2
  refine runSteps_Grows _ m.remote _ ?_ m rfl
  intro s hs m2 _
  simp only [server2Steps, List.mem_cons, List.mem_singleton, List.not_mem_nil, or_false] at hs
  rcases hs with rfl | rfl | rfl | rfl | rfl | rfl | rfl
  · exact (installStep_Grows _ _ _ installCmd2_ne m2).mono (stageEvent_onHost _)
  · exact (libipsecStep_Grows m2).mono (stageEvent_onHost _)
  · exact (forwardStep_Grows _ _ m2).mono (stageEvent_onHost _)
  · exact certStep_Grows _ _ _ _ _ m2
  · exact (ipsecStep_Grows _ _ _ _ _ m2).mono (stageEvent_onHost _)
  · exact (firewallStep_Grows _ _ _ m2).mono (stageEvent_onHost _)
  · exact (restartStep_Grows _ _ m2).mono (stageEvent_onHost _)

theorem setupServer1_Grows (m : Manager) : Grows (onHost .server1) m (setupServer1 m).2 := by
  unfold setupServer1
  refine runSteps_Grows _ m.remote _ ?_ m rfl
  intro s hs m2 _
  simp only [server1Steps, List.mem_cons, List.mem_singleton, List.not_mem_nil, or_false] at hs
  rcases hs with rfl | rfl | rfl | rfl | rfl | rfl
  · exact (installStep_Grows _ _ _ installScript1_ne m2).mono (stageEvent_onHost _)
  · exact (forwardStep_Grows _ _ m2).mono (stageEvent_onHost _)
  · exact certStep_Grows _ _ _ _ _ m2
  · exact (ipsecStep_Grows _ _ _ _ _ m2).mono (stageEvent_onHost _)
  · exact (firewallStep_Grows _ _ _ m2).mono (stageEvent_onHost _)
  · exact (restartStep_Grows _ _ m2).mono (stageEvent_onHost _)

theorem setupServer2_Grows_probed (m : Manager)
    (hp : ∀ tr, ∃ o, m.remote.answer .server2 tr checkCertCmd = .ok o) :
    Grows (stageEvent .server2) m (setupServer2 m).2 := by
  unfold setupServer2
  refine runSteps_Grows _ m.remote _ ?_ m rfl
  intro s hs m2 hm2
  simp only [server2Steps, List.mem_cons, List.mem_singleton, List.not_mem_nil, or_false] at hs
  rcases hs with rfl | rfl | rfl | rfl | rfl | rfl | rfl
  · exact installStep_Grows _ _ _ installCmd2_ne m2
  · exact libipsecStep_Grows m2
  · exact forwardStep_Grows _ _ m2
  · exact certStep_Grows_probed _ _ _ _ _ m2 (by rw [hm2]; exact hp)
  · exact ipsecStep_Grows _ _ _ _ _ m2
  · exact firewallStep_Grows _ _ _ m2
  · exact restartStep_Grows _ _ m2

theorem setupServer1_Grows_probed (m : Manager)
    (hp : ∀ tr, ∃ o, m.remote.answer .server1 tr checkCertCmd = .ok o) :
    Grows (stageEvent .server1) m (setupServer1 m).2 := by
  unfold setupServer1
  refine runSteps_Grows _ m.remote _ ?_ m rfl
  intro s hs m2 hm2
  simp only [server1Steps, List.mem_cons, List.mem_singleton, List.not_mem_nil, or_false] at hs
  rcases hs with rfl | rfl | rfl | rfl | rfl | rfl
  · exact installStep_Grows _ _ _ installScript1_ne m2
  · exact forwardStep_Grows _ _ m2
  · exact certStep_Grows_probed _ _ _ _ _ m2 (by rw [hm2]; exact hp)
  · exact ipsecStep_Grows _ _ _ _ _ m2
  · exact firewallStep_Grows _ _ _ m2
  · exact restartStep_Grows _ _ m2

/-- The tunnel stage logs nothing, talks to both hosts and generates no certificate. -/
theorem setupTunnel_Grows (m : Manager) :
    Grows (fun ev => isWork ev ∧ notCertGen ev) m (setupTunnel m).2 := by
  have hr : ∀ (m : Manager) (h : Host) (cmd : Str),
      (∀ caName ip, cmd ≠ certScript caName ip) →
      Grows (fun ev => isWork ev ∧ notCertGen ev) m (m.run h cmd).2 :=
    fun m h cmd hc => Grows_run _ m h cmd ⟨trivial, hc⟩
  unfold setupTunnel Manager.readFile
  simp only
  have g1 := hr m .server2 ("cat ".toList ++ caCertPath) (catCmd_ne _)
  split
  · exact g1
  · split
    · refine Grows.trans ?_ (hr _ _ _ (catCmd_ne _))
      exact Grows.trans g1 (hr _ _ _ (teeCmd_ne _ _))
    · refine Grows.trans ?_ (hr _ _ _ restartCmd_ne)
      refine Grows.trans ?_ (hr _ _ _ restartCmd_ne)
      refine Grows.trans ?_ (hr _ _ _ (teeCmd_ne _ _))
      refine Grows.trans ?_ (hr _ _ _ (teeCmd_ne _ _))
      refine Grows.trans ?_ (hr _ _ _ (teeCmd_ne _ _))
      refine Grows.trans ?_ (hr _ _ _ (catCmd_ne _))
      exact Grows.trans g1 (hr _ _ _ (teeCmd_ne _ _))

theorem setupRouting_Grows (m : Manager) :
    Grows (stageEvent .server1) m (setupRouting m).2 := by
  unfold setupRouting
  simp only
  rw [errOf_snd]
  refine Grows.trans ?_ (Grows_srun _ _ _ (routingScript_ne _ _ _ _ _))
  refine Grows.trans ?_ (Grows_srun _ _ _ (gwCmd_ne _))
  refine Grows.trans ?_ (Grows_srun _ _ _ ifaceCmd_ne)
  exact Grows_slog _ m _

/-! ## `connectServers`, `disconnectServers` and `SetupAll` -/

theorem NewClient_Host (c : ServerConfig) : (NewClient c).Host = c.Host := by
  unfold NewClient
  split_ifs <;> rfl

theorem connectServers_ok (m : Manager) (hd1 : m.remote.dial .server1 = none)
    (hd2 : m.remote.dial .server2 = none) :
    connectServers m = (none,
      { config := { m.config with Server1 := NewClient m.config.Server1,
                                  Server2 := NewClient m.config.Server2 },
        remote := m.remote, client1 := some true, client2 := some true,
        trace := m.trace ++ [.log connectingMsg, .connect .server1,
          .log ("Connected to Server 1: ".toList ++ (NewClient m.config.Server1).Host),
          .connect .server2,
          .log ("Connected to Server 2: ".toList ++ (NewClient m.config.Server2).Host)] }) := by
  unfold connectServers
  simp [Manager.log, hd1, hd2, connectingMsg]

theorem connectServers_fail1 (m : Manager) (e : Str) (hd1 : m.remote.dial .server1 = some e) :
    (connectServers m).1 = some ("failed to connect to Server 1: ".toList ++ e) ∧
    (connectServers m).2.trace = m.trace ++ [.log connectingMsg] := by
  unfold connectServers
  simp [Manager.log, hd1, connectingMsg]

theorem connectServers_fail2 (m : Manager) (e : Str) (hd1 : m.remote.dial .server1 = none)
    (hd2 : m.remote.dial .server2 = some e) :
    (connectServers m).1 = some ("failed to connect to Server 2: ".toList ++ e) ∧
    (connectServers m).2.trace = m.trace ++ [.log connectingMsg, .connect .server1,
      .log ("Connected to Server 1: ".toList ++ (NewClient m.config.Server1).Host),
      .close .server1] := by
  unfold connectServers
  simp [Manager.log, hd1, hd2, connectingMsg, Manager.close, Manager.client]

theorem disconnectServers_trace (m : Manager) (h1 : m.client1 = some true)
    (h2 : m.client2 = some true) :
    (disconnectServers m).trace = m.trace ++ [.close .server1, .close .server2] := by
  unfold disconnectServers
  simp [Manager.close, Manager.client, h1, h2]

theorem connected_clients (m : Manager) (hd1 : m.remote.dial .server1 = none)
    (hd2 : m.remote.dial .server2 = none) :
    (connected m).client1 = some true ∧ (connected m).client2 = some true ∧
    (connected m).remote = m.remote ∧
    (connected m).trace = m.trace ++ [.log startMsg, .log connectingMsg, .connect .server1,
      .log ("Connected to Server 1: ".toList ++ (NewClient m.config.Server1).Host),
      .connect .server2,
      .log ("Connected to Server 2: ".toList ++ (NewClient m.config.Server2).Host)] := by
  unfold connected
  rw [connectServers_ok (m.log startMsg) hd1 hd2]
  simp [Manager.log]

theorem SetupAll_connected (m : Manager) (hd1 : m.remote.dial .server1 = none)
    (hd2 : m.remote.dial .server2 = none) :
    SetupAll m =
      (match runSteps stageSteps (connected m) with
       | (some err, m2) => (some err, disconnectServers m2)
       | (none, m2) => (none, disconnectServers (m2.log doneMsg))) := by
  have hc : connectServers (m.log startMsg) = (none, connected m) := by
    unfold connected
    rw [connectServers_ok (m.log startMsg) hd1 hd2]
  unfold SetupAll
  simp only
  rw [show "Starting VPN chain setup...".toList = startMsg from rfl, hc]
  rfl

/-- The stages only log and send commands. -/
theorem stages_Grows (m : Manager) : Grows isWork m (runSteps stageSteps m).2 := by
  refine runSteps_Grows _ m.remote _ ?_ m rfl
  intro s hs m2 _
  have hl : ∀ (m : Manager) (msg : Str), Grows isWork m (m.log msg) :=
    fun m msg => Grows_log _ m msg trivial
  simp only [stageSteps, List.mem_cons, List.mem_singleton, List.not_mem_nil, or_false] at hs
  rcases hs with rfl | rfl | rfl | rfl
  · simp only [wrapErr_snd]
    exact (hl _ _).trans ((setupServer2_Grows _).mono (onHost_isWork _))
  · simp only [wrapErr_snd]
    exact (hl _ _).trans ((setupServer1_Grows _).mono (onHost_isWork _))
  · simp only [wrapErr_snd]
    exact (hl _ _).trans ((setupTunnel_Grows _).mono (fun _ h => h.1))
  · simp only [wrapErr_snd]
    exact (hl _ _).trans ((setupRouting_Grows _).mono
      (fun ev h => onHost_isWork _ ev (stageEvent_onHost _ ev h)))

/-- C11: if the session to Server 1 cannot be acquired, SetupAll returns the
error naming Server 1 and only its first two log lines have happened; if the
session to Server 2 cannot be acquired, it returns the error naming Server 2
and the Server 1 session, already open, is closed; in both cases no command is
sent to either host. -/
theorem C11_connect_failure (m : Manager) (e : Str) :
    (m.remote.dial .server1 = some e →
      (SetupAll m).1 = some ("failed to connect to Server 1: ".toList ++ e) ∧
      (SetupAll m).2.trace = m.trace ++ [.log startMsg, .log connectingMsg]) ∧
    (m.remote.dial .server1 = none → m.remote.dial .server2 = some e →
      (SetupAll m).1 = some ("failed to connect to Server 2: ".toList ++ e) ∧
      (SetupAll m).2.trace = m.trace ++ [.log startMsg, .log connectingMsg, .connect .server1,
        .log ("Connected to Server 1: ".toList ++ m.config.Server1.Host),
        .close .server1]) := by
  constructor
  · intro hd1
    obtain ⟨h1, h2⟩ := connectServers_fail1 (m.log startMsg) e hd1
    unfold SetupAll
    simp only
    rw [show "Starting VPN chain setup...".toList = startMsg from rfl]
    cases hc : connectServers (m.log startMsg) with
    | mk r m1 =>
      rw [hc] at h1 h2
      simp only at h1 h2
      subst h1
      simp only [h2, Manager.log, List.append_assoc, List.singleton_append, true_and]
  · intro hd1 hd2
    obtain ⟨h1, h2⟩ := connectServers_fail2 (m.log startMsg) e hd1 hd2
    unfold SetupAll
    simp only
    rw [show "Starting VPN chain setup...".toList = startMsg from rfl]
    cases hc : connectServers (m.log startMsg) with
    | mk r m1 =>
      rw [hc] at h1 h2
      simp only at h1 h2
      subst h1
      have hH : (NewClient (m.log startMsg).config.Server1).Host = m.config.Server1.Host :=
        NewClient_Host _
      simp only [h2, Manager.log, List.append_assoc, List.singleton_append, true_and]
      simp [NewClient_Host]

theorem C11_connect_failure_witness :
    ((SetupAll (NewManager sampleConfig (sampleRemote [.server1] (fun _ _ => false)))).1 =
        some ("failed to connect to Server 1: ".toList ++ "connection refused".toList) ∧
      (SetupAll (NewManager sampleConfig (sampleRemote [.server1] (fun _ _ => false)))).2.trace =
        [] ++ [.log startMsg, .log connectingMsg]) ∧
    ((SetupAll (NewManager sampleConfig (sampleRemote [.server2] (fun _ _ => false)))).1 =
        some ("failed to connect to Server 2: ".toList ++ "connection refused".toList) ∧
      (SetupAll (NewManager sampleConfig (sampleRemote [.server2] (fun _ _ => false)))).2.trace =
        [] ++ [.log startMsg, .log connectingMsg, .connect .server1,
          .log ("Connected to Server 1: ".toList ++ sampleConfig.Server1.Host),
          .close .server1]) :=
  ⟨(C11_connect_failure (NewManager sampleConfig (sampleRemote [.server1] (fun _ _ => false)))
      "connection refused".toList).1 rfl,
   (C11_connect_failure (NewManager sampleConfig (sampleRemote [.server2] (fun _ _ => false)))
      "connection refused".toList).2 rfl rfl⟩

/-- C14: once both sessions are acquired, in every execution of SetupAll the
trace ends with the close of the Server 1 session and the close of the Server 2
session; everything between the connection and these two is a log line or a
command, so no command comes after them and no session is closed earlier. -/
theorem C14_sessions_closed (m : Manager) (hd1 : m.remote.dial .server1 = none)
    (hd2 : m.remote.dial .server2 = none) :
    ∃ work, (SetupAll m).2.trace =
        (connected m).trace ++ work ++ [.close .server1, .close .server2] ∧
      (∀ ev ∈ work, isWork ev) ∧
      (connected m).trace = m.trace ++ [.log startMsg, .log connectingMsg, .connect .server1,
        .log ("Connected to Server 1: ".toList ++ (NewClient m.config.Server1).Host),
        .connect .server2,
        .log ("Connected to Server 2: ".toList ++ (NewClient m.config.Server2).Host)] := by
  obtain ⟨c1, c2, _, c4⟩ := connected_clients m hd1 hd2
  obtain ⟨_, _, g3, g4, evs, g5, g6⟩ := stages_Grows (connected m)
  rw [SetupAll_connected m hd1 hd2]
  cases hr : runSteps stageSteps (connected m) with
  | mk r m2 =>
    rw [hr] at g3 g4 g5
    simp only at g3 g4 g5
    cases r with
    | some err =>
      refine ⟨evs, ?_, g6, c4⟩
      simp only
      rw [disconnectServers_trace m2 (g3.trans c1) (g4.trans c2), g5]
    | none =>
      refine ⟨evs ++ [.log doneMsg], ?_, ?_, c4⟩
      · simp only
        rw [disconnectServers_trace (m2.log doneMsg) (g3.trans c1) (g4.trans c2)]
        simp [Manager.log, g5]
      · intro ev hev
        rcases List.mem_append.mp hev with h | h
        · exact g6 ev h
        · simp only [List.mem_singleton] at h
          rw [h]; trivial

theorem C14_sessions_closed_witness :
    ∃ work, (SetupAll (NewManager sampleConfig (sampleRemote [] (fun _ _ => false)))).2.trace =
        (connected (NewManager sampleConfig (sampleRemote [] (fun _ _ => false)))).trace ++ work ++
          [.close .server1, .close .server2] ∧
      (∀ ev ∈ work, isWork ev) ∧
      (connected (NewManager sampleConfig (sampleRemote [] (fun _ _ => false)))).trace =
        (NewManager sampleConfig (sampleRemote [] (fun _ _ => false))).trace ++
        [.log startMsg, .log connectingMsg, .connect .server1,
        .log ("Connected to Server 1: ".toList ++ (NewClient
          (NewManager sampleConfig (sampleRemote [] (fun _ _ => false))).config.Server1).Host),
        .connect .server2,
        .log ("Connected to Server 2: ".toList ++ (NewClient
          (NewManager sampleConfig (sampleRemote [] (fun _ _ => false))).config.Server2).Host)] :=
  C14_sessions_closed (NewManager sampleConfig (sampleRemote [] (fun _ _ => false))) rfl rfl

/-! ## Stage failures -/

/-- `SetupAll` after the connection, stage by stage. -/
theorem SetupAll_stages (m : Manager) (hd1 : m.remote.dial .server1 = none)
    (hd2 : m.remote.dial .server2 = none) :
    SetupAll m =
      (match (stage2 m).1 with
       | some e => (some ("failed to setup Server 2: ".toList ++ e), disconnectServers (stage2 m).2)
       | none =>
         match (stage1 m).1 with
         | some e =>
           (some ("failed to setup Server 1: ".toList ++ e), disconnectServers (stage1 m).2)
         | none =>
           match (stageT m).1 with
           | some e =>
             (some ("failed to setup tunnel: ".toList ++ e), disconnectServers (stageT m).2)
           | none =>
             match (stageR m).1 with
             | some e =>
               (some ("failed to setup routing: ".toList ++ e), disconnectServers (stageR m).2)
             | none => (none, disconnectServers ((stageR m).2.log doneMsg))) := by
  rw [SetupAll_connected m hd1 hd2]
  unfold stageR stageT stage1 stage2
  simp only [stageSteps, runSteps, wrapErr, server2Msg, server1Msg, tunnelMsg, routingMsg]
  cases h2 : setupServer2 ((connected m).log "Setting up Server 2 (exit node)...".toList) with
  | mk r2 m3 =>
    cases r2 with
    | some e => rfl
    | none =>
      simp only
      cases h1 : setupServer1
          (m3.log "Setting up Server 1 (entry point + tunnel client)...".toList) with
      | mk r1 m4 =>
        cases r1 with
        | some e => rfl
        | none =>
          simp only
          cases ht : setupTunnel (m4.log "Configuring tunnel between servers...".toList) with
          | mk rt m5 =>
            cases rt with
            | some e => rfl
            | none =>
              simp only
              cases hr : setupRouting (m5.log "Configuring routing...".toList) with
              | mk rr m6 =>
                cases rr with
                | some e => rfl
                | none => rfl

theorem setupServer2_fail (m m2 m3 : Manager) (pre post : List Step) (s : Step) (e : Str)
    (hl : server2Steps m.config = pre ++ s :: post) (hpre : runSteps pre m = (none, m2))
    (hs : s m2 = (some e, m3)) : setupServer2 m = (some e, m3) := by
  unfold setupServer2
  rw [hl]
  exact runSteps_fail pre post s m m2 m3 e hpre hs

theorem setupServer1_fail (m m2 m3 : Manager) (pre post : List Step) (s : Step) (e : Str)
    (hl : server1Steps m.config = pre ++ s :: post) (hpre : runSteps pre m = (none, m2))
    (hs : s m2 = (some e, m3)) : setupServer1 m = (some e, m3) := by
  unfold setupServer1
  rw [hl]
  exact runSteps_fail pre post s m m2 m3 e hpre hs

/-! ### What makes a step fail -/

theorem run_connected (m : Manager) (h : Host) (cmd : Str) (hc : m.client h = some true) :
    m.run h cmd = (m.remote.answer h m.trace cmd, { m with trace := m.trace ++ [.run h cmd] }) := by
  unfold Manager.run
  rw [if_pos hc]

theorem installStep_fail (h : Host) (tag cmd : Str) (m : Manager) (e0 e : Str)
    (hc : m.client h = some true)
    (h1 : m.remote.answer h
      (m.trace ++ [.log (tag ++ " Checking StrongSwan installation...".toList)]) whichCmd =
      .error e0)
    (h2 : m.remote.answer h
      (m.trace ++ [.log (tag ++ " Checking StrongSwan installation...".toList),
        .run h whichCmd, .log (tag ++ " Installing StrongSwan...".toList)]) cmd = .error e) :
    (installStep h tag cmd m).1 = some ("failed to install StrongSwan: ".toList ++ e) := by
  unfold installStep
  cases h <;> simp only [Manager.client] at hc <;>
    simp only [Manager.run, Manager.log, Manager.client, hc, if_true, List.append_assoc,
      List.singleton_append, List.cons_append, List.nil_append, h1, h2, errOf, wrapErr]

theorem forwardStep_fail (h : Host) (tag : Str) (m : Manager) (e : Str)
    (hc : m.client h = some true)
    (h1 : m.remote.answer h
      (m.trace ++ [.log (tag ++ " Enabling IP forwarding...".toList)]) forwardScript =
      .error e) :
    (forwardStep h tag m).1 = some ("failed to enable IP forwarding: ".toList ++ e) := by
  unfold forwardStep
  cases h <;> simp only [Manager.client] at hc <;>
    simp only [Manager.run, Manager.log, Manager.client, hc, if_true, List.append_assoc,
      List.singleton_append, List.cons_append, List.nil_append, h1, errOf, wrapErr]

theorem certStep_fail (h : Host) (tag domain ip caName : Str) (m : Manager) (e0 e : Str)
    (hc : m.client h = some true)
    (h1 : m.remote.answer h
      (m.trace ++ [.log (tag ++ " Checking certificates...".toList)]) checkCertCmd = .error e0)
    (h2 : m.remote.answer h
      (m.trace ++ [.log (tag ++ " Checking certificates...".toList),
        .run h checkCertCmd, .log (tag ++ " Generating certificates...".toList)])
      (certScript caName ip) = .error e) :
    (certStep h tag domain ip caName m).1 =
      some ("failed to generate certificates: ".toList ++ e) := by
  unfold certStep generateCertificates
  cases h <;> simp only [Manager.client] at hc <;>
    simp only [Manager.run, Manager.log, Manager.client, hc, if_true, List.append_assoc,
      List.singleton_append, List.cons_append, List.nil_append, h1, h2, errOf, wrapErr]

theorem ipsecStep_fail (h : Host) (tag serverIP subnet : Str) (isExitNode : Bool)
    (m : Manager) (e : Str) (hc : m.client h = some true)
    (h1 : m.remote.answer h (m.trace ++ [.log (tag ++ " Configuring IPsec...".toList)])
      (teeCmd (escapeQuotes (ipsecConf isExitNode serverIP subnet)) ipsecConfPath) = .error e) :
    (ipsecStep h tag serverIP subnet isExitNode m).1 =
      some ("failed to configure IPsec: ".toList ++ e) := by
  unfold ipsecStep configureIPsec
  cases h <;> simp only [Manager.client] at hc <;>
    simp only [Manager.run, Manager.log, Manager.client, hc, if_true, List.append_assoc,
      List.singleton_append, List.cons_append, List.nil_append, h1, errOf, wrapErr]

theorem firewallStep_fail (h : Host) (tag : Str) (isExitNode : Bool) (m : Manager) (e : Str)
    (hc : m.client h = some true)
    (h1 : m.remote.answer h (m.trace ++ [.log (tag ++ " Configuring firewall...".toList)])
        ifaceCmd = .error e ∨
      ∃ iface, m.remote.answer h (m.trace ++ [.log (tag ++ " Configuring firewall...".toList)])
        ifaceCmd = .ok iface ∧
        m.remote.answer h (m.trace ++ [.log (tag ++ " Configuring firewall...".toList),
          .run h ifaceCmd]) (firewallScript (TrimSpace iface)) = .error e) :
    (firewallStep h tag isExitNode m).1 =
      some ("failed to configure firewall: ".toList ++ e) := by
  unfold firewallStep configureFirewall
  rcases h1 with h1 | ⟨iface, h1, h2⟩
  · cases h <;> simp only [Manager.client] at hc <;>
      simp only [Manager.run, Manager.log, Manager.client, hc, if_true, List.append_assoc,
      List.singleton_append, List.cons_append, List.nil_append, h1, errOf, wrapErr]
  · cases h <;> simp only [Manager.client] at hc <;>
      simp only [Manager.run, Manager.log, Manager.client, hc, if_true, List.append_assoc,
      List.singleton_append, List.cons_append, List.nil_append, h1, h2, errOf, wrapErr]

theorem restartStep_fail (h : Host) (tag : Str) (m : Manager) (e : Str)
    (hc : m.client h = some true)
    (h1 : m.remote.answer h
      (m.trace ++ [.log (tag ++ " Restarting StrongSwan...".toList)]) restartCmd = .error e) :
    (restartStep h tag m).1 = some ("failed to restart StrongSwan: ".toList ++ e) := by
  unfold restartStep
  cases h <;> simp only [Manager.client] at hc <;>
    simp only [Manager.run, Manager.log, Manager.client, hc, if_true, List.append_assoc,
      List.singleton_append, List.cons_append, List.nil_append, h1, errOf, wrapErr]

/-- C12: after the connection SetupAll runs the stages in the order exit host,
entry host, tunnel, routing. If the exit-host stage fails, SetupAll returns
"failed to setup Server 2: " followed by the stage's error, and the run is
that stage (log lines and commands to Server 2 only) followed by the
disconnection; likewise for the entry-host stage, after a successful exit-host
stage. A stage fails with the error of its first failing step, and the install,
IP-forwarding, certificate, configuration, firewall and restart steps fail with
their own prefix around the error of the failing command. -/
theorem C12_ordered_stages (m : Manager) (hd1 : m.remote.dial .server1 = none)
    (hd2 : m.remote.dial .server2 = none) :
    (∀ e, (stage2 m).1 = some e →
      SetupAll m = (some ("failed to setup Server 2: ".toList ++ e),
        disconnectServers (stage2 m).2) ∧
      Grows (onHost .server2) ((connected m).log server2Msg) (stage2 m).2) ∧
    (∀ e, (stage2 m).1 = none → (stage1 m).1 = some e →
      SetupAll m = (some ("failed to setup Server 1: ".toList ++ e),
        disconnectServers (stage1 m).2) ∧
      Grows (onHost .server1) ((stage2 m).2.log server1Msg) (stage1 m).2) ∧
    ((stage2 m).1 = none → (stage1 m).1 = none → (stageT m).1 = none → (stageR m).1 = none →
      SetupAll m = (none, disconnectServers ((stageR m).2.log doneMsg))) ∧
    (∀ (m0 m2 m3 : Manager) (pre post : List Step) (s : Step) (e : Str),
      runSteps pre m0 = (none, m2) → s m2 = (some e, m3) →
      (server2Steps m0.config = pre ++ s :: post → setupServer2 m0 = (some e, m3)) ∧
      (server1Steps m0.config = pre ++ s :: post → setupServer1 m0 = (some e, m3))) ∧
    (∀ (h : Host) (tag cmd : Str) (m0 : Manager) (e0 e : Str), m0.client h = some true →
      m0.remote.answer h
        (m0.trace ++ [.log (tag ++ " Checking StrongSwan installation...".toList)]) whichCmd =
        .error e0 →
      m0.remote.answer h
        (m0.trace ++ [.log (tag ++ " Checking StrongSwan installation...".toList),
          .run h whichCmd, .log (tag ++ " Installing StrongSwan...".toList)]) cmd = .error e →
      (installStep h tag cmd m0).1 = some ("failed to install StrongSwan: ".toList ++ e)) ∧
    (∀ (h : Host) (tag : Str) (m0 : Manager) (e : Str), m0.client h = some true →
      m0.remote.answer h
        (m0.trace ++ [.log (tag ++ " Enabling IP forwarding...".toList)]) forwardScript =
        .error e →
      (forwardStep h tag m0).1 = some ("failed to enable IP forwarding: ".toList ++ e)) ∧
    (∀ (h : Host) (tag domain ip caName : Str) (m0 : Manager) (e0 e : Str),
      m0.client h = some true →
      m0.remote.answer h
        (m0.trace ++ [.log (tag ++ " Checking certificates...".toList)]) checkCertCmd =
        .error e0 →
      m0.remote.answer h
        (m0.trace ++ [.log (tag ++ " Checking certificates...".toList),
          .run h checkCertCmd, .log (tag ++ " Generating certificates...".toList)])
        (certScript caName ip) = .error e →
      (certStep h tag domain ip caName m0).1 =
        some ("failed to generate certificates: ".toList ++ e)) ∧
    (∀ (h : Host) (tag serverIP subnet : Str) (isExitNode : Bool) (m0 : Manager) (e : Str),
      m0.client h = some true →
      m0.remote.answer h (m0.trace ++ [.log (tag ++ " Configuring IPsec...".toList)])
        (teeCmd (escapeQuotes (ipsecConf isExitNode serverIP subnet)) ipsecConfPath) =
        .error e →
      (ipsecStep h tag serverIP subnet isExitNode m0).1 =
        some ("failed to configure IPsec: ".toList ++ e)) ∧
    (∀ (h : Host) (tag : Str) (isExitNode : Bool) (m0 : Manager) (e : Str),
      m0.client h = some true →
      (m0.remote.answer h (m0.trace ++ [.log (tag ++ " Configuring firewall...".toList)])
          ifaceCmd = .error e ∨
        ∃ iface,
          m0.remote.answer h (m0.trace ++ [.log (tag ++ " Configuring firewall...".toList)])
            ifaceCmd = .ok iface ∧
          m0.remote.answer h (m0.trace ++ [.log (tag ++ " Configuring firewall...".toList),
            .run h ifaceCmd]) (firewallScript (TrimSpace iface)) = .error e) →
      (firewallStep h tag isExitNode m0).1 =
        some ("failed to configure firewall: ".toList ++ e)) ∧
    (∀ (h : Host) (tag : Str) (m0 : Manager) (e : Str), m0.client h = some true →
      m0.remote.answer h
        (m0.trace ++ [.log (tag ++ " Restarting StrongSwan...".toList)]) restartCmd =
        .error e →
      (restartStep h tag m0).1 = some ("failed to restart StrongSwan: ".toList ++ e)) := by
  have hS := SetupAll_stages m hd1 hd2
  refine ⟨?_, ?_, ?_, ?_, ?_, ?_, ?_, ?_, ?_, ?_⟩
  · intro e h2
    refine ⟨?_, setupServer2_Grows _⟩
    rw [hS, h2]
  · intro e h2 h1
    refine ⟨?_, setupServer1_Grows _⟩
    rw [hS, h2]
    simp only
    rw [h1]
  · intro h2 h1 ht hr
    rw [hS, h2]
    simp only
    rw [h1]
    simp only
    rw [ht]
    simp only
    rw [hr]
  · intro m0 m2 m3 pre post s e hpre hs
    exact ⟨fun hl => setupServer2_fail m0 m2 m3 pre post s e hl hpre hs,
      fun hl => setupServer1_fail m0 m2 m3 pre post s e hl hpre hs⟩
  · intro h tag cmd m0 e0 e hc h1 h2
    exact installStep_fail h tag cmd m0 e0 e hc h1 h2
  · intro h tag m0 e hc h1
    exact forwardStep_fail h tag m0 e hc h1
  · intro h tag domain ip caName m0 e0 e hc h1 h2
    exact certStep_fail h tag domain ip caName m0 e0 e hc h1 h2
  · intro h tag serverIP subnet isExitNode m0 e hc h1
    exact ipsecStep_fail h tag serverIP subnet isExitNode m0 e hc h1
  · intro h tag isExitNode m0 e hc h1
    exact firewallStep_fail h tag isExitNode m0 e hc h1
  · intro h tag m0 e hc h1
    exact restartStep_fail h tag m0 e hc h1

set_option maxRecDepth 100000 in
theorem C12_ordered_stages_witness :
    SetupAll (NewManager sampleConfig restartFails) =
      (some ("failed to setup Server 2: ".toList ++
        "failed to restart StrongSwan: exit status 1".toList),
        disconnectServers (stage2 (NewManager sampleConfig restartFails)).2) ∧
    Grows (onHost .server2) ((connected (NewManager sampleConfig restartFails)).log server2Msg)
      (stage2 (NewManager sampleConfig restartFails)).2 :=
  (C12_ordered_stages (NewManager sampleConfig restartFails) rfl rfl).1
    "failed to restart StrongSwan: exit status 1".toList (by decide)

/-! ## The tunnel stage -/

theorem setupTunnel_read2_failed (m : Manager) (e : Str) (hc : m.client .server2 = some true)
    (h : m.remote.answer .server2 m.trace ("cat ".toList ++ caCertPath) = .error e) :
    (setupTunnel m).1 = some ("failed to read CA cert from Server 2: ".toList ++ e) := by
  unfold setupTunnel Manager.readFile
  simp only [Manager.client] at hc
  simp only [Manager.run, Manager.client, hc, if_true, h]

theorem setupTunnel_read1_failed (m : Manager) (c2 e : Str)
    (hc1 : m.client .server1 = some true) (hc2 : m.client .server2 = some true)
    (h2 : m.remote.answer .server2 m.trace ("cat ".toList ++ caCertPath) = .ok c2)
    (h1 : m.remote.answer .server1
      (m.trace ++ [.run .server2 ("cat ".toList ++ caCertPath),
        .run .server1 (teeCmd c2 server2CaPath)]) ("cat ".toList ++ caCertPath) = .error e) :
    (setupTunnel m).1 = some ("failed to read CA cert from Server 1: ".toList ++ e) := by
  unfold setupTunnel Manager.readFile
  simp only [Manager.client] at hc1 hc2
  simp only [Manager.run, Manager.client, hc1, hc2, if_true, h2, List.append_assoc,
    List.singleton_append, List.cons_append, List.nil_append, h1]

theorem setupTunnel_reads_ok (m : Manager) (c2 c1 : Str)
    (hc1 : m.client .server1 = some true) (hc2 : m.client .server2 = some true)
    (h2 : m.remote.answer .server2 m.trace ("cat ".toList ++ caCertPath) = .ok c2)
    (h1 : m.remote.answer .server1
      (m.trace ++ [.run .server2 ("cat ".toList ++ caCertPath),
        .run .server1 (teeCmd c2 server2CaPath)]) ("cat ".toList ++ caCertPath) = .ok c1) :
    (setupTunnel m).1 = none := by
  unfold setupTunnel Manager.readFile
  simp only [Manager.client] at hc1 hc2
  simp only [Manager.run, Manager.client, hc1, hc2, if_true, h2, List.append_assoc,
    List.singleton_append, List.cons_append, List.nil_append, h1]


/-! ## The certificate probe -/

theorem noCertGenOn_of_stageEvent (h h2 : Host) (ev : Event) (he : stageEvent h2 ev) :
    noCertGenOn h ev := by
  intro cmd hev caName ip
  rw [hev] at he
  exact he.2 caName ip

theorem noCertGenOn_of_onHost (h h2 : Host) (hne : h2 ≠ h) (ev : Event) (he : onHost h2 ev) :
    noCertGenOn h ev := by
  intro cmd hev
  rw [hev] at he
  exact absurd he.symm hne

/-- With a probe that always succeeds on `h`, no stage sends the certificate
script to `h`. -/
theorem stages_Grows_probed (h : Host) (m : Manager)
    (hp : ∀ tr, ∃ o, m.remote.answer h tr checkCertCmd = .ok o) :
    Grows (noCertGenOn h) m (runSteps stageSteps m).2 := by
  refine runSteps_Grows _ m.remote _ ?_ m rfl
  intro s hs m2 hm2
  have hl : ∀ (m : Manager) (msg : Str), Grows (noCertGenOn h) m (m.log msg) :=
    fun m msg => Grows_log _ m msg (fun cmd hev => by cases hev)
  simp only [stageSteps, List.mem_cons, List.mem_singleton, List.not_mem_nil, or_false] at hs
  rcases hs with rfl | rfl | rfl | rfl
  · simp only [wrapErr_snd]
    refine (hl m2 "Setting up Server 2 (exit node)...".toList).trans ?_
    cases h with
    | server1 =>
      exact (setupServer2_Grows _).mono (noCertGenOn_of_onHost _ _ (by decide))
    | server2 =>
      exact (setupServer2_Grows_probed _ (by
        rw [show (m2.log "Setting up Server 2 (exit node)...".toList).remote = m2.remote from rfl,
          hm2]
        exact hp)).mono (noCertGenOn_of_stageEvent _ _)
  · simp only [wrapErr_snd]
    refine (hl m2 "Setting up Server 1 (entry point + tunnel client)...".toList).trans ?_
    cases h with
    | server1 =>
      exact (setupServer1_Grows_probed _ (by
        rw [show (m2.log
            "Setting up Server 1 (entry point + tunnel client)...".toList).remote = m2.remote
          from rfl, hm2]
        exact hp)).mono (noCertGenOn_of_stageEvent _ _)
    | server2 =>
      exact (setupServer1_Grows _).mono (noCertGenOn_of_onHost _ _ (by decide))
  · simp only [wrapErr_snd]
    exact (hl _ _).trans ((setupTunnel_Grows _).mono
      (fun ev he cmd hev caName ip => by rw [hev] at he; exact he.2 caName ip))
  · simp only [wrapErr_snd]
    exact (hl _ _).trans ((setupRouting_Grows _).mono (noCertGenOn_of_stageEvent _ _))

/-- C20: in the certificate step of either host, when the probe for certificate
and key succeeds the step only logs and sends the probe; when the probe fails it
sends the certificate script right after. In a whole run on hosts where the
probe of host `h` succeeds whenever it is asked, as after a successful first
run, no certificate script is sent to `h`. -/
theorem C20_cert_probe_gate (h : Host) (tag domain ip caName : Str) (m : Manager)
    (hc : m.client h = some true) :
    ((∃ o, m.remote.answer h (m.trace ++ [.log (tag ++ " Checking certificates...".toList)])
        checkCertCmd = .ok o) →
      (certStep h tag domain ip caName m).1 = none ∧
      (certStep h tag domain ip caName m).2.trace =
        m.trace ++ [.log (tag ++ " Checking certificates...".toList), .run h checkCertCmd,
          .log (tag ++ " Certificates already exist.".toList)]) ∧
    ((∃ e, m.remote.answer h (m.trace ++ [.log (tag ++ " Checking certificates...".toList)])
        checkCertCmd = .error e) →
      (certStep h tag domain ip caName m).2.trace =
        m.trace ++ [.log (tag ++ " Checking certificates...".toList), .run h checkCertCmd,
          .log (tag ++ " Generating certificates...".toList), .run h (certScript caName ip)]) ∧
    (∀ m0 : Manager, m0.remote.dial .server1 = none → m0.remote.dial .server2 = none →
      (∀ tr, ∃ o, m0.remote.answer h tr checkCertCmd = .ok o) →
      ∃ evs, (SetupAll m0).2.trace = (connected m0).trace ++ evs ∧
        ∀ ev ∈ evs, noCertGenOn h ev) := by
  refine ⟨?_, ?_, ?_⟩
  · rintro ⟨o, ho⟩
    unfold certStep
    cases h <;> simp only [Manager.client] at hc <;>
      simp only [Manager.run, Manager.log, Manager.client, hc, if_true, List.append_assoc,
        List.singleton_append, List.cons_append, List.nil_append, ho, and_self]
  · rintro ⟨e, he⟩
    unfold certStep generateCertificates
    cases h <;> simp only [Manager.client] at hc <;>
      simp only [Manager.run, Manager.log, Manager.client, hc, if_true, List.append_assoc,
        List.singleton_append, List.cons_append, List.nil_append, he, errOf_snd, wrapErr_snd]
  · intro m0 hd1 hd2 hp
    obtain ⟨c1, c2, c3, _⟩ := connected_clients m0 hd1 hd2
    obtain ⟨_, _, g3, g4, evs, g5, g6⟩ := stages_Grows_probed h (connected m0)
      (by rw [c3]; exact hp)
    rw [SetupAll_connected m0 hd1 hd2]
    cases hr : runSteps stageSteps (connected m0) with
    | mk r m2 =>
      rw [hr] at g3 g4 g5
      simp only at g3 g4 g5
      have hclose : ∀ h2, noCertGenOn h (.close h2) := fun h2 cmd hev => by cases hev
      cases r with
      | some err =>
        refine ⟨evs ++ [.close .server1, .close .server2], ?_, ?_⟩
        · simp only
          rw [disconnectServers_trace m2 (g3.trans c1) (g4.trans c2), g5, List.append_assoc]
        · intro ev hev
          rcases List.mem_append.mp hev with hh | hh
          · exact g6 ev hh
          · simp only [List.mem_cons, List.mem_singleton, List.not_mem_nil, or_false] at hh
            rcases hh with rfl | rfl <;> exact hclose _
      | none =>
        refine ⟨evs ++ [.log doneMsg, .close .server1, .close .server2], ?_, ?_⟩
        · simp only
          rw [disconnectServers_trace (m2.log doneMsg) (g3.trans c1) (g4.trans c2)]
          simp [Manager.log, g5]
        · intro ev hev
          rcases List.mem_append.mp hev with hh | hh
          · exact g6 ev hh
          · simp only [List.mem_cons, List.mem_singleton, List.not_mem_nil, or_false] at hh
            rcases hh with rfl | rfl | rfl
            · intro cmd hev2; cases hev2
            · exact hclose _
            · exact hclose _

theorem C20_cert_probe_gate_witness :
    ((certStep .server2 tag2 [] [] [] (connected (NewManager sampleConfig
        (sampleRemote [] (fun _ _ => false))))).1 = none ∧
      (certStep .server2 tag2 [] [] [] (connected (NewManager sampleConfig
        (sampleRemote [] (fun _ _ => false))))).2.trace =
        (connected (NewManager sampleConfig (sampleRemote [] (fun _ _ => false)))).trace ++
        [.log (tag2 ++ " Checking certificates...".toList), .run .server2 checkCertCmd,
          .log (tag2 ++ " Certificates already exist.".toList)]) ∧
    (certStep .server2 tag2 [] [] [] (connected (NewManager sampleConfig probeFails))).2.trace =
      (connected (NewManager sampleConfig probeFails)).trace ++
      [.log (tag2 ++ " Checking certificates...".toList), .run .server2 checkCertCmd,
        .log (tag2 ++ " Generating certificates...".toList),
        .run .server2 (certScript [] [])] :=
  ⟨(C20_cert_probe_gate .server2 tag2 [] [] [] (connected (NewManager sampleConfig
      (sampleRemote [] (fun _ _ => false)))) rfl).1 ⟨_, rfl⟩,
   (C20_cert_probe_gate .server2 tag2 [] [] [] (connected (NewManager sampleConfig
      probeFails)) rfl).2.1 ⟨_, rfl⟩⟩

/-! ## Lines and words of a script -/

theorem fieldsAux_append_space (a b cur : Str) (s : Char) (hs : isSpace s = true) :
    fieldsAux (a ++ s :: b) cur = fieldsAux a cur ++ fieldsAux b [] := by
  induction a generalizing cur with
  | nil =>
    simp only [List.nil_append, fieldsAux, hs, if_true]
    split_ifs <;> simp
  | cons c cs ih =>
    simp only [List.cons_append, fieldsAux]
    split_ifs
    · exact ih []
    · exact congrArg (List.cons cur.reverse) (ih [])
    · exact ih (c :: cur)

/-- Words do not reach across a blank. -/
theorem Fields_append_space (a b : Str) : Fields (a ++ ' ' :: b) = Fields a ++ Fields b :=
  fieldsAux_append_space a b [] ' ' (by decide)

theorem joinLines_cons (l l2 : Str) (rest : List Str) :
    joinLines (l :: l2 :: rest) = l ++ '\n' :: joinLines (l2 :: rest) := rfl

/-- A text made of lines without line breaks splits into these lines. -/
theorem splitLines_joinLines (ls : List Str) (hne : ls ≠ []) (h : ∀ l ∈ ls, '\n' ∉ l) :
    splitLines (joinLines ls) = ls := by
  induction ls with
  | nil => exact absurd rfl hne
  | cons l rest ih =>
    cases rest with
    | nil =>
      exact splitLines_no_newline l (h l (List.mem_cons_self _ _))
    | cons l2 rest2 =>
      rw [joinLines_cons, splitLines_append_newline,
        splitLines_no_newline l (h l (List.mem_cons_self _ _)),
        ih (by simp) (fun x hx => h x (List.mem_cons_of_mem _ hx))]
      rfl

theorem not_mem_append3 (a b c : Str) (x : Char) (ha : x ∉ a) (hb : x ∉ b) (hc : x ∉ c) :
    x ∉ a ++ b ++ c := by
  simp only [List.mem_append, not_or]
  exact ⟨⟨ha, hb⟩, hc⟩

/-! ## The firewall script -/

theorem firewallScriptLines_eq (iface : Str) :
    firewallScriptLines iface =
      (firewallScriptLines []).take 11 ++ masqLine iface :: (firewallScriptLines []).drop 12 :=
  rfl

theorem firewallScript_lines (iface : Str) (hif : '\n' ∉ iface) :
    splitLines (firewallScript iface) = firewallScriptLines iface := by
  unfold firewallScript
  apply splitLines_joinLines
  · rw [firewallScriptLines_eq]; simp
  · intro l hl
    rw [firewallScriptLines_eq] at hl
    rcases List.mem_append.mp hl with h | h
    · have hall : ∀ x ∈ (firewallScriptLines []).take 11, '\n' ∉ x := by decide
      exact hall l h
    · rcases List.mem_cons.mp h with h | h
      · rw [h]
        exact not_mem_append3 _ _ _ _ (by decide) hif (by decide)
      · have hall : ∀ x ∈ (firewallScriptLines []).drop 12, '\n' ∉ x := by decide
        exact hall l h

theorem parseRule_masqLine (iface : Str) :
    parseRule (masqLine iface) = some (.append .POSTROUTING (masquerade iface)) := by
  have e : masqLine iface =
      "\t\tsudo iptables -t nat -A POSTROUTING -s 10.10.0.0/16 -o".toList ++
        ' ' :: (iface ++ ' ' :: "-j MASQUERADE".toList) := by
    unfold masqLine
    have e1 : "\t\tsudo iptables -t nat -A POSTROUTING -s 10.10.0.0/16 -o ".toList =
      "\t\tsudo iptables -t nat -A POSTROUTING -s 10.10.0.0/16 -o".toList ++ [' '] := rfl
    have e2 : " -j MASQUERADE".toList = ' ' :: "-j MASQUERADE".toList := rfl
    rw [e1, e2]
    simp
  have hF : Fields (masqLine iface) =
      ["sudo".toList, "iptables".toList, "-t".toList, "nat".toList, "-A".toList,
        "POSTROUTING".toList, "-s".toList, "10.10.0.0/16".toList, "-o".toList] ++
      (Fields iface ++ ["-j".toList, "MASQUERADE".toList]) := by
    rw [e, Fields_append_space, Fields_append_space]
    rfl
  unfold parseRule
  rw [hF]
  rfl

/-- The rule commands of the firewall script, in order. -/
theorem ruleCmds_firewallScript (iface : Str) (hif : '\n' ∉ iface) :
    ruleCmds (firewallScript iface) =
      [.insert .INPUT 1 allowSsh, .insert .INPUT 1 allowIke, .insert .INPUT 1 allowNatT,
       .insert .INPUT 1 allowEsp, .insert .POSTROUTING 1 natExempt,
       .append .POSTROUTING (masquerade iface),
       .append .FORWARD forwardEstablished, .append .FORWARD forwardPool] := by
  unfold ruleCmds
  rw [firewallScript_lines iface hif, firewallScriptLines_eq, List.filterMap_append,
    List.filterMap_cons, parseRule_masqLine]
  have h1 : ((firewallScriptLines []).take 11).filterMap parseRule =
      [.insert .INPUT 1 allowSsh, .insert .INPUT 1 allowIke, .insert .INPUT 1 allowNatT,
       .insert .INPUT 1 allowEsp, .insert .POSTROUTING 1 natExempt] := by decide
  have h2 : ((firewallScriptLines []).drop 12).filterMap parseRule =
      [.append .FORWARD forwardEstablished, .append .FORWARD forwardPool] := by decide
  rw [h1, h2]
  rfl

/-- The chains after the firewall script. -/
theorem applyScript_firewallScript (iface : Str) (hif : '\n' ∉ iface) (fw : Firewall) :
    applyScript (firewallScript iface) fw =
      { INPUT := [allowEsp, allowNatT, allowIke, allowSsh] ++ fw.INPUT,
        FORWARD := fw.FORWARD ++ [forwardEstablished, forwardPool],
        POSTROUTING := natExempt :: fw.POSTROUTING ++ [masquerade iface] } := by
  unfold applyScript
  rw [ruleCmds_firewallScript iface hif]
  simp [applyRule, Firewall.set, Firewall.get, insertAt]

/-! ### The firewall step on a host -/

theorem configureFirewall_ok (h : Host) (isExitNode : Bool) (m : Manager) (out : Str)
    (hc : m.client h = some true)
    (ho : m.remote.answer h m.trace ifaceCmd = .ok out) :
    (configureFirewall h isExitNode m).2 =
      { m with trace := m.trace ++
          [.run h ifaceCmd, .run h (firewallScript (TrimSpace out))] } := by
  unfold configureFirewall
  simp only [run_connected m h ifaceCmd hc, ho]
  rw [errOf_snd, run_connected _ _ _ (by cases h <;> exact hc)]
  simp only [List.append_assoc, List.singleton_append]

theorem eventsOf_configureFirewall (h : Host) (isExitNode : Bool) (m : Manager) (out : Str)
    (hc : m.client h = some true)
    (ho : m.remote.answer h m.trace ifaceCmd = .ok out) :
    eventsOf (configureFirewall h isExitNode) m =
      [.run h ifaceCmd, .run h (firewallScript (TrimSpace out))] := by
  unfold eventsOf
  rw [configureFirewall_ok h isExitNode m out hc ho]
  simp only [List.drop_left]

theorem applyScript_ifaceCmd (fw : Firewall) : applyScript ifaceCmd fw = fw := by
  have h : ruleCmds ifaceCmd = [] := by decide
  unfold applyScript
  rw [h]
  rfl

theorem firewallAfter_once (h : Host) (iface : Str) (fw : Firewall) :
    firewallAfter h [.run h ifaceCmd, .run h (firewallScript iface)] fw =
      applyScript (firewallScript iface) fw := by
  simp only [firewallAfter, List.foldl_cons, List.foldl_nil, if_true, applyScript_ifaceCmd]

/-- C15: on a connected host whose interface probe prints a name (one line),
and for either role, `configureFirewall` sends the probe and then the firewall
script; the rule commands of the script begin with the allow rules for tcp/22,
udp/500, udp/4500 and esp, each inserted at position 1 of INPUT; the commands
after them change only nat POSTROUTING and FORWARD; and whatever the INPUT
chain was, these four rules are its first four rows afterwards. -/
theorem C15_anti_lockout (h : Host) (isExitNode : Bool) (m : Manager) (out : Str)
    (hc : m.client h = some true)
    (ho : m.remote.answer h m.trace ifaceCmd = .ok out)
    (hn : '\n' ∉ TrimSpace out) :
    eventsOf (configureFirewall h isExitNode) m =
      [.run h ifaceCmd, .run h (firewallScript (TrimSpace out))] ∧
    ruleCmds ifaceCmd = [] ∧
    (∃ rest, ruleCmds (firewallScript (TrimSpace out)) =
        [.insert .INPUT 1 allowSsh, .insert .INPUT 1 allowIke, .insert .INPUT 1 allowNatT,
         .insert .INPUT 1 allowEsp] ++ rest ∧
      ∀ c ∈ rest, (∃ pos row, c = .insert .POSTROUTING pos row) ∨
        (∃ row, c = .append .POSTROUTING row) ∨ (∃ row, c = .append .FORWARD row)) ∧
    (∀ fw : Firewall, (firewallAfter h (eventsOf (configureFirewall h isExitNode) m) fw).INPUT =
      [allowEsp, allowNatT, allowIke, allowSsh] ++ fw.INPUT) := by
  refine ⟨eventsOf_configureFirewall h isExitNode m out hc ho, by decide, ?_, ?_⟩
  · refine ⟨[.insert .POSTROUTING 1 natExempt, .append .POSTROUTING (masquerade (TrimSpace out)),
      .append .FORWARD forwardEstablished, .append .FORWARD forwardPool], ?_, ?_⟩
    · rw [ruleCmds_firewallScript _ hn]
      rfl
    · intro c hc
      simp only [List.mem_cons, List.mem_singleton, List.not_mem_nil, or_false] at hc
      rcases hc with rfl | rfl | rfl | rfl
      · exact Or.inl ⟨_, _, rfl⟩
      · exact Or.inr (Or.inl ⟨_, rfl⟩)
      · exact Or.inr (Or.inr ⟨_, rfl⟩)
      · exact Or.inr (Or.inr ⟨_, rfl⟩)
  · intro fw
    rw [eventsOf_configureFirewall h isExitNode m out hc ho, firewallAfter_once,
      applyScript_firewallScript _ hn]

set_option maxRecDepth 100000 in
theorem C15_anti_lockout_witness :
    sampleManager.client .server1 = some true ∧
    sampleManager.remote.answer .server1 sampleManager.trace ifaceCmd = .ok "eth0\n".toList ∧
    eventsOf (configureFirewall .server1 false) sampleManager =
      [.run .server1 ifaceCmd, .run .server1 (firewallScript (TrimSpace "eth0\n".toList))] ∧
    (∀ fw : Firewall,
      (firewallAfter .server1 (eventsOf (configureFirewall .server1 false) sampleManager)
        fw).INPUT = [allowEsp, allowNatT, allowIke, allowSsh] ++ fw.INPUT) :=
  have w := C15_anti_lockout .server1 false sampleManager "eth0\n".toList rfl rfl (by decide)
  ⟨rfl, rfl, w.1, w.2.2.2⟩

/-- C16: on a connected host whose interface probe prints a name, after
`configureFirewall` the NAT exemption (ACCEPT for traffic leaving through the
IPsec policy) is the first row of nat POSTROUTING, every row that was there
follows it, and the MASQUERADE rule of the same application is the last row. -/
theorem C16_nat_exemption_first (h : Host) (isExitNode : Bool) (m : Manager) (out : Str)
    (hc : m.client h = some true)
    (ho : m.remote.answer h m.trace ifaceCmd = .ok out)
    (hn : '\n' ∉ TrimSpace out) (fw : Firewall) :
    (firewallAfter h (eventsOf (configureFirewall h isExitNode) m) fw).POSTROUTING =
      natExempt :: fw.POSTROUTING ++ [masquerade (TrimSpace out)] := by
  rw [eventsOf_configureFirewall h isExitNode m out hc ho, firewallAfter_once,
    applyScript_firewallScript _ hn]

set_option maxRecDepth 100000 in
theorem C16_nat_exemption_first_witness :
    sampleManager.client .server2 = some true ∧
    sampleManager.remote.answer .server2 sampleManager.trace ifaceCmd = .ok "eth0\n".toList ∧
    (firewallAfter .server2 (eventsOf (configureFirewall .server2 true) sampleManager)
        { INPUT := [], FORWARD := [], POSTROUTING := [forwardPool] }).POSTROUTING =
      [natExempt, forwardPool, masquerade "eth0".toList] :=
  ⟨rfl, rfl, C16_nat_exemption_first .server2 true sampleManager "eth0\n".toList rfl rfl
    (by decide) { INPUT := [], FORWARD := [], POSTROUTING := [forwardPool] }⟩

theorem configureFirewall_fst (h : Host) (isExitNode : Bool) (m : Manager) (out o : Str)
    (hc : m.client h = some true)
    (ho : m.remote.answer h m.trace ifaceCmd = .ok out)
    (hs : m.remote.answer h (m.trace ++ [.run h ifaceCmd]) (firewallScript (TrimSpace out)) =
      .ok o) :
    (configureFirewall h isExitNode m).1 = none := by
  unfold configureFirewall
  simp only [run_connected m h ifaceCmd hc, ho]
  rw [run_connected _ _ _ (by cases h <;> exact hc)]
  simp only [hs, errOf]

theorem eventsOf_configureFirewallTwice (h : Host) (isExitNode : Bool) (m : Manager)
    (out o : Str) (hc : m.client h = some true)
    (ho : m.remote.answer h m.trace ifaceCmd = .ok out)
    (hs : m.remote.answer h (m.trace ++ [.run h ifaceCmd]) (firewallScript (TrimSpace out)) =
      .ok o)
    (ho2 : m.remote.answer h
      (m.trace ++ [.run h ifaceCmd, .run h (firewallScript (TrimSpace out))]) ifaceCmd =
      .ok out) :
    eventsOf (configureFirewallTwice h isExitNode) m =
      [.run h ifaceCmd, .run h (firewallScript (TrimSpace out)),
       .run h ifaceCmd, .run h (firewallScript (TrimSpace out))] := by
  have h1 := configureFirewall_fst h isExitNode m out o hc ho hs
  have h2 := configureFirewall_ok h isExitNode m out hc ho
  have e : configureFirewall h isExitNode m = (none, { m with trace := m.trace ++
      [.run h ifaceCmd, .run h (firewallScript (TrimSpace out))] }) :=
    Prod.ext h1 h2
  unfold eventsOf configureFirewallTwice
  simp only [e]
  rw [configureFirewall_ok h isExitNode _ out (by cases h <;> exact hc) ho2]
  simp only [List.append_assoc, List.drop_left, List.cons_append, List.nil_append]

theorem firewallAfter_twice (h : Host) (iface : Str) (fw : Firewall) :
    firewallAfter h [.run h ifaceCmd, .run h (firewallScript iface),
      .run h ifaceCmd, .run h (firewallScript iface)] fw =
      applyScript (firewallScript iface) (applyScript (firewallScript iface) fw) := by
  simp only [firewallAfter, List.foldl_cons, List.foldl_nil, if_true, applyScript_ifaceCmd]

set_option maxRecDepth 100000 in
/-- C17, as stated, fails: the script inserts and appends without looking for
an existing row. On a connected host with an empty packet filter both
applications succeed; one leaves four INPUT rows, two leave the same four rows
twice. -/
theorem C17_counterexample :
    (configureFirewall .server2 true sampleManager).1 = none ∧
    (configureFirewallTwice .server2 true sampleManager).1 = none ∧
    (firewallAfter .server2 (eventsOf (configureFirewall .server2 true) sampleManager)
      emptyFirewall).INPUT = [allowEsp, allowNatT, allowIke, allowSsh] ∧
    (firewallAfter .server2 (eventsOf (configureFirewallTwice .server2 true) sampleManager)
      emptyFirewall).INPUT =
      [allowEsp, allowNatT, allowIke, allowSsh, allowEsp, allowNatT, allowIke, allowSsh] ∧
    firewallAfter .server2 (eventsOf (configureFirewallTwice .server2 true) sampleManager)
      emptyFirewall ≠
    firewallAfter .server2 (eventsOf (configureFirewall .server2 true) sampleManager)
      emptyFirewall := by
  refine ⟨rfl, rfl, by decide, by decide, by decide⟩

/-- C17 (amended): when both applications of `configureFirewall` run on a
connected host and the interface probe prints the same name both times, the
INPUT, FORWARD and nat POSTROUTING chains hold the same set of rule rows after
two applications as after one, but every row of the script is added a second
time: four more rows at the front of INPUT, two more at the end of FORWARD,
and one more at each end of nat POSTROUTING. -/
theorem C17_rows_twice (h : Host) (isExitNode : Bool) (m : Manager) (out o : Str)
    (hc : m.client h = some true)
    (ho : m.remote.answer h m.trace ifaceCmd = .ok out)
    (hs : m.remote.answer h (m.trace ++ [.run h ifaceCmd]) (firewallScript (TrimSpace out)) =
      .ok o)
    (ho2 : m.remote.answer h
      (m.trace ++ [.run h ifaceCmd, .run h (firewallScript (TrimSpace out))]) ifaceCmd =
      .ok out)
    (hn : '\n' ∉ TrimSpace out) (fw : Firewall) :
    (∀ row,
      (row ∈ (firewallAfter h (eventsOf (configureFirewallTwice h isExitNode) m) fw).INPUT ↔
        row ∈ (firewallAfter h (eventsOf (configureFirewall h isExitNode) m) fw).INPUT) ∧
      (row ∈ (firewallAfter h (eventsOf (configureFirewallTwice h isExitNode) m) fw).FORWARD ↔
        row ∈ (firewallAfter h (eventsOf (configureFirewall h isExitNode) m) fw).FORWARD) ∧
      (row ∈ (firewallAfter h (eventsOf (configureFirewallTwice h isExitNode) m)
          fw).POSTROUTING ↔
        row ∈ (firewallAfter h (eventsOf (configureFirewall h isExitNode) m)
          fw).POSTROUTING)) ∧
    (firewallAfter h (eventsOf (configureFirewallTwice h isExitNode) m) fw).INPUT =
      [allowEsp, allowNatT, allowIke, allowSsh] ++
        (firewallAfter h (eventsOf (configureFirewall h isExitNode) m) fw).INPUT ∧
    (firewallAfter h (eventsOf (configureFirewallTwice h isExitNode) m) fw).FORWARD =
      (firewallAfter h (eventsOf (configureFirewall h isExitNode) m) fw).FORWARD ++
        [forwardEstablished, forwardPool] ∧
    (firewallAfter h (eventsOf (configureFirewallTwice h isExitNode) m) fw).POSTROUTING =
      natExempt :: (firewallAfter h (eventsOf (configureFirewall h isExitNode) m)
        fw).POSTROUTING ++ [masquerade (TrimSpace out)] := by
  rw [eventsOf_configureFirewallTwice h isExitNode m out o hc ho hs ho2,
    eventsOf_configureFirewall h isExitNode m out hc ho, firewallAfter_twice,
    firewallAfter_once]
  refine ⟨?_, ?_, ?_, ?_⟩
  · intro row
    simp only [applyScript_firewallScript _ hn]
    refine ⟨?_, ?_, ?_⟩
    · simp only [List.mem_append, List.mem_cons]
      tauto
    · simp only [List.mem_append, List.mem_cons]
      tauto
    · simp only [List.mem_append, List.mem_cons]
      tauto
  · rw [applyScript_firewallScript _ hn (applyScript (firewallScript (TrimSpace out)) fw)]
  · rw [applyScript_firewallScript _ hn (applyScript (firewallScript (TrimSpace out)) fw)]
  · rw [applyScript_firewallScript _ hn (applyScript (firewallScript (TrimSpace out)) fw)]

set_option maxRecDepth 100000 in
theorem C17_rows_twice_witness :
    sampleManager.client .server2 = some true ∧
    (firewallAfter .server2 (eventsOf (configureFirewallTwice .server2 true) sampleManager)
        emptyFirewall).POSTROUTING =
      natExempt :: (firewallAfter .server2
        (eventsOf (configureFirewall .server2 true) sampleManager) emptyFirewall).POSTROUTING ++
        [masquerade (TrimSpace "eth0\n".toList)] :=
  ⟨rfl, (C17_rows_twice .server2 true sampleManager "eth0\n".toList "eth0\n".toList rfl rfl rfl
    rfl (by decide) emptyFirewall).2.2.2⟩

/-! ## The daemon configuration text -/

theorem joinLines_append (a b : List Str) (ha : a ≠ []) (hb : b ≠ []) :
    joinLines (a ++ b) = joinLines a ++ '\n' :: joinLines b := by
  induction a with
  | nil => exact absurd rfl ha
  | cons l rest ih =>
    cases rest with
    | nil =>
      cases b with
      | nil => exact absurd rfl hb
      | cons l2 rest2 => rfl
    | cons l2 rest2 =>
      rw [List.cons_append, List.cons_append, joinLines_cons, ← List.cons_append, ih (by simp),
        joinLines_cons]
      simp only [List.append_assoc, List.cons_append]

theorem ipsecConf_joinLines (isExitNode : Bool) (serverIP subnet : Str) :
    ipsecConf isExitNode serverIP subnet =
      joinLines (ipsecConfLines isExitNode serverIP subnet) := by
  cases isExitNode <;> rfl

theorem ipsecConfLines_eq (isExitNode : Bool) (serverIP subnet : Str) :
    ipsecConfLines isExitNode serverIP subnet =
      (ipsecConfLines isExitNode serverIP []).take 23 ++
        (sourceKey ++ subnet) :: (ipsecConfLines isExitNode [] []).drop 24 := by
  cases isExitNode <;> rfl

theorem ipsecConfLines_take_length (isExitNode : Bool) (serverIP : Str) :
    ((ipsecConfLines isExitNode serverIP []).take 23).length = 23 := by
  cases isExitNode <;> rfl

theorem ipsecConfLines_drop_length (isExitNode : Bool) :
    ((ipsecConfLines isExitNode [] []).drop 24).length = 4 := by
  cases isExitNode <;> rfl

theorem ipsecConfLines_take_eq (isExitNode : Bool) (serverIP : Str) :
    (ipsecConfLines isExitNode serverIP []).take 23 =
      (ipsecConfLines isExitNode [] []).take 16 ++
        ("    leftid=".toList ++ serverIP) ::
          ((ipsecConfLines isExitNode [] []).drop 17).take 6 := by
  cases isExitNode <;> rfl

theorem ipsecConf_lines (isExitNode : Bool) (serverIP subnet : Str)
    (hip : '\n' ∉ serverIP) (hs : '\n' ∉ subnet) :
    splitLines (ipsecConf isExitNode serverIP subnet) =
      ipsecConfLines isExitNode serverIP subnet := by
  rw [ipsecConf_joinLines]
  apply splitLines_joinLines
  · rw [ipsecConfLines_eq]; simp
  · intro l hl
    rw [ipsecConfLines_eq, ipsecConfLines_take_eq] at hl
    have nm : ∀ (a b : Str), '\n' ∉ a → '\n' ∉ b → '\n' ∉ a ++ b := by
      intro a b ha hb hab
      rcases List.mem_append.mp hab with h | h
      · exact ha h
      · exact hb h
    rcases List.mem_append.mp hl with h | h
    · rcases List.mem_append.mp h with h | h
      · have hall : ∀ r, ∀ x ∈ (ipsecConfLines r [] []).take 16, '\n' ∉ x := by decide
        exact hall _ l h
      · rcases List.mem_cons.mp h with h | h
        · rw [h]
          exact nm _ _ (by decide) hip
        · have hall : ∀ r, ∀ x ∈ ((ipsecConfLines r [] []).drop 17).take 6, '\n' ∉ x := by
            decide
          exact hall _ l h
    · rcases List.mem_cons.mp h with h | h
      · rw [h]
        exact nm _ _ (by decide) hs
      · have hall : ∀ r, ∀ x ∈ (ipsecConfLines r [] []).drop 24, '\n' ∉ x := by decide
        exact hall _ l h

theorem sourceKey_only (isExitNode : Bool) (serverIP subnet : Str) (i : Nat) (line : Str)
    (hl : (ipsecConfLines isExitNode serverIP subnet)[i]? = some line)
    (hp : HasPrefix line sourceKey = true) : i = 23 := by
  by_contra hi
  have hA : ((ipsecConfLines isExitNode serverIP []).take 23).all
      (fun x => !HasPrefix x sourceKey) = true := by
    cases isExitNode <;> rfl
  have hB : ((ipsecConfLines isExitNode [] []).drop 24).all
      (fun x => !HasPrefix x sourceKey) = true := by
    cases isExitNode <;> rfl
  rw [List.all_eq_true] at hA hB
  rw [ipsecConfLines_eq] at hl
  have hlen := ipsecConfLines_take_length isExitNode serverIP
  rcases Nat.lt_or_ge i 23 with h | h
  · rw [List.getElem?_append_left (by omega)] at hl
    have := hA line (List.getElem?_mem hl)
    rw [hp] at this
    exact absurd this (by decide)
  · rw [List.getElem?_append_right (by omega), hlen] at hl
    obtain ⟨k, hk⟩ : ∃ k, i - 23 = k + 1 := ⟨i - 24, by omega⟩
    rw [hk, List.getElem?_cons_succ] at hl
    have := hB line (List.getElem?_mem hl)
    rw [hp] at this
    exact absurd this (by decide)

theorem ipsecConfLines_other (isExitNode : Bool) (serverIP s1 s2 : Str) (i : Nat)
    (hi : i ≠ 23) :
    (ipsecConfLines isExitNode serverIP s1)[i]? =
      (ipsecConfLines isExitNode serverIP s2)[i]? := by
  rw [ipsecConfLines_eq isExitNode serverIP s1, ipsecConfLines_eq isExitNode serverIP s2]
  have hlen := ipsecConfLines_take_length isExitNode serverIP
  rcases Nat.lt_or_ge i 23 with h | h
  · rw [List.getElem?_append_left (by omega), List.getElem?_append_left (by omega)]
  · rw [List.getElem?_append_right (by omega), List.getElem?_append_right (by omega), hlen]
    obtain ⟨k, hk⟩ : ∃ k, i - 23 = k + 1 := ⟨i - 24, by omega⟩
    rw [hk, List.getElem?_cons_succ, List.getElem?_cons_succ]

theorem ipsecConfLines_source (isExitNode : Bool) (serverIP subnet : Str) :
    (ipsecConfLines isExitNode serverIP subnet)[23]? = some (sourceKey ++ subnet) := by
  cases isExitNode <;> rfl

theorem ipsecConf_split (isExitNode : Bool) (serverIP subnet : Str) :
    ipsecConf isExitNode serverIP subnet =
      (joinLines ((ipsecConfLines isExitNode serverIP []).take 23) ++ ['\n']) ++ sourceKey ++
        subnet ++ ('\n' :: joinLines ((ipsecConfLines isExitNode [] []).drop 24)) := by
  rw [ipsecConf_joinLines, ipsecConfLines_eq, joinLines_append _ _ (by
    intro h
    have := ipsecConfLines_take_length isExitNode serverIP
    rw [h] at this
    exact absurd this (by decide)) (by simp)]
  have hB : (ipsecConfLines isExitNode [] []).drop 24 ≠ [] := by
    intro h
    have := ipsecConfLines_drop_length isExitNode
    rw [h] at this
    exact absurd this (by decide)
  obtain ⟨b, bs, hb⟩ := List.exists_cons_of_ne_nil hB
  rw [hb, joinLines_cons]
  simp only [List.append_assoc, List.cons_append, List.nil_append]

theorem eventsOf_configureIPsec (h : Host) (serverIP subnet : Str) (isExitNode : Bool)
    (m : Manager) (hc : m.client h = some true) :
    ∃ rest, eventsOf (configureIPsec h serverIP subnet isExitNode) m =
      .run h (teeCmd (escapeQuotes (ipsecConf isExitNode serverIP subnet)) ipsecConfPath) ::
        rest := by
  unfold eventsOf configureIPsec
  simp only [run_connected m h _ hc]
  split
  · exact ⟨[], by simp only [List.drop_left]⟩
  · rw [run_connected _ _ _ (by cases h <;> exact hc)]
    exact ⟨[.run h (teeCmd charonConf charonPrioPath)], by
      simp only [List.append_assoc, List.drop_left, List.singleton_append]⟩

/-- C18: the configuration text that `configureIPsec` sends to a connected host
is `ipsecConf` of the role, the server address and the subnet, whatever the
state of the run. For one role and one server address, the texts for two
subnets share everything before and after the subnet; read line by line (the
parameters being single lines), both have the same 28 lines except the line
at index 23 (counting from 0), which is `rightsourceip=` followed by the
subnet, and no other line starts with that key. -/
theorem C18_config_pure (h : Host) (isExitNode : Bool) (serverIP s1 s2 : Str) (m : Manager)
    (hc : m.client h = some true)
    (hip : '\n' ∉ serverIP) (h1 : '\n' ∉ s1) (h2 : '\n' ∉ s2) :
    (∃ rest, eventsOf (configureIPsec h serverIP s1 isExitNode) m =
      .run h (teeCmd (escapeQuotes (ipsecConf isExitNode serverIP s1)) ipsecConfPath) ::
        rest) ∧
    (∃ pre suf, ipsecConf isExitNode serverIP s1 = pre ++ sourceKey ++ s1 ++ suf ∧
      ipsecConf isExitNode serverIP s2 = pre ++ sourceKey ++ s2 ++ suf ∧
      pre.getLast? = some '\n' ∧ suf.head? = some '\n') ∧
    (splitLines (ipsecConf isExitNode serverIP s1)).length = 28 ∧
    (splitLines (ipsecConf isExitNode serverIP s2)).length = 28 ∧
    (∀ i, i ≠ 23 → (splitLines (ipsecConf isExitNode serverIP s1))[i]? =
      (splitLines (ipsecConf isExitNode serverIP s2))[i]?) ∧
    (splitLines (ipsecConf isExitNode serverIP s1))[23]? = some (sourceKey ++ s1) ∧
    (splitLines (ipsecConf isExitNode serverIP s2))[23]? = some (sourceKey ++ s2) ∧
    (∀ i line, (splitLines (ipsecConf isExitNode serverIP s1))[i]? = some line →
      HasPrefix line sourceKey = true → i = 23) := by
  rw [ipsecConf_lines isExitNode serverIP s1 hip h1, ipsecConf_lines isExitNode serverIP s2 hip h2]
  refine ⟨eventsOf_configureIPsec h serverIP s1 isExitNode m hc, ?_, ?_, ?_, ?_, ?_, ?_, ?_⟩
  · exact ⟨_, _, ipsecConf_split isExitNode serverIP s1, ipsecConf_split isExitNode serverIP s2,
      by simp, rfl⟩
  · cases isExitNode <;> rfl
  · cases isExitNode <;> rfl
  · exact fun i hi => ipsecConfLines_other isExitNode serverIP s1 s2 i hi
  · exact ipsecConfLines_source isExitNode serverIP s1
  · exact ipsecConfLines_source isExitNode serverIP s2
  · exact fun i line hl hp => sourceKey_only isExitNode serverIP s1 i line hl hp

set_option maxRecDepth 100000 in
theorem C18_config_pure_witness :
    sampleManager.client .server2 = some true ∧
    (splitLines (ipsecConf true "203.0.113.2".toList "10.10.10.0/24".toList))[23]? =
      some (sourceKey ++ "10.10.10.0/24".toList) ∧
    (splitLines (ipsecConf true "203.0.113.2".toList "10.99.0.0/24".toList))[23]? =
      some (sourceKey ++ "10.99.0.0/24".toList) ∧
    (∀ i, i ≠ 23 →
      (splitLines (ipsecConf true "203.0.113.2".toList "10.10.10.0/24".toList))[i]? =
      (splitLines (ipsecConf true "203.0.113.2".toList "10.99.0.0/24".toList))[i]?) :=
  have w := C18_config_pure .server2 true "203.0.113.2".toList "10.10.10.0/24".toList
    "10.99.0.0/24".toList sampleManager rfl (by decide) (by decide) (by decide)
  ⟨rfl, w.2.2.2.2.2.1, w.2.2.2.2.2.2.1, w.2.2.2.2.1⟩

/-! ## The policy-routing script -/

theorem newline_not_mem_append (a b : Str) (ha : '\n' ∉ a) (hb : '\n' ∉ b) : '\n' ∉ a ++ b := by
  intro hab
  rcases List.mem_append.mp hab with h | h
  · exact ha h
  · exact hb h

theorem fieldsAux_word (s cur : Str) (hs : ∀ c ∈ s, isSpace c = false) :
    fieldsAux s cur = if (cur.reverse ++ s).isEmpty then [] else [cur.reverse ++ s] := by
  induction s generalizing cur with
  | nil =>
    unfold fieldsAux
    cases cur <;> simp
  | cons c cs ih =>
    unfold fieldsAux
    rw [if_neg (by rw [hs c (List.mem_cons_self _ _)]; decide),
      ih (c :: cur) (fun x hx => hs x (List.mem_cons_of_mem _ hx))]
    simp only [List.reverse_cons, List.append_assoc, List.singleton_append]

theorem isWord_iff (s : Str) : isWord s = true ↔ s ≠ [] ∧ ∀ c ∈ s, isSpace c = false := by
  unfold isWord
  simp only [Bool.and_eq_true, Bool.not_eq_true', List.all_eq_true, List.isEmpty_eq_false]

theorem Fields_word (s : Str) (hw : isWord s = true) : Fields s = [s] := by
  obtain ⟨hne, hs⟩ := (isWord_iff s).mp hw
  unfold Fields
  rw [fieldsAux_word s [] hs]
  simp only [List.reverse_nil, List.nil_append]
  rw [if_neg]
  simpa using hne

theorem newline_not_mem_word (s : Str) (hw : isWord s = true) : '\n' ∉ s := by
  intro h
  have := ((isWord_iff s).mp hw).2 _ h
  exact absurd this (by decide)

theorem routingScriptLines_eq (host1 host2 gw iface vpnSubnet : Str) :
    routingScriptLines host1 host2 gw iface vpnSubnet =
      (routingScriptLines [] [] [] [] []).take 2 ++ (lockoutLine host1 ::
      (((routingScriptLines [] [] [] [] []).drop 3).take 2 ++
        (directRouteLine host2 gw iface ::
      (((routingScriptLines [] [] [] [] []).drop 6).take 6 ++ (poolLine vpnSubnet ::
      (((routingScriptLines [] [] [] [] []).drop 13).take 6 ++ (defaultRouteLine iface ::
      (routingScriptLines [] [] [] [] []).drop 20))))))) :=
  rfl

theorem routingScript_lines (host1 host2 gw iface vpnSubnet : Str)
    (h1 : '\n' ∉ host1) (h2 : '\n' ∉ host2) (hg : '\n' ∉ gw) (hi : '\n' ∉ iface)
    (hs : '\n' ∉ vpnSubnet) :
    splitLines (routingScript host1 host2 gw iface vpnSubnet) =
      routingScriptLines host1 host2 gw iface vpnSubnet := by
  unfold routingScript
  apply splitLines_joinLines
  · rw [routingScriptLines_eq]; simp
  · intro l hl
    rw [routingScriptLines_eq] at hl
    have hall : ∀ n k, ∀ x ∈ ((routingScriptLines [] [] [] [] []).drop n).take k, '\n' ∉ x := by
      intro n k x hx
      have hx2 := List.mem_of_mem_drop (List.mem_of_mem_take hx)
      have hlit : ∀ y ∈ routingScriptLines [] [] [] [] [], '\n' ∉ y := by decide
      exact hlit x hx2
    have hall0 : ∀ k, ∀ x ∈ (routingScriptLines [] [] [] [] []).take k, '\n' ∉ x :=
      fun k x hx => hall 0 k x hx
    have halld : ∀ n, ∀ x ∈ (routingScriptLines [] [] [] [] []).drop n, '\n' ∉ x := by
      intro n x hx
      have hlit : ∀ y ∈ routingScriptLines [] [] [] [] [], '\n' ∉ y := by decide
      exact hlit x (List.mem_of_mem_drop hx)
    rcases List.mem_append.mp hl with h | h
    · exact hall0 _ l h
    rcases List.mem_cons.mp h with h | h
    · rw [h]
      exact newline_not_mem_append _ _ (newline_not_mem_append _ _ (by decide) h1) (by decide)
    rcases List.mem_append.mp h with h | h
    · exact hall _ _ l h
    rcases List.mem_cons.mp h with h | h
    · rw [h]
      exact newline_not_mem_append _ _ (newline_not_mem_append _ _ (newline_not_mem_append _ _
        (newline_not_mem_append _ _ (newline_not_mem_append _ _ (newline_not_mem_append _ _
          (by decide) h2) (by decide)) hg) (by decide)) hi) (by decide)
    rcases List.mem_append.mp h with h | h
    · exact hall _ _ l h
    rcases List.mem_cons.mp h with h | h
    · rw [h]
      exact newline_not_mem_append _ _ (newline_not_mem_append _ _ (by decide) hs) (by decide)
    rcases List.mem_append.mp h with h | h
    · exact hall _ _ l h
    rcases List.mem_cons.mp h with h | h
    · rw [h]
      exact newline_not_mem_append _ _ (newline_not_mem_append _ _ (by decide) hi) (by decide)
    · exact halld _ l h

theorem parseIpRule_lockoutLine (host1 : Str) (hw : isWord host1 = true) :
    parseIpRule (lockoutLine host1) = some (lockoutRule host1) := by
  have e : lockoutLine host1 = "\t\tsudo ip rule add from".toList ++
      ' ' :: (host1 ++ ' ' :: "lookup main pref 100 2>/dev/null || true".toList) := by
    unfold lockoutLine
    have e1 : "\t\tsudo ip rule add from ".toList = "\t\tsudo ip rule add from".toList ++ [' '] :=
      rfl
    have e2 : " lookup main pref 100 2>/dev/null || true".toList =
      ' ' :: "lookup main pref 100 2>/dev/null || true".toList := rfl
    rw [e1, e2]
    simp only [List.append_assoc, List.singleton_append, List.cons_append, List.nil_append]
  have hF : Fields (lockoutLine host1) =
      ["sudo".toList, "ip".toList, "rule".toList, "add".toList, "from".toList, host1,
        "lookup".toList, "main".toList, "pref".toList, "100".toList, "2>/dev/null".toList,
        "||".toList, "true".toList] := by
    rw [e, Fields_append_space, Fields_append_space, Fields_word host1 hw]
    rfl
  unfold parseIpRule
  rw [hF]
  rfl

theorem parseIpRule_poolLine (vpnSubnet : Str) (hw : isWord vpnSubnet = true) :
    parseIpRule (poolLine vpnSubnet) = some (poolRule vpnSubnet) := by
  have e : poolLine vpnSubnet = "\t\tsudo ip rule add from".toList ++
      ' ' :: (vpnSubnet ++ ' ' :: "lookup 220 pref 220 2>/dev/null || true".toList) := by
    unfold poolLine
    have e1 : "\t\tsudo ip rule add from ".toList = "\t\tsudo ip rule add from".toList ++ [' '] :=
      rfl
    have e2 : " lookup 220 pref 220 2>/dev/null || true".toList =
      ' ' :: "lookup 220 pref 220 2>/dev/null || true".toList := rfl
    rw [e1, e2]
    simp only [List.append_assoc, List.singleton_append, List.cons_append, List.nil_append]
  have hF : Fields (poolLine vpnSubnet) =
      ["sudo".toList, "ip".toList, "rule".toList, "add".toList, "from".toList, vpnSubnet,
        "lookup".toList, "220".toList, "pref".toList, "220".toList, "2>/dev/null".toList,
        "||".toList, "true".toList] := by
    rw [e, Fields_append_space, Fields_append_space, Fields_word vpnSubnet hw]
    rfl
  unfold parseIpRule
  rw [hF]
  rfl

theorem parseIpRule_directRouteLine (host2 gw iface : Str) :
    parseIpRule (directRouteLine host2 gw iface) = none := by
  have e : directRouteLine host2 gw iface = "\t\tsudo ip route add".toList ++
      ' ' :: (host2 ++ (" via ".toList ++ (gw ++ (" dev ".toList ++ (iface ++
        " 2>/dev/null || true".toList))))) := by
    unfold directRouteLine
    have e1 : "\t\tsudo ip route add ".toList = "\t\tsudo ip route add".toList ++ [' '] := rfl
    rw [e1]
    simp only [List.append_assoc, List.singleton_append, List.cons_append, List.nil_append]
  have hF : Fields (directRouteLine host2 gw iface) =
      ["sudo".toList, "ip".toList, "route".toList, "add".toList] ++
        Fields (host2 ++ (" via ".toList ++ (gw ++ (" dev ".toList ++ (iface ++
          " 2>/dev/null || true".toList))))) := by
    rw [e, Fields_append_space]
    rfl
  unfold parseIpRule
  rw [hF]
  rfl

theorem parseIpRule_defaultRouteLine (iface : Str) :
    parseIpRule (defaultRouteLine iface) = none := by
  have e : defaultRouteLine iface = "\t\t\tsudo ip route add default dev".toList ++
      ' ' :: (iface ++ " table 220 2>/dev/null || true".toList) := by
    unfold defaultRouteLine
    have e1 : "\t\t\tsudo ip route add default dev ".toList =
      "\t\t\tsudo ip route add default dev".toList ++ [' '] := rfl
    rw [e1]
    simp only [List.append_assoc, List.singleton_append, List.cons_append, List.nil_append]
  have hF : Fields (defaultRouteLine iface) =
      ["sudo".toList, "ip".toList, "route".toList, "add".toList, "default".toList,
        "dev".toList] ++ Fields (iface ++ " table 220 2>/dev/null || true".toList) := by
    rw [e, Fields_append_space]
    rfl
  unfold parseIpRule
  rw [hF]
  rfl

/-- The `ip rule` commands of the routing script, in order. -/
theorem ipRules_routingScript (host1 host2 gw iface vpnSubnet : Str)
    (h1 : isWord host1 = true) (h2 : '\n' ∉ host2) (hg : '\n' ∉ gw) (hi : '\n' ∉ iface)
    (hs : isWord vpnSubnet = true) :
    ipRules (routingScript host1 host2 gw iface vpnSubnet) =
      [lockoutRule host1, dropAllRule, poolRule vpnSubnet] := by
  unfold ipRules
  rw [routingScript_lines host1 host2 gw iface vpnSubnet (newline_not_mem_word _ h1) h2 hg hi
    (newline_not_mem_word _ hs), routingScriptLines_eq]
  simp only [List.filterMap_append, List.filterMap_cons, parseIpRule_lockoutLine host1 h1,
    parseIpRule_poolLine vpnSubnet hs, parseIpRule_directRouteLine,
    parseIpRule_defaultRouteLine]
  have a1 : ((routingScriptLines [] [] [] [] []).take 2).filterMap parseIpRule = [] := by decide
  have a2 : (((routingScriptLines [] [] [] [] []).drop 3).take 2).filterMap parseIpRule = [] := by
    decide
  have a3 : (((routingScriptLines [] [] [] [] []).drop 6).take 6).filterMap parseIpRule =
      [dropAllRule] := by decide
  have a4 : (((routingScriptLines [] [] [] [] []).drop 13).take 6).filterMap parseIpRule = [] := by
    decide
  have a5 : ((routingScriptLines [] [] [] [] []).drop 20).filterMap parseIpRule = [] := by decide
  rw [a1, a2, a3, a4, a5]
  rfl

theorem eventsOf_setupRouting (m : Manager) (hc : m.client .server1 = some true) :
    eventsOf setupRouting m =
      [.log "Configuring policy routing and fixing potential lockouts...".toList,
       .run .server1 ifaceCmd, .run .server1 (gwCmd (routingIface m)),
       .run .server1 (routingScriptOf m)] := by
  simp only [Manager.client] at hc
  simp only [eventsOf, setupRouting, errOf_snd, Manager.run, Manager.log, Manager.client, hc,
    if_true, routingScriptOf, routingGw, routingIface, List.append_assoc, List.drop_left,
    List.singleton_append, List.cons_append, List.nil_append]

/-! ### Plain words -/

theorem isPlainChar_not_space (c : Char) (h : isPlainChar c = true) : isSpace c = false := by
  have hr : 45 ≤ c.toNat ∧ c.toNat ≤ 122 := by
    simp only [isPlainChar, Bool.or_eq_true, Bool.and_eq_true, decide_eq_true_eq,
      beq_iff_eq] at h
    omega
  simp only [isSpace, Bool.or_eq_false_iff, Bool.and_eq_false_iff, beq_eq_false_iff_ne,
    decide_eq_false_iff_not, ne_eq]
  omega

theorem isPlain_no_space (s : Str) (h : isPlain s = true) : ∀ c ∈ s, isSpace c = false := by
  intro c hc
  unfold isPlain at h
  exact isPlainChar_not_space c (List.all_eq_true.mp h c hc)

theorem isPlain_no_newline (s : Str) (h : isPlain s = true) : '\n' ∉ s := by
  intro hn
  have := isPlain_no_space s h _ hn
  exact absurd this (by decide)

theorem isPlain_isWord (s : Str) (h : isPlain s = true) (hne : s ≠ []) : isWord s = true :=
  (isWord_iff s).mpr ⟨hne, isPlain_no_space s h⟩

theorem isHostAddr_parts (s : Str) (h : isHostAddr s = true) :
    isWord s = true ∧ everySource s = false := by
  simp only [isHostAddr, Bool.and_eq_true, Bool.not_eq_true', List.isEmpty_eq_false] at h
  exact ⟨isPlain_isWord s h.1.1.2 (by simpa using h.1.1.1), h.2⟩

theorem isPool_parts (s : Str) (h : isPool s = true) :
    isWord s = true ∧ everySource s = false := by
  simp only [isPool, Bool.and_eq_true] at h
  obtain ⟨hp, hl⟩ := h
  cases hn : prefixLen s with
  | none => rw [hn] at hl; cases hl
  | some n =>
    rw [hn] at hl
    have hpos : 0 < n := by simpa using hl
    have hne : s ≠ [] := by
      intro e
      rw [e] at hn
      cases hn
    refine ⟨isPlain_isWord s hp hne, ?_⟩
    have a1 : prefixLen "all".toList = none := by decide
    have a2 : prefixLen "any".toList = none := by decide
    have a3 : prefixLen "default".toList = none := by decide
    have n1 : s ≠ "all".toList := by
      intro e; rw [e, a1] at hn; cases hn
    have n2 : s ≠ "any".toList := by
      intro e; rw [e, a2] at hn; cases hn
    have n3 : s ≠ "default".toList := by
      intro e; rw [e, a3] at hn; cases hn
    have n4 : n ≠ 0 := by omega
    simp only [everySource, hn, Bool.or_eq_false_iff, beq_eq_false_iff_ne, ne_eq,
      Option.some.injEq]
    exact ⟨⟨⟨n1, n2⟩, n3⟩, n4⟩

/-- C19: for every topology whose addresses are plain words (letters, digits
and `.`, `:`, `-`, `_`, `/`, which mean nothing to the shell, so that the
shell splits each line of the script at its white space), with an entry host
address that holds no slash and is not a word for every address, and a client
pool written with a decimal prefix length above zero: the script that
`setupRouting` sends to the entry host has three `ip rule` commands, in this
order: add `from` the entry host's address `lookup main pref 100`, delete
`from all lookup 220`, add `from` the client pool `lookup 220 pref 220`. So
every added rule for table 220 has exactly the client pool as its source, the
only command whose source stands for every address (`all`, `any`, `default`
or a prefix of length zero) is the deletion, and the anti-lockout rule is
issued first, with preference 100, below the 220 of the rule for table 220. -/
theorem C19_pool_only (m : Manager)
    (hc : m.client .server1 = some true)
    (h1 : isHostAddr m.config.Server1.Host = true) (hs : isPool m.config.VPNSubnet = true)
    (h2 : isPlain m.config.Server2.Host = true)
    (hi : isPlain (routingIface m) = true) (hg : isPlain (routingGw m) = true) :
    eventsOf setupRouting m =
      [.log "Configuring policy routing and fixing potential lockouts...".toList,
       .run .server1 ifaceCmd, .run .server1 (gwCmd (routingIface m)),
       .run .server1 (routingScriptOf m)] ∧
    ipRules (routingScriptOf m) =
      [{ add := true, src := m.config.Server1.Host, table := "main".toList, pref := some 100 },
       { add := false, src := "all".toList, table := "220".toList, pref := none },
       { add := true, src := m.config.VPNSubnet, table := "220".toList, pref := some 220 }] ∧
    (∀ r ∈ ipRules (routingScriptOf m), r.add = true → r.table = "220".toList →
      r.src = m.config.VPNSubnet) ∧
    (∀ r ∈ ipRules (routingScriptOf m), everySource r.src = true →
      r = { add := false, src := "all".toList, table := "220".toList, pref := none }) ∧
    (∀ r ∈ ipRules (routingScriptOf m), r.src = "all".toList →
      r = { add := false, src := "all".toList, table := "220".toList, pref := none }) := by
  obtain ⟨w1, e1⟩ := isHostAddr_parts _ h1
  obtain ⟨ws, es⟩ := isPool_parts _ hs
  have hl : ipRules (routingScriptOf m) =
      [lockoutRule m.config.Server1.Host, dropAllRule, poolRule m.config.VPNSubnet] :=
    ipRules_routingScript _ _ _ _ _ w1 (isPlain_no_newline _ h2) (isPlain_no_newline _ hg)
      (isPlain_no_newline _ hi) ws
  have hev : ∀ r ∈ ipRules (routingScriptOf m), everySource r.src = true →
      r = { add := false, src := "all".toList, table := "220".toList, pref := none } := by
    intro r hr hsrc
    rw [hl] at hr
    simp only [List.mem_cons, List.mem_singleton, List.not_mem_nil, or_false] at hr
    rcases hr with rfl | rfl | rfl
    · have e : everySource m.config.Server1.Host = true := hsrc
      rw [e1] at e
      cases e
    · rfl
    · have e : everySource m.config.VPNSubnet = true := hsrc
      rw [es] at e
      cases e
  refine ⟨eventsOf_setupRouting m hc, hl, ?_, hev, ?_⟩
  · intro r hr ha ht
    rw [hl] at hr
    simp only [List.mem_cons, List.mem_singleton, List.not_mem_nil, or_false] at hr
    rcases hr with rfl | rfl | rfl
    · have hne : "main".toList ≠ "220".toList := by decide
      exact absurd ht hne
    · exact absurd ha (by decide)
    · rfl
  · intro r hr hsrc
    apply hev r hr
    rw [hsrc]
    decide

set_option maxRecDepth 100000 in
theorem C19_pool_only_witness :
    sampleManager.client .server1 = some true ∧
    isHostAddr sampleManager.config.Server1.Host = true ∧
    isPool sampleManager.config.VPNSubnet = true ∧
    sampleManager.config.VPNSubnet = "10.10.10.0/24".toList ∧
    ipRules (routingScriptOf sampleManager) =
      [{ add := true, src := "198.51.100.1".toList, table := "main".toList, pref := some 100 },
       { add := false, src := "all".toList, table := "220".toList, pref := none },
       { add := true, src := "10.10.10.0/24".toList, table := "220".toList,
         pref := some 220 }] :=
  ⟨rfl, by decide, by decide, rfl,
    (C19_pool_only sampleManager rfl (by decide) (by decide) (by decide) (by decide)
      (by decide)).2.1⟩

/-! ## `GeneratePassword` -/

theorem hexEncode_length (bytes : List Nat) : (hexEncode bytes).length = 2 * bytes.length := by
  induction bytes with
  | nil => rfl
  | cons b bs ih =>
    have e : hexEncode (b :: bs) =
        hexDigit (b % 256 / 16) :: hexDigit (b % 16) :: hexEncode bs := rfl
    rw [e, List.length_cons, List.length_cons, ih, List.length_cons]
    omega

theorem randBytes_length (rnd : List Nat) (n : Nat) : (randBytes rnd n).length = n := by
  unfold randBytes
  rw [List.length_map, List.length_range]

theorem hexDigit_mem (k : Nat) (hk : k < 16) : hexDigit k ∈ hexDigits := by
  have h : ∀ j, j < 16 → hexDigit j ∈ hexDigits := by decide
  exact h k hk

theorem hexEncode_digits (bytes : List Nat) : ∀ c ∈ hexEncode bytes, c ∈ hexDigits := by
  induction bytes with
  | nil => intro c hc; cases hc
  | cons b bs ih =>
    have e : hexEncode (b :: bs) =
        hexDigit (b % 256 / 16) :: hexDigit (b % 16) :: hexEncode bs := rfl
    intro c hc
    rw [e] at hc
    rcases List.mem_cons.mp hc with h | h
    · rw [h]
      exact hexDigit_mem _ (by omega)
    rcases List.mem_cons.mp h with h | h
    · rw [h]
      exact hexDigit_mem _ (by omega)
    · exact ih c h

theorem makeBytes_ok (maxAlloc : Nat) (n : Int) (h0 : 0 ≤ n) (h1 : n ≤ (maxAlloc : Int)) :
    makeBytes maxAlloc n = some (List.replicate n.toNat 0) := by
  unfold makeBytes
  rw [if_pos ⟨h0, h1⟩]

theorem makeBytes_too_large (maxAlloc : Nat) (n : Int) (h : (maxAlloc : Int) < n) :
    makeBytes maxAlloc n = none := by
  unfold makeBytes
  rw [if_neg (by omega)]

theorem randRead_ok (readFatal : Bool) (rnd buf : List Nat)
    (h : readFatal = true → buf.length ≤ rnd.length) :
    randRead readFatal rnd buf = some (randBytes rnd buf.length) := by
  unfold randRead
  cases readFatal with
  | false => rfl
  | true =>
    have := h rfl
    rw [if_neg (by simp only [Bool.true_and, decide_eq_true_eq]; omega)]

/-- C28, as stated, fails: for the length `2^63 - 1`, the largest Go `int`,
`make` is asked for `2^62` bytes, more than a runtime whose allocations are
bounded by `2^48` bytes (or by anything below `2^62`) can give:
`GeneratePassword` does not return, whatever the random source delivers. And
on a runtime where a failing random source ends the program, it does not
return for the length 5 when the source delivers nothing. -/
theorem C28_counterexample :
    (0 : Int) ≤ maxInt ∧ Int.tdiv maxInt 2 + 1 = 2 ^ 62 ∧
    (∀ readFatal rnd, GeneratePassword (2 ^ 48) readFatal maxInt rnd = none) ∧
    (∀ maxAlloc readFatal rnd, maxAlloc < 2 ^ 62 →
      GeneratePassword maxAlloc readFatal maxInt rnd = none) ∧
    GeneratePassword (2 ^ 48) true 5 [] = none := by
  have hd : Int.tdiv maxInt 2 + 1 = 2 ^ 62 := by decide
  have hall : ∀ maxAlloc readFatal rnd, maxAlloc < 2 ^ 62 →
      GeneratePassword maxAlloc readFatal maxInt rnd = none := by
    intro maxAlloc readFatal rnd hlt
    unfold GeneratePassword
    rw [hd, makeBytes_too_large maxAlloc (2 ^ 62) (by exact_mod_cast hlt)]
  exact ⟨by decide, hd, fun readFatal rnd => hall (2 ^ 48) readFatal rnd (by decide), hall,
    by decide⟩

/-- C28 (amended): for every length of at least 0 for which `make` can allocate
the `length/2+1` bytes, and every random source that delivers them (every
random source at all, where a failing source does not end the program),
`GeneratePassword` returns (it does not panic) a string of exactly `length`
characters, each one of the digits `0123456789abcdef`; the hex text of the
`length/2+1` random bytes has at least `length+1` characters, so the slice is
within bounds. -/
theorem C28_generate_password (maxAlloc : Nat) (readFatal : Bool) (length : Int)
    (rnd : List Nat) (h : 0 ≤ length)
    (ha : Int.tdiv length 2 + 1 ≤ (maxAlloc : Int))
    (hr : readFatal = true → Int.tdiv length 2 + 1 ≤ (rnd.length : Int)) :
    length + 1 ≤ ((hexEncode (randBytes rnd (Int.tdiv length 2 + 1).toNat)).length : Int) ∧
    ∃ s, GeneratePassword maxAlloc readFatal length rnd = some s ∧
      (s.length : Int) = length ∧ ∀ c ∈ s, c ∈ hexDigits := by
  have hd : Int.tdiv length 2 = length / 2 := Int.tdiv_eq_ediv h (by decide)
  have hlen : ((hexEncode (randBytes rnd (Int.tdiv length 2 + 1).toNat)).length : Int) =
      2 * (length / 2 + 1) := by
    rw [hexEncode_length, randBytes_length, hd]
    push_cast
    rw [Int.toNat_of_nonneg (by omega)]
  refine ⟨by rw [hlen]; omega, (hexEncode (randBytes rnd (Int.tdiv length 2 + 1).toNat)).take
    length.toNat, ?_, ?_, ?_⟩
  · unfold GeneratePassword
    rw [makeBytes_ok maxAlloc _ (by rw [hd]; omega) ha]
    simp only
    rw [randRead_ok readFatal rnd _ (by
      intro hf
      have := hr hf
      rw [List.length_replicate]
      omega)]
    simp only [List.length_replicate]
    rw [if_pos ⟨h, by rw [hlen]; omega⟩]
  · rw [List.length_take]
    have : length.toNat ≤ (hexEncode (randBytes rnd (Int.tdiv length 2 + 1).toNat)).length := by
      have := hlen
      omega
    rw [Nat.min_eq_left this]
    exact Int.toNat_of_nonneg h
  · intro c hc
    exact hexEncode_digits _ c (List.mem_of_mem_take hc)

theorem C28_generate_password_witness :
    (0 : Int) ≤ 5 ∧ Int.tdiv 5 2 + 1 ≤ ((2 ^ 48 : Nat) : Int) ∧
    Int.tdiv 5 2 + 1 ≤ (([171, 205, 239] : List Nat).length : Int) ∧
    GeneratePassword (2 ^ 48) true 5 [171, 205, 239] = some "abcde".toList ∧
    ∃ s, GeneratePassword (2 ^ 48) true 5 [171, 205, 239] = some s ∧ (s.length : Int) = 5 ∧
      ∀ c ∈ s, c ∈ hexDigits :=
  ⟨by decide, by decide, by decide, by decide,
    (C28_generate_password (2 ^ 48) true 5 [171, 205, 239] (by decide) (by decide)
      (fun _ => by decide)).2⟩

/-! ## `Storage.Load` -/

theorem padServers_of_two (servers : List storage.ServerConfig) (h : 2 ≤ servers.length) :
    storage.padServers servers = servers := by
  rw [storage.padServers, if_neg (by omega)]

theorem padServers_one (a : storage.ServerConfig) :
    storage.padServers [a] = [a, storage.padEntry 1] := by
  rw [storage.padServers, if_pos (by simp)]
  exact padServers_of_two _ (by simp)

theorem padServers_nil :
    storage.padServers [] = [storage.padEntry 0, storage.padEntry 1] := by
  rw [storage.padServers, if_pos (by decide)]
  exact padServers_one _

theorem padEntry_name (i : Nat) (hi : i < 2) :
    storage.padEntry i =
      { Name := storage.serverName (i + 1), Host := [], Port := 22, User := [], Password := [],
        KeyPath := [] } := by
  have h : ∀ j, j < 2 → storage.padEntry j =
      { Name := storage.serverName (j + 1), Host := [], Port := 22, User := [], Password := [],
        KeyPath := [] } := by decide
  exact h i hi

/-- The loop leaves the servers it finds in place and appends the entries of
the missing positions. -/
theorem padServers_eq (servers : List storage.ServerConfig) :
    storage.padServers servers =
      servers ++ ((List.range 2).drop servers.length).map storage.padEntry := by
  match servers with
  | [] => rw [padServers_nil]; rfl
  | [a] => rw [padServers_one]; rfl
  | a :: b :: rest =>
    rw [padServers_of_two _ (by simp)]
    have : (List.range 2).drop (a :: b :: rest).length = [] := by
      apply List.drop_eq_nil_of_le
      simp
    rw [this]
    simp

/-- C27: when the file is read and parsed, with `n` saved servers, `Load`
returns a configuration (the padding loop is a total function) with
`max n 2` servers; the first `n` are the parsed ones in order, and every added
entry, at the 0-based index `i`, has Port 22, the name `Server` followed by
`i + 1`, and its other fields empty. The key path is the parsed one. -/
theorem C27_load_two_servers (content : Str) (unmarshal : Str → Except Str storage.AppConfig)
    (config : storage.AppConfig) (hp : unmarshal content = .ok config) :
    ∃ result, storage.Load (.data content) unmarshal = .ok result ∧
      result.Servers.length = max config.Servers.length 2 ∧
      result.Servers.take config.Servers.length = config.Servers ∧
      result.SSHKeyPath = config.SSHKeyPath ∧
      ∀ i, config.Servers.length ≤ i → i < max config.Servers.length 2 →
        result.Servers[i]? = some { Name := storage.serverName (i + 1), Host := [], Port := 22,
                                    User := [], Password := [], KeyPath := [] } := by
  refine ⟨{ config with Servers := storage.padServers config.Servers }, ?_, ?_, ?_, rfl, ?_⟩
  · unfold storage.Load
    simp only [hp]
  · simp only [padServers_eq, List.length_append, List.length_map, List.length_drop,
      List.length_range]
    omega
  · simp only [padServers_eq, List.take_left']
  · intro i h1 h2
    simp only [padServers_eq]
    have hi : i < 2 := by omega
    rw [List.getElem?_append_right h1, List.getElem?_map, List.getElem?_drop]
    have e : config.Servers.length + (i - config.Servers.length) = i := by omega
    rw [e, List.getElem?_range hi]
    simp only [Option.map_some']
    rw [padEntry_name i hi]

theorem C27_load_two_servers_witness :
    ∃ result, storage.Load (.data "x".toList) (fun _ => .ok storage.oneServer) = .ok result ∧
      result.Servers.length = 2 ∧
      result.Servers[1]? = some { Name := "Server 2".toList, Host := [], Port := 22,
                                  User := [], Password := [], KeyPath := [] } :=
  have w := C27_load_two_servers "x".toList (fun _ => .ok storage.oneServer)
    storage.oneServer rfl
  w.imp fun _ h => ⟨h.1, h.2.1, h.2.2.2.2 1 (by decide) (by decide)⟩

/-! ## `RemoveKeyFromServer` -/

theorem escapeSlashes_length (s : Str) : s.length ≤ (escapeSlashes s).length := by
  induction s with
  | nil => exact Nat.le_refl _
  | cons c cs ih =>
    have e : escapeSlashes (c :: cs) =
        (if c = '/' then [Char.ofNat 92, '/'] else [c]) ++ escapeSlashes cs := rfl
    rw [e, List.length_append, List.length_cons]
    split_ifs
    · simp only [List.length_cons, List.length_nil]; omega
    · simp only [List.length_cons, List.length_nil]; omega

/-- C29, as stated, fails: on a connected session whose host gives the home
directory, a key of 12 bytes makes the slice `escapedKey[:50]` go out of
range, and the operation does not return. -/
theorem C29_counterexample :
    (escapeSlashes "ssh-rsa AAAA".toList).length = 12 ∧
    RemoveKeyFromServer homeClient "ssh-rsa AAAA".toList = none := by
  refine ⟨by decide, rfl⟩

/-- C29 (amended): for every session and every public-key string whose
slash-escaped form has at least 50 bytes (every key of at least 50 bytes has),
the 50-byte prefix is within bounds and `RemoveKeyFromServer` returns normally,
with nil or an error. -/
theorem C29_remove_key_total (c : Client) (publicKey : Str)
    (h : 50 ≤ (escapeSlashes publicKey).length) :
    ((escapeSlashes publicKey).take 50).length = 50 ∧
    (50 ≤ publicKey.length → 50 ≤ (escapeSlashes publicKey).length) ∧
    ∃ r, RemoveKeyFromServer c publicKey = some r := by
  refine ⟨by rw [List.length_take]; omega,
    fun hk => Nat.le_trans hk (escapeSlashes_length publicKey), ?_⟩
  unfold RemoveKeyFromServer
  cases he : ensureConnected c with
  | mk e c0 =>
    cases e with
    | some err => exact ⟨_, rfl⟩
    | none =>
      simp only
      cases hp : (c0.Run homeCmd).1 with
      | error err => exact ⟨_, rfl⟩
      | ok homeDir =>
        simp only [if_pos h]
        cases hq : ((c0.Run homeCmd).2.Run (removeKeyCmd (List.take 50 (escapeSlashes publicKey))
            (TrimSpace homeDir ++ "/.ssh/authorized_keys".toList))).1 with
        | error err => exact ⟨_, rfl⟩
        | ok o => exact ⟨_, rfl⟩

theorem C29_remove_key_total_witness :
    50 ≤ (escapeSlashes sampleKey).length ∧
    ∃ r, RemoveKeyFromServer homeClient sampleKey = some r :=
  ⟨by decide, (C29_remove_key_total homeClient sampleKey (by decide)).2.2⟩

/-! ## `cleanPEMCert` -/

theorem removeAllAux_zero_cons (old : Str) (c : Char) (cs : Str) :
    removeAllAux old 0 (c :: cs) =
      if old.isPrefixOf (c :: cs) then removeAllAux old (old.length - 1) cs
      else c :: removeAllAux old 0 cs := rfl

theorem removeAllAux_skip (old x s : Str) : removeAllAux old x.length (x ++ s) =
    removeAllAux old 0 s := by
  induction x with
  | nil => rfl
  | cons c cs ih => exact ih

/-- A match at the start of the text is dropped whole. -/
theorem removeAllAux_match (old s : Str) (hne : old ≠ []) :
    removeAllAux old 0 (old ++ s) = removeAllAux old 0 s := by
  obtain ⟨c, cs, rfl⟩ := List.exists_cons_of_ne_nil hne
  have hp : (c :: cs).isPrefixOf (c :: (cs ++ s)) = true := by
    rw [List.isPrefixOf_iff_prefix]
    exact List.prefix_append (c :: cs) s
  rw [List.cons_append, removeAllAux_zero_cons, if_pos hp]
  exact removeAllAux_skip (c :: cs) cs s

/-- A stretch without the first character of `old` is copied. -/
theorem removeAllAux_copy (h : Char) (t a s : Str) (ha : h ∉ a) :
    removeAllAux (h :: t) 0 (a ++ s) = a ++ removeAllAux (h :: t) 0 s := by
  induction a with
  | nil => rfl
  | cons c cs ih =>
    have hc : c ≠ h := fun e => ha (by rw [e]; exact List.mem_cons_self _ _)
    have hp : (h :: t).isPrefixOf (c :: (cs ++ s)) = false := by
      rw [Bool.eq_false_iff, Ne, List.isPrefixOf_iff_prefix]
      intro hpre
      exact hc (List.cons_prefix_cons.mp hpre).1.symm
    rw [List.cons_append, removeAllAux_zero_cons, if_neg (by rw [hp]; decide),
      ih (fun hm => ha (List.mem_cons_of_mem _ hm))]
    rfl

theorem removeAll_newline (s : Str) : removeAll s ['\n'] = s.filter (fun c => c != '\n') := by
  unfold removeAll
  induction s with
  | nil => rfl
  | cons c cs ih =>
    rw [removeAllAux_zero_cons]
    by_cases hc : c = '\n'
    · have hp : ['\n'].isPrefixOf (c :: cs) = true := by
        rw [hc, List.isPrefixOf_iff_prefix]
        exact ⟨cs, rfl⟩
      rw [if_pos hp, List.filter_cons_of_neg (by rw [hc]; decide)]
      exact ih
    · have hp : ['\n'].isPrefixOf (c :: cs) = false := by
        rw [Bool.eq_false_iff, Ne, List.isPrefixOf_iff_prefix]
        intro hpre
        exact hc (List.cons_prefix_cons.mp hpre).1.symm
      rw [if_neg (by rw [hp]; decide), List.filter_cons_of_pos (by simpa using hc), ih]

theorem TrimSpace_not_mem (s : Str) (c : Char) (h : c ∉ s) : c ∉ TrimSpace s :=
  fun hm => h ((TrimSpace_block s).subset hm)

/-- A trimmed text does not start with white space. -/
theorem TrimSpace_head (s : Str) (c : Char) (h : (TrimSpace s).head? = some c) :
    isSpace c = false := by
  obtain ⟨w0, w1, e, _, _⟩ := TrimSpace_decompose s
  have hd : s.dropWhile isSpace = TrimSpace s ++
      (((s.dropWhile isSpace).reverse).takeWhile isSpace).reverse := by
    have h2 := (List.takeWhile_append_dropWhile isSpace (s.dropWhile isSpace).reverse).symm
    have := congrArg List.reverse h2
    rw [List.reverse_reverse, List.reverse_append] at this
    exact this
  have hh : (s.dropWhile isSpace).head? = some c := by
    rw [hd, List.head?_append_of_ne_nil _ (by intro hn; rw [hn] at h; cases h)]
    exact h
  have := List.head?_dropWhile_not isSpace s
  rw [hh] at this
  simpa using this

/-- A trimmed text does not end with white space. -/
theorem TrimSpace_last (s : Str) (c : Char) (h : (TrimSpace s).getLast? = some c) :
    isSpace c = false := by
  unfold TrimSpace at h
  rw [List.getLast?_reverse] at h
  have := List.head?_dropWhile_not isSpace (s.dropWhile isSpace).reverse
  rw [h] at this
  simpa using this

theorem not_Contains_of_not_mem (s sub : Str) (c : Char) (hc : c ∈ sub) (h : c ∉ s) :
    Contains s sub = false := by
  rw [Bool.eq_false_iff, Ne, Contains_iff_block]
  intro hb
  exact h (hb.subset hc)

/-- The result on a certificate in its usual form. -/
theorem cleanPEMCert_wellformed (body : Str) (hb : '-' ∉ body) :
    cleanPEMCert (beginMark ++ '\n' :: (body ++ '\n' :: (endMark ++ ['\n']))) =
      TrimSpace (body.filter (fun c => c != '\n')) := by
  have hnb : '-' ∉ '\n' :: body := by
    intro hm
    rcases List.mem_cons.mp hm with h | h
    · exact absurd h (by decide)
    · exact hb h
  have e0 : '\n' :: (body ++ '\n' :: (endMark ++ ['\n'])) =
      ('\n' :: body) ++ '\n' :: (endMark ++ ['\n']) := rfl
  have t1 : removeAllAux beginMark 0 ('\n' :: (endMark ++ ['\n'])) =
      '\n' :: (endMark ++ ['\n']) := by decide
  have t2 : removeAllAux endMark 0 ('\n' :: (endMark ++ ['\n'])) = ['\n', '\n'] := by decide
  have s1 : removeAll (beginMark ++ '\n' :: (body ++ '\n' :: (endMark ++ ['\n']))) beginMark =
      ('\n' :: body) ++ '\n' :: (endMark ++ ['\n']) := by
    unfold removeAll
    rw [removeAllAux_match beginMark _ (by decide), e0]
    have h1 : removeAllAux beginMark 0 (('\n' :: body) ++ '\n' :: (endMark ++ ['\n'])) =
        ('\n' :: body) ++ removeAllAux beginMark 0 ('\n' :: (endMark ++ ['\n'])) :=
      removeAllAux_copy '-' "----BEGIN CERTIFICATE-----".toList ('\n' :: body)
        ('\n' :: (endMark ++ ['\n'])) hnb
    rw [h1, t1]
  have s2 : removeAll (('\n' :: body) ++ '\n' :: (endMark ++ ['\n'])) endMark =
      ('\n' :: body) ++ ['\n', '\n'] := by
    unfold removeAll
    have h1 : removeAllAux endMark 0 (('\n' :: body) ++ '\n' :: (endMark ++ ['\n'])) =
        ('\n' :: body) ++ removeAllAux endMark 0 ('\n' :: (endMark ++ ['\n'])) :=
      removeAllAux_copy '-' "----END CERTIFICATE-----".toList ('\n' :: body)
        ('\n' :: (endMark ++ ['\n'])) hnb
    rw [h1, t2]
  unfold cleanPEMCert
  rw [s1, s2, removeAll_newline]
  congr 1
  rw [List.filter_append, List.filter_cons_of_neg (by decide)]
  have : List.filter (fun c => c != '\n') ['\n', '\n'] = [] := by decide
  rw [this, List.append_nil]

/-- C26, as stated, fails: the three removals run one after the other, so the
removal of a line break can put a header together. The input
`-----BEGIN CERT`, line break, `IFICATE-----` comes out as the BEGIN header. -/
theorem C26_counterexample :
    cleanPEMCert brokenHeader = beginMark ∧
    Contains (cleanPEMCert brokenHeader) beginMark = true := by
  refine ⟨by decide, by decide⟩

/-- C26 (amended): for every input string the result of `cleanPEMCert`
contains no newline character and neither starts nor ends with white space.
For an input made of the BEGIN line, a body without hyphen and the END line,
the result is the body without its newlines, trimmed, and it contains neither
`-----BEGIN CERTIFICATE-----` nor `-----END CERTIFICATE-----`. -/
theorem C26_clean_pem (pem body : Str) (hb : '-' ∉ body) :
    '\n' ∉ cleanPEMCert pem ∧
    (∀ c, (cleanPEMCert pem).head? = some c → isSpace c = false) ∧
    (∀ c, (cleanPEMCert pem).getLast? = some c → isSpace c = false) ∧
    cleanPEMCert (beginMark ++ '\n' :: (body ++ '\n' :: (endMark ++ ['\n']))) =
      TrimSpace (body.filter (fun c => c != '\n')) ∧
    Contains (cleanPEMCert (beginMark ++ '\n' :: (body ++ '\n' :: (endMark ++ ['\n']))))
      beginMark = false ∧
    Contains (cleanPEMCert (beginMark ++ '\n' :: (body ++ '\n' :: (endMark ++ ['\n']))))
      endMark = false := by
  have hd : '-' ∉ cleanPEMCert (beginMark ++ '\n' :: (body ++ '\n' :: (endMark ++ ['\n']))) := by
    rw [cleanPEMCert_wellformed body hb]
    exact TrimSpace_not_mem _ _ (fun hm => hb (List.mem_of_mem_filter hm))
  refine ⟨?_, fun c h => TrimSpace_head _ c h, fun c h => TrimSpace_last _ c h,
    cleanPEMCert_wellformed body hb,
    not_Contains_of_not_mem _ _ '-' (by decide) hd,
    not_Contains_of_not_mem _ _ '-' (by decide) hd⟩
  unfold cleanPEMCert
  apply TrimSpace_not_mem
  rw [removeAll_newline]
  intro hm
  have := (List.mem_filter.mp hm).2
  exact absurd this (by decide)

theorem C26_clean_pem_witness :
    '-' ∉ "MIIB\nAQID".toList ∧
    cleanPEMCert samplePEM = "MIIBAQID".toList ∧
    Contains (cleanPEMCert samplePEM) beginMark = false ∧
    Contains (cleanPEMCert samplePEM) endMark = false :=
  have w := C26_clean_pem samplePEM "MIIB\nAQID".toList (by decide)
  ⟨by decide, w.2.2.2.1.trans (by decide), w.2.2.2.2.1, w.2.2.2.2.2⟩

/-! ## Lines the status parser does not look at -/

theorem splitLines_mem_no_newline (s : Str) : ∀ l ∈ splitLines s, '\n' ∉ l := by
  induction s with
  | nil =>
    intro l hl
    have e : splitLines [] = [[]] := rfl
    rw [e, List.mem_singleton] at hl
    rw [hl]
    exact List.not_mem_nil _
  | cons c cs ih =>
    intro l hl
    by_cases hc : c = '\n'
    · rw [hc, splitLines_cons_newline] at hl
      rcases List.mem_cons.mp hl with h | h
      · rw [h]; exact List.not_mem_nil _
      · exact ih l h
    · obtain ⟨x, xs, hx⟩ := List.exists_cons_of_ne_nil (splitLines_ne_nil cs)
      have e : splitLines (c :: cs) = (c :: x) :: xs := by
        unfold splitLines
        rw [if_neg hc, hx]
      rw [e] at hl
      rcases List.mem_cons.mp hl with h | h
      · rw [h]
        intro hm
        rcases List.mem_cons.mp hm with h2 | h2
        · exact hc h2.symm
        · exact ih x (by rw [hx]; exact List.mem_cons_self _ _) h2
      · exact ih l (by rw [hx]; exact List.mem_cons_of_mem _ h)

/-- The lines of a text with a line put in. -/
theorem splitLines_insertLine (out l : Str) (k : Nat) (hn : '\n' ∉ l) :
    splitLines (insertLine out k l) =
      (splitLines out).take k ++ l :: (splitLines out).drop k := by
  unfold insertLine
  apply splitLines_joinLines
  · simp
  · intro x hx
    rcases List.mem_append.mp hx with h | h
    · exact splitLines_mem_no_newline out x (List.mem_of_mem_take h)
    · rcases List.mem_cons.mp h with h | h
      · rw [h]; exact hn
      · exact splitLines_mem_no_newline out x (List.mem_of_mem_drop h)

/-- A line without the marker that is not a header leaves the parser's state as it is. -/
theorem parseLine_ignored (acc : Bool × Status) (l : Str)
    (he : Contains l established = false) (hh : isHeader l = false) : parseLine acc l = acc := by
  unfold isHeader at hh
  unfold parseLine
  simp only [hh, Contains_trim_established, he, Bool.and_false, Bool.false_eq_true, if_false]

theorem parseStatus_insertLine (out l : Str) (k : Nat) (s : Status) (hn : '\n' ∉ l)
    (he : Contains l established = false) (hh : isHeader l = false) :
    parseStatus (insertLine out k l) s = parseStatus out s := by
  unfold parseStatus
  rw [splitLines_insertLine out l k hn, List.foldl_append, List.foldl_cons,
    parseLine_ignored _ l he hh, ← List.foldl_append, List.take_append_drop]

theorem statusOf_withStatusOutput (c : Client) (out : Str) :
    statusOf (withStatusOutput c out) =
      (if !(TrimSpace (probeOutput (c.run probeCmd)) == runningStr) then
        { Status.zero with Connected := (TrimSpace (probeOutput (c.run probeCmd)) == runningStr) }
       else setServerIP (setUptime (parseStatus out
        { Status.zero with Connected := (TrimSpace (probeOutput (c.run probeCmd)) == runningStr) })
        (c.run uptimeCmd)) (c.run ipCmd)) := by
  have h1 : (withStatusOutput c out).run probeCmd = c.run probeCmd := by
    have : (probeCmd == statusCmd) = false := by decide
    simp only [withStatusOutput, this, Bool.false_eq_true, if_false]
  have h2 : (withStatusOutput c out).run statusCmd = .ok out := by
    simp only [withStatusOutput, beq_self_eq_true, if_true]
  have h3 : (withStatusOutput c out).run uptimeCmd = c.run uptimeCmd := by
    have : (uptimeCmd == statusCmd) = false := by decide
    simp only [withStatusOutput, this, Bool.false_eq_true, if_false]
  have h4 : (withStatusOutput c out).run ipCmd = c.run ipCmd := by
    have : (ipCmd == statusCmd) = false := by decide
    simp only [withStatusOutput, this, Bool.false_eq_true, if_false]
  unfold statusOf
  simp only [h1, h2, h3, h4]

/-- C24: for every status output, every position and every single line that
does not contain `ESTABLISHED` and whose trimmed text does not start with
`Security Associations`, `GetStatus` returns the same snapshot (ActiveClients,
TunnelActive, Connections and the rest) for the output with the line put in at
that position as for the output without it; read the other way, deleting
such a line changes nothing either. -/
theorem C24_unrecognized_lines (c : Client) (out l : Str) (k : Nat)
    (hconn : c.connected = true ∨ c.connectErr = none) (hn : '\n' ∉ l)
    (he : Contains l established = false) (hh : isHeader l = false) :
    splitLines (insertLine out k l) = (splitLines out).take k ++ l :: (splitLines out).drop k ∧
    (GetStatus (withStatusOutput c (insertLine out k l))).1 =
      (GetStatus (withStatusOutput c out)).1 ∧
    ∃ s, (GetStatus (withStatusOutput c out)).1 = .ok s := by
  have hc2 : ∀ o, (withStatusOutput c o).connected = true ∨
      (withStatusOutput c o).connectErr = none := fun _ => hconn
  refine ⟨splitLines_insertLine out l k hn, ?_, _, GetStatus_result _ (hc2 out)⟩
  rw [GetStatus_result _ (hc2 _), GetStatus_result _ (hc2 _), statusOf_withStatusOutput,
    statusOf_withStatusOutput, parseStatus_insertLine out l k _ hn he hh]

theorem C24_unrecognized_lines_witness :
    splitLines (insertLine exampleBlob 3 "  Listening IP addresses:".toList) =
      (splitLines exampleBlob).take 3 ++ "  Listening IP addresses:".toList ::
        (splitLines exampleBlob).drop 3 ∧
    (GetStatus (withStatusOutput (statusClient runningLine [])
        (insertLine exampleBlob 3 "  Listening IP addresses:".toList))).1 =
      (GetStatus (withStatusOutput (statusClient runningLine []) exampleBlob)).1 :=
  have w := C24_unrecognized_lines (statusClient runningLine []) exampleBlob
    "  Listening IP addresses:".toList 3 (Or.inl rfl) (by decide) (by decide) (by decide)
  ⟨w.1, w.2.1⟩

/-! ## The host descriptors across a run -/

theorem close_config (m : Manager) (h : Host) : (m.close h).config = m.config := by
  unfold Manager.close
  split_ifs <;> rfl

theorem disconnectServers_config (m : Manager) : (disconnectServers m).config = m.config := by
  unfold disconnectServers
  simp only
  split_ifs <;> simp only [close_config]

/-- The descriptors after `connectServers`: each is passed through `NewClient`
when its client is created. -/
theorem connectServers_config (m : Manager) :
    (connectServers m).2.config =
      { m.config with
        Server1 := NewClient m.config.Server1,
        Server2 := if m.remote.dial .server1 = none then NewClient m.config.Server2
                   else m.config.Server2 } := by
  unfold connectServers
  simp only [Manager.log]
  cases h1 : m.remote.dial .server1 with
  | some e => simp
  | none =>
    simp only [if_true]
    cases h2 : m.remote.dial .server2 with
    | some e => simp only [close_config]
    | none => rfl

theorem SetupAll_config (m : Manager) :
    (SetupAll m).2.config =
      { m.config with
        Server1 := NewClient m.config.Server1,
        Server2 := if m.remote.dial .server1 = none then NewClient m.config.Server2
                   else m.config.Server2 } := by
  have hc := connectServers_config (m.log "Starting VPN chain setup...".toList)
  unfold SetupAll
  simp only
  cases hr : connectServers (m.log "Starting VPN chain setup...".toList) with
  | mk e m1 =>
    rw [hr] at hc
    cases e with
    | some err => exact hc
    | none =>
      simp only
      have hg := (stages_Grows m1).1
      cases hs : runSteps stageSteps m1 with
      | mk e2 m2 =>
        rw [hs] at hg
        cases e2 with
        | some err =>
          simp only
          rw [disconnectServers_config, hg]
          exact hc
        | none =>
          simp only
          rw [disconnectServers_config]
          exact hg.trans hc

set_option maxRecDepth 100000 in
/-- C23, as stated, fails: `NewClient` writes the default port into the
descriptor it is given, which is the caller's. A descriptor with Port 0 has
Port 22 after the run. -/
theorem C23_counterexample :
    freshManager.config.Server1.Port = 0 ∧
    (SetupAll freshManager).1 = none ∧
    (SetupAll freshManager).2.config.Server1.Port = 22 := by
  refine ⟨rfl, by decide, by decide⟩

/-- C23 (amended): after `SetupAll` returns, with or without error, the fields
Host, User, Password, KeyPath and KeyContent of Server1 and Server2 have the
values they had before the call, and so has a Port other than 0. A Port of 0
has become 22: for Server1 always, for Server2 when the connection to Server 1
succeeded. The other settings of the topology are unchanged. -/
theorem C23_descriptors (m : Manager) :
    ((SetupAll m).2.config.Server1.Host = m.config.Server1.Host ∧
     (SetupAll m).2.config.Server1.User = m.config.Server1.User ∧
     (SetupAll m).2.config.Server1.Password = m.config.Server1.Password ∧
     (SetupAll m).2.config.Server1.KeyPath = m.config.Server1.KeyPath ∧
     (SetupAll m).2.config.Server1.KeyContent = m.config.Server1.KeyContent) ∧
    ((SetupAll m).2.config.Server2.Host = m.config.Server2.Host ∧
     (SetupAll m).2.config.Server2.User = m.config.Server2.User ∧
     (SetupAll m).2.config.Server2.Password = m.config.Server2.Password ∧
     (SetupAll m).2.config.Server2.KeyPath = m.config.Server2.KeyPath ∧
     (SetupAll m).2.config.Server2.KeyContent = m.config.Server2.KeyContent) ∧
    (SetupAll m).2.config.Server1.Port =
      (if m.config.Server1.Port = 0 then 22 else m.config.Server1.Port) ∧
    (SetupAll m).2.config.Server2.Port =
      (if m.config.Server2.Port = 0 ∧ m.remote.dial .server1 = none then 22
       else m.config.Server2.Port) ∧
    (SetupAll m).2.config.VPNSubnet = m.config.VPNSubnet ∧
    (SetupAll m).2.config.TunnelSubnet = m.config.TunnelSubnet ∧
    (SetupAll m).2.config.Server1Domain = m.config.Server1Domain ∧
    (SetupAll m).2.config.Server2Domain = m.config.Server2Domain := by
  rw [SetupAll_config]
  have n1 : ∀ c : ServerConfig, (NewClient c).Host = c.Host ∧ (NewClient c).User = c.User ∧
      (NewClient c).Password = c.Password ∧ (NewClient c).KeyPath = c.KeyPath ∧
      (NewClient c).KeyContent = c.KeyContent ∧
      (NewClient c).Port = (if c.Port = 0 then 22 else c.Port) := by
    intro c
    unfold NewClient
    split_ifs <;> exact ⟨rfl, rfl, rfl, rfl, rfl, rfl⟩
  obtain ⟨a1, a2, a3, a4, a5, a6⟩ := n1 m.config.Server1
  obtain ⟨b1, b2, b3, b4, b5, b6⟩ := n1 m.config.Server2
  refine ⟨⟨a1, a2, a3, a4, a5⟩, ?_, a6, ?_, rfl, rfl, rfl, rfl⟩
  · simp only
    split_ifs
    · exact ⟨b1, b2, b3, b4, b5⟩
    · exact ⟨rfl, rfl, rfl, rfl, rfl⟩
  · simp only
    by_cases hd : m.remote.dial .server1 = none
    · rw [if_pos hd, b6]
      by_cases hp : m.config.Server2.Port = 0
      · rw [if_pos hp, if_pos ⟨hp, hd⟩]
      · rw [if_neg hp, if_neg (fun h => hp h.1)]
    · rw [if_neg hd, if_neg (fun h => hd h.2)]

/-! ## The tunnel stage -/

theorem eventsOf_setupTunnel (m : Manager) (c2 c1 : Str)
    (hc1 : m.client .server1 = some true) (hc2 : m.client .server2 = some true)
    (h2 : m.remote.answer .server2 m.trace ("cat ".toList ++ caCertPath) = .ok c2)
    (h1 : m.remote.answer .server1
      (m.trace ++ [.run .server2 ("cat ".toList ++ caCertPath),
        .run .server1 (teeCmd c2 server2CaPath)]) ("cat ".toList ++ caCertPath) = .ok c1) :
    (setupTunnel m).1 = none ∧ eventsOf setupTunnel m = tunnelEvents m c2 c1 := by
  refine ⟨setupTunnel_reads_ok m c2 c1 hc1 hc2 h2 h1, ?_⟩
  unfold eventsOf setupTunnel Manager.readFile tunnelEvents entryTunnelConf exitTunnelConf
  simp only [Manager.client] at hc1 hc2
  simp only [Manager.run, Manager.client, hc1, hc2, if_true, h2, List.append_assoc,
    List.singleton_append, List.cons_append, List.nil_append, h1, List.drop_left]

theorem tunnelConf1Lines_eq (host1 vpnSubnet host2 : Str) :
    tunnelConf1Lines host1 vpnSubnet host2 =
      (tunnelConf1Lines [] [] []).take 16 ++ (("    leftid=".toList ++ host1) ::
      (((tunnelConf1Lines [] [] []).drop 17).take 6 ++
        (("    rightsourceip=".toList ++ vpnSubnet) ::
      (((tunnelConf1Lines [] [] []).drop 24).take 9 ++ (("    leftid=".toList ++ host1) ::
      (((tunnelConf1Lines [] [] []).drop 34).take 3 ++
        (("    leftsubnet=".toList ++ vpnSubnet) :: ("    right=".toList ++ host2) ::
         ("    rightid=".toList ++ host2) :: (tunnelConf1Lines [] [] []).drop 40))))))) :=
  rfl

theorem tunnelConf2Lines_eq (host1 vpnSubnet host2 : Str) :
    tunnelConf2Lines host1 vpnSubnet host2 =
      (tunnelConf2Lines [] [] []).take 10 ++ (("    leftid=".toList ++ host2) ::
      (((tunnelConf2Lines [] [] []).drop 11).take 4 ++
        (("    right=".toList ++ host1) :: ("    rightid=".toList ++ host1) ::
      (((tunnelConf2Lines [] [] []).drop 17).take 1 ++
        (("    rightsubnet=".toList ++ vpnSubnet) :: (tunnelConf2Lines [] [] []).drop 19))))) :=
  rfl

theorem take_drop_no_newline (ls : List Str) (h : ∀ y ∈ ls, '\n' ∉ y) (n k : Nat) :
    ∀ x ∈ (ls.drop n).take k, '\n' ∉ x :=
  fun x hx => h x (List.mem_of_mem_drop (List.mem_of_mem_take hx))

theorem tunnelConf1_lines (host1 vpnSubnet host2 : Str)
    (h1 : '\n' ∉ host1) (hs : '\n' ∉ vpnSubnet) (h2 : '\n' ∉ host2) :
    splitLines (tunnelConf1 host1 vpnSubnet host2) = tunnelConf1Lines host1 vpnSubnet host2 := by
  unfold tunnelConf1
  apply splitLines_joinLines
  · rw [tunnelConf1Lines_eq]; simp
  · have hlit : ∀ y ∈ tunnelConf1Lines [] [] [], '\n' ∉ y := by decide
    have hall := take_drop_no_newline _ hlit
    have hall0 : ∀ k, ∀ x ∈ (tunnelConf1Lines [] [] []).take k, '\n' ∉ x :=
      fun k x hx => hall 0 k x hx
    have halld : ∀ n, ∀ x ∈ (tunnelConf1Lines [] [] []).drop n, '\n' ∉ x :=
      fun n x hx => hlit x (List.mem_of_mem_drop hx)
    intro l hl
    rw [tunnelConf1Lines_eq] at hl
    rcases List.mem_append.mp hl with h | h
    · exact hall0 _ l h
    rcases List.mem_cons.mp h with h | h
    · rw [h]; exact newline_not_mem_append _ _ (by decide) h1
    rcases List.mem_append.mp h with h | h
    · exact hall _ _ l h
    rcases List.mem_cons.mp h with h | h
    · rw [h]; exact newline_not_mem_append _ _ (by decide) hs
    rcases List.mem_append.mp h with h | h
    · exact hall _ _ l h
    rcases List.mem_cons.mp h with h | h
    · rw [h]; exact newline_not_mem_append _ _ (by decide) h1
    rcases List.mem_append.mp h with h | h
    · exact hall _ _ l h
    rcases List.mem_cons.mp h with h | h
    · rw [h]; exact newline_not_mem_append _ _ (by decide) hs
    rcases List.mem_cons.mp h with h | h
    · rw [h]; exact newline_not_mem_append _ _ (by decide) h2
    rcases List.mem_cons.mp h with h | h
    · rw [h]; exact newline_not_mem_append _ _ (by decide) h2
    · exact halld _ l h

theorem tunnelConf2_lines (host1 vpnSubnet host2 : Str)
    (h1 : '\n' ∉ host1) (hs : '\n' ∉ vpnSubnet) (h2 : '\n' ∉ host2) :
    splitLines (tunnelConf2 host1 vpnSubnet host2) = tunnelConf2Lines host1 vpnSubnet host2 := by
  unfold tunnelConf2
  apply splitLines_joinLines
  · rw [tunnelConf2Lines_eq]; simp
  · have hlit : ∀ y ∈ tunnelConf2Lines [] [] [], '\n' ∉ y := by decide
    have hall := take_drop_no_newline _ hlit
    have hall0 : ∀ k, ∀ x ∈ (tunnelConf2Lines [] [] []).take k, '\n' ∉ x :=
      fun k x hx => hall 0 k x hx
    have halld : ∀ n, ∀ x ∈ (tunnelConf2Lines [] [] []).drop n, '\n' ∉ x :=
      fun n x hx => hlit x (List.mem_of_mem_drop hx)
    intro l hl
    rw [tunnelConf2Lines_eq] at hl
    rcases List.mem_append.mp hl with h | h
    · exact hall0 _ l h
    rcases List.mem_cons.mp h with h | h
    · rw [h]; exact newline_not_mem_append _ _ (by decide) h2
    rcases List.mem_append.mp h with h | h
    · exact hall _ _ l h
    rcases List.mem_cons.mp h with h | h
    · rw [h]; exact newline_not_mem_append _ _ (by decide) h1
    rcases List.mem_cons.mp h with h | h
    · rw [h]; exact newline_not_mem_append _ _ (by decide) h1
    rcases List.mem_append.mp h with h | h
    · exact hall _ _ l h
    rcases List.mem_cons.mp h with h | h
    · rw [h]; exact newline_not_mem_append _ _ (by decide) hs
    · exact halld _ l h

/-- The lines of the entry host's text that open a connection definition. -/
theorem tunnelConf1_conn_lines (host1 vpnSubnet host2 : Str) :
    (tunnelConf1Lines host1 vpnSubnet host2).filter (fun l => HasPrefix l "conn".toList) =
      ["conn ikev2-vpn".toList, "conn tunnel-to-server2".toList] := rfl

/-- The lines of the exit host's text that open a connection definition. -/
theorem tunnelConf2_conn_lines (host1 vpnSubnet host2 : Str) :
    (tunnelConf2Lines host1 vpnSubnet host2).filter (fun l => HasPrefix l "conn".toList) =
      ["conn tunnel-from-server1".toList] := rfl

theorem filter_isConnLine (name : Str) (ls : List Str) :
    ls.filter (isConnLine name) =
      (ls.filter (fun l => HasPrefix l "conn".toList)).filter
        (fun l => Fields l == ["conn".toList, name]) := by
  rw [List.filter_filter]
  congr 1
  funext l
  exact Bool.and_comm _ _

theorem connCount_tunnelConf1 (name host1 vpnSubnet host2 : Str)
    (h1 : '\n' ∉ host1) (hs : '\n' ∉ vpnSubnet) (h2 : '\n' ∉ host2) :
    connCount name (tunnelConf1 host1 vpnSubnet host2) =
      (["conn ikev2-vpn".toList, "conn tunnel-to-server2".toList].filter
        (fun l => Fields l == ["conn".toList, name])).length := by
  unfold connCount
  rw [tunnelConf1_lines host1 vpnSubnet host2 h1 hs h2, filter_isConnLine,
    tunnelConf1_conn_lines]

theorem connCount_tunnelConf2 (name host1 vpnSubnet host2 : Str)
    (h1 : '\n' ∉ host1) (hs : '\n' ∉ vpnSubnet) (h2 : '\n' ∉ host2) :
    connCount name (tunnelConf2 host1 vpnSubnet host2) =
      (["conn tunnel-from-server1".toList].filter
        (fun l => Fields l == ["conn".toList, name])).length := by
  unfold connCount
  rw [tunnelConf2_lines host1 vpnSubnet host2 h1 hs h2, filter_isConnLine,
    tunnelConf2_conn_lines]

set_option maxRecDepth 100000 in
/-- C22, as stated, fails: the strings of the topology are copied into the
text as they are. With a client pool that holds a line break followed by
`conn ikev2-vpn`, the tunnel stage succeeds and the text it writes to the entry
host has three lines that open the definition `ikev2-vpn`. -/
theorem C22_counterexample :
    twoLinePoolManager.config.VPNSubnet = "10.10.10.0/24\nconn ikev2-vpn".toList ∧
    (setupTunnel twoLinePoolManager).1 = none ∧
    Event.run .server1 (teeCmd (escapeQuotes (entryTunnelConf twoLinePoolManager))
      ipsecConfPath) ∈ eventsOf setupTunnel twoLinePoolManager ∧
    connCount "ikev2-vpn".toList (entryTunnelConf twoLinePoolManager) = 3 := by
  refine ⟨rfl, by decide, by decide, by decide⟩

/-- C22 (amended): for every topology whose host addresses and client pool
hold no line break, the configuration text that the tunnel stage writes to the
entry host contains exactly one `conn tunnel-to-server2` definition and exactly
one `conn ikev2-vpn` definition, and the text written to the exit host contains
exactly one `conn tunnel-from-server1` definition; when the stage reads both
certificate authority files these two texts are what it writes to
`/etc/ipsec.conf` on the two hosts, once each. -/
theorem C22_one_definition (m : Manager)
    (h1 : '\n' ∉ m.config.Server1.Host) (hs : '\n' ∉ m.config.VPNSubnet)
    (h2 : '\n' ∉ m.config.Server2.Host) :
    connCount "tunnel-to-server2".toList (entryTunnelConf m) = 1 ∧
    connCount "ikev2-vpn".toList (entryTunnelConf m) = 1 ∧
    connCount "tunnel-from-server1".toList (exitTunnelConf m) = 1 ∧
    (∀ c2 c1 : Str, m.client .server1 = some true → m.client .server2 = some true →
      m.remote.answer .server2 m.trace ("cat ".toList ++ caCertPath) = .ok c2 →
      m.remote.answer .server1
        (m.trace ++ [.run .server2 ("cat ".toList ++ caCertPath),
          .run .server1 (teeCmd c2 server2CaPath)]) ("cat ".toList ++ caCertPath) = .ok c1 →
      (setupTunnel m).1 = none ∧ eventsOf setupTunnel m = tunnelEvents m c2 c1) := by
  refine ⟨?_, ?_, ?_, fun c2 c1 hc1 hc2 r2 r1 => eventsOf_setupTunnel m c2 c1 hc1 hc2 r2 r1⟩
  · unfold entryTunnelConf
    rw [connCount_tunnelConf1 _ _ _ _ h1 hs h2]
    decide
  · unfold entryTunnelConf
    rw [connCount_tunnelConf1 _ _ _ _ h1 hs h2]
    decide
  · unfold exitTunnelConf
    rw [connCount_tunnelConf2 _ _ _ _ h1 hs h2]
    decide

set_option maxRecDepth 100000 in
theorem C22_one_definition_witness :
    '\n' ∉ sampleManager.config.VPNSubnet ∧
    connCount "tunnel-to-server2".toList (entryTunnelConf sampleManager) = 1 ∧
    connCount "ikev2-vpn".toList (entryTunnelConf sampleManager) = 1 ∧
    connCount "tunnel-from-server1".toList (exitTunnelConf sampleManager) = 1 ∧
    eventsOf setupTunnel sampleManager =
      tunnelEvents sampleManager "eth0\n".toList "eth0\n".toList :=
  have w := C22_one_definition sampleManager (by decide) (by decide) (by decide)
  ⟨by decide, w.1, w.2.1, w.2.2.1,
    (w.2.2.2 "eth0\n".toList "eth0\n".toList rfl rfl rfl rfl).2⟩

/-! ## Discarded results -/

theorem libipsecStep_ok (m : Manager) (hc : m.client .server2 = some true) :
    (libipsecStep m).1 = none ∧ eventsOf libipsecStep m = [.run .server2 libipsecCmd] := by
  unfold eventsOf libipsecStep
  rw [run_connected m .server2 libipsecCmd hc]
  exact ⟨rfl, by simp only [List.drop_left]⟩

theorem configureIPsec_ok (h : Host) (serverIP subnet : Str) (isExitNode : Bool) (m : Manager)
    (o : Str) (hc : m.client h = some true)
    (hw : m.remote.answer h m.trace
      (teeCmd (escapeQuotes (ipsecConf isExitNode serverIP subnet)) ipsecConfPath) = .ok o) :
    (configureIPsec h serverIP subnet isExitNode m).1 = none ∧
    eventsOf (configureIPsec h serverIP subnet isExitNode) m =
      [.run h (teeCmd (escapeQuotes (ipsecConf isExitNode serverIP subnet)) ipsecConfPath),
       .run h (teeCmd charonConf charonPrioPath)] := by
  unfold eventsOf configureIPsec
  simp only [run_connected m h _ hc, hw]
  rw [run_connected _ _ _ (by cases h <;> exact hc)]
  exact ⟨trivial, by simp only [List.append_assoc, List.drop_left, List.singleton_append]⟩

theorem setupRouting_result (m : Manager) (hc : m.client .server1 = some true) :
    (setupRouting m).1 =
      (errOf (m.remote.answer .server1
        (m.trace ++ [.log "Configuring policy routing and fixing potential lockouts...".toList,
          .run .server1 ifaceCmd, .run .server1 (gwCmd (routingIface m))])
        (routingScriptOf m), m)).1 := by
  simp only [Manager.client] at hc
  simp only [setupRouting, Manager.run, Manager.log, Manager.client, hc,
    if_true, routingScriptOf, routingGw, routingIface, List.append_assoc,
    List.singleton_append, List.cons_append, List.nil_append]
  cases m.remote.answer Host.server1
    (m.trace ++ [Event.log "Configuring policy routing and fixing potential lockouts...".toList,
      Event.run Host.server1 ifaceCmd,
      Event.run Host.server1 (gwCmd (TrimSpace (outputOf (m.remote.answer Host.server1
        (m.trace ++ [Event.log
          "Configuring policy routing and fixing potential lockouts...".toList]) ifaceCmd))))])
    (routingScript m.config.Server1.Host m.config.Server2.Host
      (TrimSpace (outputOf (m.remote.answer Host.server1
        (m.trace ++ [Event.log
          "Configuring policy routing and fixing potential lockouts...".toList,
          Event.run Host.server1 ifaceCmd])
        (gwCmd (TrimSpace (outputOf (m.remote.answer Host.server1
          (m.trace ++ [Event.log
            "Configuring policy routing and fixing potential lockouts...".toList])
          ifaceCmd)))))))
      (TrimSpace (outputOf (m.remote.answer Host.server1
        (m.trace ++ [Event.log
          "Configuring policy routing and fixing potential lockouts...".toList]) ifaceCmd)))
      m.config.VPNSubnet) <;> rfl

set_option maxRecDepth 100000 in
/-- C21, as stated, fails: the results of these commands are discarded without
a call to the logger. On hosts where every one of them fails (the plugin
switch, the charon settings, the trust-store writes, the rewrites and restarts
of the tunnel stage, the interface and gateway detection of the routing
stage), SetupAll returns nil and the logger receives exactly the messages of a
run in which they all succeed. -/
theorem C21_counterexample :
    (∀ tr, silentFailures.answer .server2 tr libipsecCmd = .error "exit status 1".toList) ∧
    Event.run .server2 libipsecCmd ∈ (SetupAll (NewManager sampleConfig silentFailures)).2.trace ∧
    Event.run .server1 (teeCmd charonConf charonPrioPath) ∈
      (SetupAll (NewManager sampleConfig silentFailures)).2.trace ∧
    (SetupAll (NewManager sampleConfig silentFailures)).1 = none ∧
    logsOf (SetupAll (NewManager sampleConfig silentFailures)).2.trace =
      logsOf (SetupAll freshManager).2.trace := by
  refine ⟨fun _ => rfl, by decide, by decide, by decide, by decide⟩

/-- C21 (amended): a failure of a remote command whose result the run discards
causes no call to the logger. On connected hosts, whatever these commands
answer: the plugin switch adds only its command to the run and the step
returns nil; once the configuration file is written, `configureIPsec` adds only
its two commands and returns nil whatever the write of the charon settings
answers; once both certificate authority files are read, the tunnel stage adds
only its eight commands and returns nil; the routing stage adds its one fixed
message and three commands, and its result is the error of the last command
alone. -/
theorem C21_silent_discards (m : Manager)
    (hc1 : m.client .server1 = some true) (hc2 : m.client .server2 = some true) :
    ((libipsecStep m).1 = none ∧ eventsOf libipsecStep m = [.run .server2 libipsecCmd]) ∧
    (∀ (h : Host) (serverIP subnet : Str) (isExitNode : Bool) (o : Str),
      m.remote.answer h m.trace
        (teeCmd (escapeQuotes (ipsecConf isExitNode serverIP subnet)) ipsecConfPath) = .ok o →
      (configureIPsec h serverIP subnet isExitNode m).1 = none ∧
      eventsOf (configureIPsec h serverIP subnet isExitNode) m =
        [.run h (teeCmd (escapeQuotes (ipsecConf isExitNode serverIP subnet)) ipsecConfPath),
         .run h (teeCmd charonConf charonPrioPath)]) ∧
    (∀ c2 c1 : Str,
      m.remote.answer .server2 m.trace ("cat ".toList ++ caCertPath) = .ok c2 →
      m.remote.answer .server1
        (m.trace ++ [.run .server2 ("cat ".toList ++ caCertPath),
          .run .server1 (teeCmd c2 server2CaPath)]) ("cat ".toList ++ caCertPath) = .ok c1 →
      (setupTunnel m).1 = none ∧ eventsOf setupTunnel m = tunnelEvents m c2 c1 ∧
      logsOf (eventsOf setupTunnel m) = []) ∧
    (eventsOf setupRouting m =
      [.log "Configuring policy routing and fixing potential lockouts...".toList,
       .run .server1 ifaceCmd, .run .server1 (gwCmd (routingIface m)),
       .run .server1 (routingScriptOf m)] ∧
     (setupRouting m).1 =
      (errOf (m.remote.answer .server1
        (m.trace ++ [.log "Configuring policy routing and fixing potential lockouts...".toList,
          .run .server1 ifaceCmd, .run .server1 (gwCmd (routingIface m))])
        (routingScriptOf m), m)).1) := by
  refine ⟨libipsecStep_ok m hc2, ?_, ?_, eventsOf_setupRouting m hc1, setupRouting_result m hc1⟩
  · intro h serverIP subnet isExitNode o hw
    exact configureIPsec_ok h serverIP subnet isExitNode m o (by cases h <;> assumption) hw
  · intro c2 c1 r2 r1
    obtain ⟨e1, e2⟩ := eventsOf_setupTunnel m c2 c1 hc1 hc2 r2 r1
    refine ⟨e1, e2, ?_⟩
    rw [e2]
    rfl

set_option maxRecDepth 100000 in
theorem C21_silent_discards_witness :
    (connected (NewManager sampleConfig silentFailures)).client .server1 = some true ∧
    (libipsecStep (connected (NewManager sampleConfig silentFailures))).1 = none ∧
    eventsOf libipsecStep (connected (NewManager sampleConfig silentFailures)) =
      [.run .server2 libipsecCmd] ∧
    (setupTunnel (connected (NewManager sampleConfig silentFailures))).1 = none ∧
    logsOf (eventsOf setupTunnel (connected (NewManager sampleConfig silentFailures))) = [] :=
  have w := C21_silent_discards (connected (NewManager sampleConfig silentFailures)) rfl rfl
  have t := w.2.2.1 "eth0\n".toList "eth0\n".toList rfl rfl
  ⟨rfl, w.1.1, w.1.2, t.1, t.2.2⟩

/-! ## `RemoveUser` and the other users -/

/-- C25 at the failing input: `a.c` is a user name `AddUser` accepts; the file
lists `abc` and `a.c`; `RemoveUser` of `a.c` sends `sed -i '/^a.c : EAP/d'`,
whose dot matches the `b` of `abc`, so both lines go, only the key line stays,
and `abc` is no longer listed. -/
theorem C25_dot_removes_other :
    ContainsAny dotUser forbiddenChars = false ∧
    (ListUsers (dotManager dotSecrets)).1 = .ok [userOf "abc".toList, userOf dotUser] ∧
    (RemoveUser (dotManager dotSecrets) dotUser).1 = none ∧
    (RemoveUser (dotManager dotSecrets) dotUser).2.client.sent =
      [removeCmd dotUser, rereadCmd] ∧
    removeCmd dotUser = "sed -i '/^a.c : EAP/d' /etc/ipsec.secrets".toList ∧
    (RemoveUser (dotManager dotSecrets) dotUser).2.client.secrets =
      ": RSA server-key.pem\n".toList ∧
    (ListUsers (RemoveUser (dotManager dotSecrets) dotUser).2).1 = .ok [] := by
  refine ⟨by decide, rfl, rfl, by decide, by decide, by decide, rfl⟩

/-! ## Two runs that differ in the tunnel pool -/

theorem otherEvents_append (a b : List Event) :
    otherEvents (a ++ b) = otherEvents a ++ otherEvents b := by
  unfold otherEvents
  rw [List.filter_append]

theorem Twin_log (t2 : Str) (m1 m2 : Manager) (tw : Twin t2 m1 m2) (msg : Str) :
    Twin t2 (m1.log msg) (m2.log msg) := by
  obtain ⟨a, b, c, d, e, f⟩ := tw
  refine ⟨a, b, c, d, e, ?_⟩
  simp only [Manager.log, otherEvents_append, f]

theorem Twin_client (t2 : Str) (m1 m2 : Manager) (tw : Twin t2 m1 m2) (h : Host) :
    m2.client h = m1.client h := by
  obtain ⟨_, _, c, d, _, _⟩ := tw
  cases h
  · exact c
  · exact d

/-- The same command in both runs: same answer, and the states stay twins. -/
theorem Twin_run (t2 : Str) (m1 m2 : Manager) (tw : Twin t2 m1 m2) (h : Host) (cmd : Str) :
    (m1.run h cmd).1 = (m2.run h cmd).1 ∧ Twin t2 (m1.run h cmd).2 (m2.run h cmd).2 := by
  have hc := Twin_client t2 m1 m2 tw h
  obtain ⟨a, b, c, d, e, f⟩ := tw
  unfold Manager.run
  rw [hc]
  by_cases hcon : m1.client h = some true
  · rw [if_pos hcon, if_pos hcon]
    refine ⟨?_, a, b, c, d, e, ?_⟩
    · simp only
      rw [b]
      exact a h _ _ cmd f
    · simp only [otherEvents_append, f]
  · rw [if_neg hcon, if_neg hcon]
    exact ⟨rfl, a, b, c, d, e, f⟩

/-- The two writes of the exit host's first-stage configuration: the states stay twins. -/
theorem Twin_run_conf (t2 : Str) (m1 m2 : Manager) (tw : Twin t2 m1 m2) (cmd1 cmd2 : Str)
    (h1 : HasPrefix cmd1 exitConfHead = true) (h2 : HasPrefix cmd2 exitConfHead = true) :
    Twin t2 (m1.run .server2 cmd1).2 (m2.run .server2 cmd2).2 := by
  have hc := Twin_client t2 m1 m2 tw .server2
  obtain ⟨a, b, c, d, e, f⟩ := tw
  unfold Manager.run
  rw [hc]
  by_cases hcon : m1.client .server2 = some true
  · rw [if_pos hcon, if_pos hcon]
    refine ⟨a, b, c, d, e, ?_⟩
    have e1 : otherEvents [Event.run Host.server2 cmd1] = [] := by
      simp only [otherEvents, List.filter, isExitConfWrite, h1, Bool.not_true]
    have e2 : otherEvents [Event.run Host.server2 cmd2] = [] := by
      simp only [otherEvents, List.filter, isExitConfWrite, h2, Bool.not_true]
    simp only [otherEvents_append, f, e1, e2]
  · rw [if_neg hcon, if_neg hcon]
    exact ⟨a, b, c, d, e, f⟩

theorem Sim.ok (t2 : Str) (s1 s2 : Step) (h : Sim t2 s1 s2) : SimOk t2 s1 s2 :=
  fun m1 m2 tw _ _ => (h m1 m2 tw).2

theorem errOf_fst_congr (x y : Except Str Str × Manager) (h : x.1 = y.1) :
    (errOf x).1 = (errOf y).1 := by
  obtain ⟨a, m⟩ := x
  obtain ⟨b, n⟩ := y
  simp only at h
  subst h
  cases a <;> rfl

theorem wrapErr_fst_congr (pre : Str) (x y : Option Str × Manager) (h : x.1 = y.1) :
    (wrapErr pre x).1 = (wrapErr pre y).1 := by
  obtain ⟨a, m⟩ := x
  obtain ⟨b, n⟩ := y
  simp only at h
  subst h
  cases a <;> rfl

/-- A step that logs, runs one command and returns its error, wrapped. -/
theorem Sim_log_run (t2 : Str) (msg pre cmd : Str) (h : Host) :
    Sim t2 (fun m => wrapErr pre (errOf ((m.log msg).run h cmd)))
      (fun m => wrapErr pre (errOf ((m.log msg).run h cmd))) := by
  intro m1 m2 tw
  obtain ⟨r, t⟩ := Twin_run t2 _ _ (Twin_log t2 m1 m2 tw msg) h cmd
  refine ⟨wrapErr_fst_congr _ _ _ (errOf_fst_congr _ _ r), ?_⟩
  rw [wrapErr_snd, wrapErr_snd, errOf_snd, errOf_snd]
  exact t

theorem forwardStep_Sim (t2 : Str) (h : Host) (tag : Str) :
    Sim t2 (forwardStep h tag) (forwardStep h tag) :=
  Sim_log_run t2 _ _ _ h

theorem restartStep_Sim (t2 : Str) (h : Host) (tag : Str) :
    Sim t2 (restartStep h tag) (restartStep h tag) :=
  Sim_log_run t2 _ _ _ h

theorem libipsecStep_Sim (t2 : Str) : Sim t2 libipsecStep libipsecStep := by
  intro m1 m2 tw
  exact ⟨rfl, (Twin_run t2 m1 m2 tw .server2 libipsecCmd).2⟩

theorem installStep_Sim (t2 : Str) (h : Host) (tag cmd : Str) :
    Sim t2 (installStep h tag cmd) (installStep h tag cmd) := by
  intro m1 m2 tw
  obtain ⟨r, t⟩ := Twin_run t2 _ _
    (Twin_log t2 m1 m2 tw (tag ++ " Checking StrongSwan installation...".toList)) h whichCmd
  unfold installStep
  simp only
  rw [← r]
  cases hres : ((m1.log (tag ++ " Checking StrongSwan installation...".toList)).run h
      whichCmd).1 with
  | ok o =>
    simp only
    exact ⟨trivial, Twin_log t2 _ _ t _⟩
  | error e =>
    simp only
    obtain ⟨r2, t3⟩ := Twin_run t2 _ _
      (Twin_log t2 _ _ t (tag ++ " Installing StrongSwan...".toList)) h cmd
    refine ⟨wrapErr_fst_congr _ _ _ (errOf_fst_congr _ _ r2), ?_⟩
    rw [wrapErr_snd, wrapErr_snd, errOf_snd, errOf_snd]
    exact t3

theorem certStep_Sim (t2 : Str) (h : Host) (tag domain ip caName : Str) :
    Sim t2 (certStep h tag domain ip caName) (certStep h tag domain ip caName) := by
  intro m1 m2 tw
  obtain ⟨r, t⟩ := Twin_run t2 _ _
    (Twin_log t2 m1 m2 tw (tag ++ " Checking certificates...".toList)) h checkCertCmd
  unfold certStep
  simp only
  rw [← r]
  cases hres : ((m1.log (tag ++ " Checking certificates...".toList)).run h checkCertCmd).1 with
  | ok o =>
    simp only
    exact ⟨trivial, Twin_log t2 _ _ t _⟩
  | error e =>
    simp only
    obtain ⟨r2, t3⟩ := Twin_run t2 _ _
      (Twin_log t2 _ _ t (tag ++ " Generating certificates...".toList)) h (certScript caName ip)
    unfold generateCertificates
    refine ⟨wrapErr_fst_congr _ _ _ (errOf_fst_congr _ _ r2), ?_⟩
    rw [wrapErr_snd, wrapErr_snd, errOf_snd, errOf_snd]
    exact t3

theorem configureIPsec_Sim (t2 : Str) (h : Host) (serverIP subnet : Str) (isExitNode : Bool) :
    Sim t2 (configureIPsec h serverIP subnet isExitNode)
      (configureIPsec h serverIP subnet isExitNode) := by
  intro m1 m2 tw
  obtain ⟨r, t⟩ := Twin_run t2 _ _ tw h
    (teeCmd (escapeQuotes (ipsecConf isExitNode serverIP subnet)) ipsecConfPath)
  unfold configureIPsec
  simp only
  rw [← r]
  cases hres : (m1.run h
      (teeCmd (escapeQuotes (ipsecConf isExitNode serverIP subnet)) ipsecConfPath)).1 with
  | error e =>
    simp only
    exact ⟨trivial, t⟩
  | ok o =>
    simp only
    exact ⟨trivial, (Twin_run t2 _ _ t h (teeCmd charonConf charonPrioPath)).2⟩

theorem Sim_log_wrap (t2 : Str) (msg pre : Str) (s1 s2 : Step) (hs : Sim t2 s1 s2) :
    Sim t2 (fun m => wrapErr pre (s1 (m.log msg))) (fun m => wrapErr pre (s2 (m.log msg))) := by
  intro m1 m2 tw
  obtain ⟨r, t⟩ := hs _ _ (Twin_log t2 m1 m2 tw msg)
  refine ⟨wrapErr_fst_congr _ _ _ r, ?_⟩
  rw [wrapErr_snd, wrapErr_snd]
  exact t

theorem SimOk_log_wrap (t2 : Str) (msg pre : Str) (s1 s2 : Step) (hs : SimOk t2 s1 s2) :
    SimOk t2 (fun m => wrapErr pre (s1 (m.log msg)))
      (fun m => wrapErr pre (s2 (m.log msg))) := by
  intro m1 m2 tw h1 h2
  have w : ∀ (x : Option Str × Manager), (wrapErr pre x).1 = none → x.1 = none := by
    intro x hx
    obtain ⟨a, m⟩ := x
    cases a with
    | none => rfl
    | some e => simp only [wrapErr] at hx; cases hx
  simp only at h1 h2 ⊢
  rw [wrapErr_snd, wrapErr_snd]
  exact hs _ _ (Twin_log t2 m1 m2 tw msg) (w _ h1) (w _ h2)

theorem ipsecStep_Sim (t2 : Str) (h : Host) (tag serverIP subnet : Str) (isExitNode : Bool) :
    Sim t2 (ipsecStep h tag serverIP subnet isExitNode)
      (ipsecStep h tag serverIP subnet isExitNode) :=
  Sim_log_wrap t2 _ _ _ _ (configureIPsec_Sim t2 h serverIP subnet isExitNode)

theorem configureFirewall_Sim (t2 : Str) (h : Host) (isExitNode : Bool) :
    Sim t2 (configureFirewall h isExitNode) (configureFirewall h isExitNode) := by
  intro m1 m2 tw
  obtain ⟨r, t⟩ := Twin_run t2 _ _ tw h ifaceCmd
  unfold configureFirewall
  simp only
  rw [← r]
  cases hres : (m1.run h ifaceCmd).1 with
  | error e =>
    simp only
    exact ⟨trivial, t⟩
  | ok o =>
    simp only
    obtain ⟨r2, t3⟩ := Twin_run t2 _ _ t h (firewallScript (TrimSpace o))
    refine ⟨errOf_fst_congr _ _ r2, ?_⟩
    rw [errOf_snd, errOf_snd]
    exact t3

theorem firewallStep_Sim (t2 : Str) (h : Host) (tag : Str) (isExitNode : Bool) :
    Sim t2 (firewallStep h tag isExitNode) (firewallStep h tag isExitNode) :=
  Sim_log_wrap t2 _ _ _ _ (configureFirewall_Sim t2 h isExitNode)

theorem exitConfWrite_head (host2 t : Str) :
    HasPrefix (teeCmd (escapeQuotes (ipsecConf true host2 t)) ipsecConfPath) exitConfHead =
      true := rfl

/-- The exit host's first-stage configuration, for two tunnel pools: when both
writes succeed the states stay twins. -/
theorem configureIPsec_SimOk (t2 : Str) (host2 ta tb : Str) :
    SimOk t2 (configureIPsec .server2 host2 ta true) (configureIPsec .server2 host2 tb true) := by
  intro m1 m2 tw h1 h2
  have t := Twin_run_conf t2 m1 m2 tw _ _ (exitConfWrite_head host2 ta)
    (exitConfWrite_head host2 tb)
  unfold configureIPsec at h1 h2 ⊢
  simp only at h1 h2 ⊢
  cases hr1 : (m1.run .server2
      (teeCmd (escapeQuotes (ipsecConf true host2 ta)) ipsecConfPath)).1 with
  | error e => rw [hr1] at h1; simp only at h1; cases h1
  | ok o1 =>
    cases hr2 : (m2.run .server2
        (teeCmd (escapeQuotes (ipsecConf true host2 tb)) ipsecConfPath)).1 with
    | error e => rw [hr2] at h2; simp only at h2; cases h2
    | ok o2 =>
      simp only
      exact (Twin_run t2 _ _ t .server2 (teeCmd charonConf charonPrioPath)).2

theorem ipsecStep_SimOk (t2 : Str) (host2 ta tb : Str) :
    SimOk t2 (ipsecStep .server2 tag2 host2 ta true) (ipsecStep .server2 tag2 host2 tb true) :=
  SimOk_log_wrap t2 _ _ _ _ (configureIPsec_SimOk t2 host2 ta tb)

theorem SimOk_runSteps_nil (t2 : Str) : SimOk t2 (runSteps []) (runSteps []) :=
  fun _ _ tw _ _ => tw

theorem SimOk_runSteps_cons (t2 : Str) (s1 s2 : Step) (r1 r2 : List Step)
    (h : SimOk t2 s1 s2) (hr : SimOk t2 (runSteps r1) (runSteps r2)) :
    SimOk t2 (runSteps (s1 :: r1)) (runSteps (s2 :: r2)) := by
  intro m1 m2 tw h1 h2
  unfold runSteps at h1 h2 ⊢
  cases hs1 : s1 m1 with
  | mk e1 n1 =>
    cases hs2 : s2 m2 with
    | mk e2 n2 =>
      rw [hs1] at h1
      rw [hs2] at h2
      cases e1 with
      | some err => simp only at h1; cases h1
      | none =>
        cases e2 with
        | some err => simp only at h2; cases h2
        | none =>
          simp only at h1 h2 ⊢
          have t := h m1 m2 tw (by rw [hs1]) (by rw [hs2])
          rw [hs1, hs2] at t
          exact hr n1 n2 t h1 h2

theorem setupServer2_SimOk (t2 : Str) : SimOk t2 setupServer2 setupServer2 := by
  intro m1 m2 tw
  have e := tw.2.2.2.2.1
  unfold setupServer2
  simp only [server2Steps, e]
  exact SimOk_runSteps_cons t2 _ _ _ _ (installStep_Sim t2 _ _ _).ok
    (SimOk_runSteps_cons t2 _ _ _ _ (libipsecStep_Sim t2).ok
    (SimOk_runSteps_cons t2 _ _ _ _ (forwardStep_Sim t2 _ _).ok
    (SimOk_runSteps_cons t2 _ _ _ _ (certStep_Sim t2 _ _ _ _ _).ok
    (SimOk_runSteps_cons t2 _ _ _ _ (ipsecStep_SimOk t2 _ _ _)
    (SimOk_runSteps_cons t2 _ _ _ _ (firewallStep_Sim t2 _ _ _).ok
    (SimOk_runSteps_cons t2 _ _ _ _ (restartStep_Sim t2 _ _).ok
    (SimOk_runSteps_nil t2))))))) m1 m2 tw

theorem setupServer1_SimOk (t2 : Str) : SimOk t2 setupServer1 setupServer1 := by
  intro m1 m2 tw
  have e := tw.2.2.2.2.1
  unfold setupServer1
  simp only [server1Steps, e]
  exact SimOk_runSteps_cons t2 _ _ _ _ (installStep_Sim t2 _ _ _).ok
    (SimOk_runSteps_cons t2 _ _ _ _ (forwardStep_Sim t2 _ _).ok
    (SimOk_runSteps_cons t2 _ _ _ _ (certStep_Sim t2 _ _ _ _ _).ok
    (SimOk_runSteps_cons t2 _ _ _ _ (ipsecStep_Sim t2 _ _ _ _ _).ok
    (SimOk_runSteps_cons t2 _ _ _ _ (firewallStep_Sim t2 _ _ _).ok
    (SimOk_runSteps_cons t2 _ _ _ _ (restartStep_Sim t2 _ _).ok
    (SimOk_runSteps_nil t2)))))) m1 m2 tw

theorem setupTunnel_Sim (t2 : Str) : Sim t2 setupTunnel setupTunnel := by
  intro m1 m2 tw
  have e := tw.2.2.2.2.1
  obtain ⟨r, t⟩ := Twin_run t2 _ _ tw .server2 ("cat ".toList ++ caCertPath)
  unfold setupTunnel Manager.readFile
  simp only [e]
  rw [← r]
  cases hres : (m1.run .server2 ("cat ".toList ++ caCertPath)).1 with
  | error err =>
    simp only
    exact ⟨trivial, t⟩
  | ok caCert2 =>
    simp only
    have ta := (Twin_run t2 _ _ t .server1 (teeCmd caCert2 server2CaPath)).2
    obtain ⟨rb, tb⟩ := Twin_run t2 _ _ ta .server1 ("cat ".toList ++ caCertPath)
    rw [← rb]
    cases hres1 : (((m1.run .server2 ("cat ".toList ++ caCertPath)).2.run .server1
        (teeCmd caCert2 server2CaPath)).2.run .server1 ("cat ".toList ++ caCertPath)).1 with
    | error err =>
      simp only
      exact ⟨trivial, tb⟩
    | ok caCert1 =>
      simp only
      have tc := (Twin_run t2 _ _ tb .server2 (teeCmd caCert1 server1CaPath)).2
      have td := (Twin_run t2 _ _ tc .server1 (teeCmd (escapeQuotes (tunnelConf1
        m1.config.Server1.Host m1.config.VPNSubnet m1.config.Server2.Host)) ipsecConfPath)).2
      have te := (Twin_run t2 _ _ td .server2 (teeCmd (escapeQuotes (tunnelConf2
        m1.config.Server1.Host m1.config.VPNSubnet m1.config.Server2.Host)) ipsecConfPath)).2
      have tf := (Twin_run t2 _ _ te .server1 restartCmd).2
      exact ⟨trivial, (Twin_run t2 _ _ tf .server2 restartCmd).2⟩

theorem setupRouting_Sim (t2 : Str) : Sim t2 setupRouting setupRouting := by
  intro m1 m2 tw
  have e := tw.2.2.2.2.1
  have t0 := Twin_log t2 m1 m2 tw
    "Configuring policy routing and fixing potential lockouts...".toList
  obtain ⟨r, t⟩ := Twin_run t2 _ _ t0 .server1 ifaceCmd
  unfold setupRouting
  simp only [e]
  rw [← r]
  obtain ⟨rb, tb⟩ := Twin_run t2 _ _ t .server1 (gwCmd (TrimSpace (outputOf
    ((m1.log "Configuring policy routing and fixing potential lockouts...".toList).run
      .server1 ifaceCmd).1)))
  rw [← rb]
  obtain ⟨rc, tc⟩ := Twin_run t2 _ _ tb .server1 (routingScript m1.config.Server1.Host
    m1.config.Server2.Host
    (TrimSpace (outputOf
      (((m1.log "Configuring policy routing and fixing potential lockouts...".toList).run
        .server1 ifaceCmd).2.run .server1 (gwCmd (TrimSpace (outputOf
          ((m1.log "Configuring policy routing and fixing potential lockouts...".toList).run
            .server1 ifaceCmd).1)))).1))
    (TrimSpace (outputOf
      ((m1.log "Configuring policy routing and fixing potential lockouts...".toList).run
        .server1 ifaceCmd).1))
    m1.config.VPNSubnet)
  refine ⟨errOf_fst_congr _ _ rc, ?_⟩
  rw [errOf_snd, errOf_snd]
  exact tc

theorem stageSteps_SimOk (t2 : Str) : SimOk t2 (runSteps stageSteps) (runSteps stageSteps) := by
  unfold stageSteps
  exact SimOk_runSteps_cons t2 _ _ _ _ (SimOk_log_wrap t2 _ _ _ _ (setupServer2_SimOk t2))
    (SimOk_runSteps_cons t2 _ _ _ _ (SimOk_log_wrap t2 _ _ _ _ (setupServer1_SimOk t2))
    (SimOk_runSteps_cons t2 _ _ _ _ (SimOk_log_wrap t2 _ _ _ _ (setupTunnel_Sim t2).ok)
    (SimOk_runSteps_cons t2 _ _ _ _ (SimOk_log_wrap t2 _ _ _ _ (setupRouting_Sim t2).ok)
    (SimOk_runSteps_nil t2))))

theorem Twin_close (t2 : Str) (m1 m2 : Manager) (tw : Twin t2 m1 m2) (h : Host) :
    Twin t2 (m1.close h) (m2.close h) := by
  have hc := Twin_client t2 m1 m2 tw h
  obtain ⟨a, b, c, d, e, f⟩ := tw
  unfold Manager.close
  rw [hc]
  by_cases hcon : m1.client h = some true
  · rw [if_pos hcon, if_pos hcon]
    refine ⟨a, b, c, d, e, ?_⟩
    simp only [otherEvents_append, f]
  · rw [if_neg hcon, if_neg hcon]
    exact ⟨a, b, c, d, e, f⟩

theorem Twin_disconnect (t2 : Str) (m1 m2 : Manager) (tw : Twin t2 m1 m2) :
    Twin t2 (disconnectServers m1) (disconnectServers m2) := by
  have c1 : m2.client1 = m1.client1 := tw.2.2.1
  have c2 : m2.client2 = m1.client2 := tw.2.2.2.1
  have k1 : ∀ (n : Manager) (h : Host), (n.close h).client2 = n.client2 := by
    intro n h
    unfold Manager.close
    split_ifs <;> rfl
  unfold disconnectServers
  simp only [c1]
  by_cases h1 : m1.client1 ≠ none
  · simp only [if_pos h1, k1, c2]
    have ta := Twin_close t2 m1 m2 tw .server1
    by_cases h2 : m1.client2 ≠ none
    · simp only [if_pos h2]
      exact Twin_close t2 _ _ ta .server2
    · simp only [if_neg h2]
      exact ta
  · simp only [if_neg h1, c2]
    by_cases h2 : m1.client2 ≠ none
    · simp only [if_pos h2]
      exact Twin_close t2 _ _ tw .server2
    · simp only [if_neg h2]
      exact tw

/-- A run that returns nil has connected to both hosts. -/
theorem SetupAll_ok_dial (m : Manager) (h : (SetupAll m).1 = none) :
    m.remote.dial .server1 = none ∧ m.remote.dial .server2 = none := by
  have key : (connectServers (m.log "Starting VPN chain setup...".toList)).1 = none := by
    unfold SetupAll at h
    simp only at h
    cases hc : connectServers (m.log "Starting VPN chain setup...".toList) with
    | mk r m1 =>
      rw [hc] at h
      cases r with
      | none => rfl
      | some err => simp only at h; cases h
  have hr : (m.log "Starting VPN chain setup...".toList).remote = m.remote := rfl
  cases hd1 : m.remote.dial .server1 with
  | some e =>
    have := (connectServers_fail1 (m.log "Starting VPN chain setup...".toList) e
      (by rw [hr]; exact hd1)).1
    rw [key] at this
    cases this
  | none =>
    cases hd2 : m.remote.dial .server2 with
    | some e =>
      have := (connectServers_fail2 (m.log "Starting VPN chain setup...".toList) e
        (by rw [hr]; exact hd1) (by rw [hr]; exact hd2)).1
      rw [key] at this
      cases this
    | none => exact ⟨rfl, rfl⟩

theorem Twin_connected (c : SetupConfig) (t : Str) (R : Remote) (hR : PoolBlind R)
    (hd1 : R.dial .server1 = none) (hd2 : R.dial .server2 = none) :
    Twin t (connected (NewManager c R))
      (connected (NewManager { c with TunnelSubnet := t } R)) := by
  unfold connected
  rw [connectServers_ok _ hd1 hd2, connectServers_ok _ hd1 hd2]
  exact ⟨hR, rfl, rfl, rfl, rfl, rfl⟩

/-- The run after the connection: its result is nil exactly when the stages succeed. -/
theorem SetupAll_ok_stages (m : Manager) (hd1 : m.remote.dial .server1 = none)
    (hd2 : m.remote.dial .server2 = none) (h : (SetupAll m).1 = none) :
    (runSteps stageSteps (connected m)).1 = none ∧
    (SetupAll m).2 = disconnectServers ((runSteps stageSteps (connected m)).2.log doneMsg) := by
  rw [SetupAll_connected m hd1 hd2] at h ⊢
  cases hr : runSteps stageSteps (connected m) with
  | mk r m2 =>
    rw [hr] at h
    cases r with
    | some err => simp only at h; cases h
    | none => exact ⟨rfl, rfl⟩

theorem firewallScript_other (h : Host) (iface : Str) :
    isExitConfWrite (.run h (firewallScript iface)) = false := by
  cases h <;> rfl

theorem routingScript_other (h : Host) (host1 host2 gw iface vpnSubnet : Str) :
    isExitConfWrite (.run h (routingScript host1 host2 gw iface vpnSubnet)) = false := by
  cases h <;> rfl

theorem tunnelConf_other (h : Host) (host1 vpnSubnet host2 : Str) :
    isExitConfWrite (.run h (teeCmd (escapeQuotes (tunnelConf1 host1 vpnSubnet host2))
      ipsecConfPath)) = false ∧
    isExitConfWrite (.run h (teeCmd (escapeQuotes (tunnelConf2 host1 vpnSubnet host2))
      ipsecConfPath)) = false := by
  cases h <;> exact ⟨rfl, rfl⟩

theorem SetupAll_Twin (c : SetupConfig) (t : Str) (R : Remote) (hR : PoolBlind R)
    (h1 : (SetupAll (NewManager c R)).1 = none)
    (h2 : (SetupAll (NewManager { c with TunnelSubnet := t } R)).1 = none) :
    Twin t (SetupAll (NewManager c R)).2
      (SetupAll (NewManager { c with TunnelSubnet := t } R)).2 := by
  obtain ⟨hd1, hd2⟩ := SetupAll_ok_dial _ h1
  have hd1b : (NewManager { c with TunnelSubnet := t } R).remote.dial .server1 = none := hd1
  have hd2b : (NewManager { c with TunnelSubnet := t } R).remote.dial .server2 = none := hd2
  obtain ⟨s1, e1⟩ := SetupAll_ok_stages _ hd1 hd2 h1
  obtain ⟨s2, e2⟩ := SetupAll_ok_stages _ hd1b hd2b h2
  rw [e1, e2]
  exact Twin_disconnect t _ _ (Twin_log t _ _
    (stageSteps_SimOk t _ _ (Twin_connected c t R hR hd1 hd2) s1 s2) doneMsg)

theorem Grows_trace (P : Event → Prop) (m1 m2 : Manager) (g : Grows P m1 m2) (ev : Event)
    (h : ev ∈ m1.trace) : ev ∈ m2.trace := by
  obtain ⟨_, _, _, _, evs, e, _⟩ := g
  rw [e]
  exact List.mem_append_left _ h

/-- A tunnel stage that returns nil on connected hosts has sent its eight commands. -/
theorem setupTunnel_ok_events (m : Manager) (hc1 : m.client .server1 = some true)
    (hc2 : m.client .server2 = some true) (h : (setupTunnel m).1 = none) :
    ∃ c2 c1, (setupTunnel m).2.trace = m.trace ++ tunnelEvents m c2 c1 := by
  cases r2 : m.remote.answer .server2 m.trace ("cat ".toList ++ caCertPath) with
  | error e =>
    rw [setupTunnel_read2_failed m e hc2 r2] at h
    cases h
  | ok c2 =>
    cases r1 : m.remote.answer .server1
        (m.trace ++ [.run .server2 ("cat ".toList ++ caCertPath),
          .run .server1 (teeCmd c2 server2CaPath)]) ("cat ".toList ++ caCertPath) with
    | error e =>
      rw [setupTunnel_read1_failed m c2 e hc1 hc2 r2 r1] at h
      cases h
    | ok c1 =>
      refine ⟨c2, c1, ?_⟩
      have e := (eventsOf_setupTunnel m c2 c1 hc1 hc2 r2 r1).2
      obtain ⟨_, _, _, _, evs, g5, _⟩ := setupTunnel_Grows m
      unfold eventsOf at e
      rw [g5, List.drop_left] at e
      rw [g5, e]

/-- A run that returns nil has written the tunnel-stage configuration to both hosts. -/
theorem SetupAll_ok_tunnel_writes (m : Manager) (h : (SetupAll m).1 = none) :
    Event.run .server1 (teeCmd (escapeQuotes (tunnelConf1 m.config.Server1.Host
      m.config.VPNSubnet m.config.Server2.Host)) ipsecConfPath) ∈ (SetupAll m).2.trace ∧
    Event.run .server2 (teeCmd (escapeQuotes (tunnelConf2 m.config.Server1.Host
      m.config.VPNSubnet m.config.Server2.Host)) ipsecConfPath) ∈ (SetupAll m).2.trace := by
  obtain ⟨hd1, hd2⟩ := SetupAll_ok_dial m h
  obtain ⟨cc1, cc2, _, _⟩ := connected_clients m hd1 hd2
  have hcfg : (connected m).config =
      { m.config with Server1 := NewClient m.config.Server1,
                      Server2 := NewClient m.config.Server2 } := by
    unfold connected
    rw [connectServers_ok (m.log startMsg) hd1 hd2]
    rfl
  have g2 : Grows isWork (connected m) (stage2 m).2 :=
    (Grows_log _ _ server2Msg trivial).trans ((setupServer2_Grows _).mono (onHost_isWork _))
  have g1 : Grows isWork (connected m) ((stage1 m).2.log tunnelMsg) :=
    g2.trans ((Grows_log _ _ server1Msg trivial).trans
      (((setupServer1_Grows _).mono (onHost_isWork _)).trans (Grows_log _ _ tunnelMsg trivial)))
  have hS := SetupAll_stages m hd1 hd2
  rw [hS] at h ⊢
  cases h2 : (stage2 m).1 with
  | some e => rw [h2] at h; simp only at h; cases h
  | none =>
    rw [h2] at h
    simp only at h ⊢
    cases h1 : (stage1 m).1 with
    | some e => rw [h1] at h; simp only at h; cases h
    | none =>
      rw [h1] at h
      simp only at h ⊢
      cases hT : (stageT m).1 with
      | some e => rw [hT] at h; simp only at h; cases h
      | none =>
        rw [hT] at h
        simp only at h ⊢
        cases hRr : (stageR m).1 with
        | some e => rw [hRr] at h; simp only at h; cases h
        | none =>
          simp only
          obtain ⟨a1, a2, a3, a4, _⟩ := g1
          have k1 : ((stage1 m).2.log tunnelMsg).client .server1 = some true := a3.trans cc1
          have k2 : ((stage1 m).2.log tunnelMsg).client .server2 = some true := a4.trans cc2
          obtain ⟨c2, c1, et⟩ := setupTunnel_ok_events _ k1 k2 hT
          have gr : Grows (stageEvent .server1) ((stageT m).2.log routingMsg) (stageR m).2 :=
            setupRouting_Grows _
          obtain ⟨b1, b2, b3, b4, _⟩ := setupTunnel_Grows ((stage1 m).2.log tunnelMsg)
          obtain ⟨d1, d2, d3, d4, _⟩ := gr
          have q1 : ((stageR m).2.log doneMsg).client1 = some true :=
            d3.trans (b3.trans k1)
          have q2 : ((stageR m).2.log doneMsg).client2 = some true :=
            d4.trans (b4.trans k2)
          have mem : ∀ ev, ev ∈ tunnelEvents ((stage1 m).2.log tunnelMsg) c2 c1 →
              ev ∈ (disconnectServers ((stageR m).2.log doneMsg)).trace := by
            intro ev hev
            rw [disconnectServers_trace _ q1 q2]
            apply List.mem_append_left
            have m1 : ev ∈ (stageT m).2.trace := by
              unfold stageT
              rw [et]
              exact List.mem_append_right _ hev
            have m2 : ev ∈ ((stageT m).2.log routingMsg).trace :=
              List.mem_append_left _ m1
            have m3 := Grows_trace _ _ _ (setupRouting_Grows ((stageT m).2.log routingMsg)) ev m2
            exact List.mem_append_left _ m3
          have hc : ((stage1 m).2.log tunnelMsg).config = (connected m).config := a1
          constructor
          · apply mem
            unfold tunnelEvents entryTunnelConf
            rw [hc, hcfg]
            simp only [NewClient_Host]
            simp only [List.mem_cons, true_or, or_true]
          · apply mem
            unfold tunnelEvents exitTunnelConf
            rw [hc, hcfg]
            simp only [NewClient_Host]
            simp only [List.mem_cons, true_or, or_true]

/-! ### The configuration a run leaves on a host -/

theorem confAfter_append (R : Remote) (h : Host) (a b : List Event) :
    ∀ (pre : List Event) (cur : Option Str),
      confAfter R h pre (a ++ b) cur = confAfter R h (pre ++ a) b (confAfter R h pre a cur) := by
  induction a with
  | nil =>
    intro pre cur
    simp only [List.nil_append, List.append_nil, confAfter]
  | cons ev evs ih =>
    intro pre cur
    show confAfter R h (pre ++ [ev]) (evs ++ b) (confStep R h pre ev cur) =
      confAfter R h (pre ++ ev :: evs) b
        (confAfter R h (pre ++ [ev]) evs (confStep R h pre ev cur))
    rw [ih (pre ++ [ev]) (confStep R h pre ev cur)]
    simp only [List.append_assoc, List.singleton_append]

theorem confStep_other (R : Remote) (h : Host) (pre : List Event) (ev : Event)
    (cur : Option Str) (hev : ∀ cmd, ev = .run h cmd → confTextOf cmd = none) :
    confStep R h pre ev cur = cur := by
  cases ev with
  | run h2 cmd =>
    unfold confStep
    by_cases e : h2 = h
    · subst e
      simp only [if_true]
      rw [hev cmd rfl]
    · simp only [if_neg e]
  | log _ => rfl
  | connect _ => rfl
  | close _ => rfl

theorem confAfter_other (R : Remote) (h : Host) (evs : List Event) :
    ∀ (pre : List Event) (cur : Option Str),
      (∀ ev ∈ evs, ∀ cmd, ev = .run h cmd → confTextOf cmd = none) →
      confAfter R h pre evs cur = cur := by
  induction evs with
  | nil => intro pre cur _; rfl
  | cons ev evs ih =>
    intro pre cur hall
    simp only [confAfter]
    rw [confStep_other R h pre ev cur (hall ev (List.mem_cons_self _ _))]
    exact ih _ _ (fun x hx => hall x (List.mem_cons_of_mem _ hx))

theorem stripPrefix_append (pre s : Str) : stripPrefix pre (pre ++ s) = some s := by
  unfold stripPrefix
  rw [if_pos (by rw [List.isPrefixOf_iff_prefix]; exact List.prefix_append _ _)]
  simp only [List.drop_left]

theorem stripSuffix_append (suf s : Str) : stripSuffix suf (s ++ suf) = some s := by
  unfold stripSuffix
  rw [List.reverse_append, stripPrefix_append]
  simp only [Option.map_some', List.reverse_reverse]

theorem confTextOf_teeCmd (t : Str) : confTextOf (teeCmd t ipsecConfPath) = some t := by
  have e : teeCmd t ipsecConfPath = ("echo ".toList ++ [Char.ofNat 39]) ++
      (t ++ ([Char.ofNat 39] ++ " | sudo tee ".toList ++ ipsecConfPath)) := by
    unfold teeCmd
    simp only [List.append_assoc]
  unfold confTextOf
  rw [e, stripPrefix_append]
  simp only [Option.bind_eq_bind, Option.some_bind]
  exact stripSuffix_append _ t

theorem confTextOf_restartCmd : confTextOf restartCmd = none := by decide

theorem confTextOf_ifaceCmd : confTextOf ifaceCmd = none := by decide

theorem confTextOf_gwCmd (iface : Str) : confTextOf (gwCmd iface) = none := rfl

theorem confTextOf_routingScript (host1 host2 gw iface vpnSubnet : Str) :
    confTextOf (routingScript host1 host2 gw iface vpnSubnet) = none := rfl

/-- After a write of the daemon configuration that host `h` accepts, followed
by events that do not write it, the host holds the text of that write. -/
theorem finalConf_last_write (R : Remote) (h : Host) (pre post : List Event) (t : Str)
    (hok : ∃ o, R.answer h pre (teeCmd t ipsecConfPath) = .ok o)
    (hpost : ∀ ev ∈ post, ∀ cmd, ev = .run h cmd → confTextOf cmd = none) :
    finalConf R h (pre ++ .run h (teeCmd t ipsecConfPath) :: post) = some t := by
  obtain ⟨o, ho⟩ := hok
  unfold finalConf
  rw [confAfter_append]
  simp only [List.nil_append, confAfter]
  rw [confAfter_other R h post _ _ hpost]
  unfold confStep
  simp only [if_true]
  rw [confTextOf_teeCmd, ho]

/-- The events of a run that returns nil, from the tunnel stage on. -/
theorem SetupAll_ok_trace (m : Manager) (h : (SetupAll m).1 = none) :
    ∃ (pre : List Event) (c2 c1 iface script : Str),
      (SetupAll m).2.trace = pre ++
        [.run .server2 ("cat ".toList ++ caCertPath),
         .run .server1 (teeCmd c2 server2CaPath),
         .run .server1 ("cat ".toList ++ caCertPath),
         .run .server2 (teeCmd c1 server1CaPath),
         .run .server1 (teeCmd (escapeQuotes (tunnelConf1 m.config.Server1.Host
           m.config.VPNSubnet m.config.Server2.Host)) ipsecConfPath),
         .run .server2 (teeCmd (escapeQuotes (tunnelConf2 m.config.Server1.Host
           m.config.VPNSubnet m.config.Server2.Host)) ipsecConfPath),
         .run .server1 restartCmd,
         .run .server2 restartCmd,
         .log routingMsg,
         .log "Configuring policy routing and fixing potential lockouts...".toList,
         .run .server1 ifaceCmd,
         .run .server1 (gwCmd iface),
         .run .server1 script,
         .log doneMsg, .close .server1, .close .server2] ∧
      confTextOf script = none := by
  obtain ⟨hd1, hd2⟩ := SetupAll_ok_dial m h
  obtain ⟨cc1, cc2, _, _⟩ := connected_clients m hd1 hd2
  have hcfg : (connected m).config =
      { m.config with Server1 := NewClient m.config.Server1,
                      Server2 := NewClient m.config.Server2 } := by
    unfold connected
    rw [connectServers_ok (m.log startMsg) hd1 hd2]
    rfl
  have g2 : Grows isWork (connected m) (stage2 m).2 :=
    (Grows_log _ _ server2Msg trivial).trans ((setupServer2_Grows _).mono (onHost_isWork _))
  have g1 : Grows isWork (connected m) ((stage1 m).2.log tunnelMsg) :=
    g2.trans ((Grows_log _ _ server1Msg trivial).trans
      (((setupServer1_Grows _).mono (onHost_isWork _)).trans (Grows_log _ _ tunnelMsg trivial)))
  have hS := SetupAll_stages m hd1 hd2
  rw [hS] at h ⊢
  cases h2 : (stage2 m).1 with
  | some e => rw [h2] at h; simp only at h; cases h
  | none =>
    rw [h2] at h
    simp only at h ⊢
    cases h1 : (stage1 m).1 with
    | some e => rw [h1] at h; simp only at h; cases h
    | none =>
      rw [h1] at h
      simp only at h ⊢
      cases hT : (stageT m).1 with
      | some e => rw [hT] at h; simp only at h; cases h
      | none =>
        rw [hT] at h
        simp only at h ⊢
        cases hRr : (stageR m).1 with
        | some e => rw [hRr] at h; simp only at h; cases h
        | none =>
          simp only
          obtain ⟨a1, a2, a3, a4, _⟩ := g1
          have k1 : ((stage1 m).2.log tunnelMsg).client .server1 = some true := a3.trans cc1
          have k2 : ((stage1 m).2.log tunnelMsg).client .server2 = some true := a4.trans cc2
          obtain ⟨c2, c1, et⟩ := setupTunnel_ok_events _ k1 k2 hT
          obtain ⟨b1, b2, b3, b4, _⟩ := setupTunnel_Grows ((stage1 m).2.log tunnelMsg)
          obtain ⟨d1, d2, d3, d4, evs, d5, _⟩ := setupRouting_Grows ((stageT m).2.log routingMsg)
          have kR1 : ((stageT m).2.log routingMsg).client .server1 = some true := b3.trans k1
          have q1 : ((stageR m).2.log doneMsg).client1 = some true :=
            d3.trans (b3.trans k1)
          have q2 : ((stageR m).2.log doneMsg).client2 = some true :=
            d4.trans (b4.trans k2)
          have hev : (stageR m).2.trace = ((stageT m).2.log routingMsg).trace ++
              eventsOf setupRouting ((stageT m).2.log routingMsg) := by
            have e0 : (stageR m).2.trace = ((stageT m).2.log routingMsg).trace ++ evs := d5
            have e1 : eventsOf setupRouting ((stageT m).2.log routingMsg) = evs := by
              unfold eventsOf
              have e2 : (setupRouting ((stageT m).2.log routingMsg)).2.trace =
                  ((stageT m).2.log routingMsg).trace ++ evs := d5
              rw [e2, List.drop_left]
            rw [e0, e1]
          have et2 : (stageT m).2.trace = ((stage1 m).2.log tunnelMsg).trace ++
              tunnelEvents ((stage1 m).2.log tunnelMsg) c2 c1 := et
          have hc : ((stage1 m).2.log tunnelMsg).config = (connected m).config := a1
          refine ⟨((stage1 m).2.log tunnelMsg).trace, c2, c1,
            routingIface ((stageT m).2.log routingMsg),
            routingScriptOf ((stageT m).2.log routingMsg), ?_, rfl⟩
          rw [disconnectServers_trace _ q1 q2]
          simp only [Manager.log]
          rw [hev, eventsOf_setupRouting _ kR1]
          simp only [Manager.log]
          rw [et2]
          unfold tunnelEvents entryTunnelConf exitTunnelConf
          simp only [Manager.log] at hc
          simp only [Manager.log]
          rw [hc, hcfg]
          simp only [NewClient_Host, List.append_assoc, List.cons_append, List.nil_append]

/-- A run that returns nil on hosts that accept the tunnel-stage writes of the
daemon configuration leaves the tunnel-stage text on each host. -/
theorem SetupAll_ok_finalConf (m : Manager) (h : (SetupAll m).1 = none) :
    ((∀ tr, ∃ o, m.remote.answer .server1 tr (teeCmd (escapeQuotes (tunnelConf1
        m.config.Server1.Host m.config.VPNSubnet m.config.Server2.Host)) ipsecConfPath) = .ok o) →
      finalConf m.remote .server1 (SetupAll m).2.trace =
        some (escapeQuotes (tunnelConf1 m.config.Server1.Host m.config.VPNSubnet
          m.config.Server2.Host))) ∧
    ((∀ tr, ∃ o, m.remote.answer .server2 tr (teeCmd (escapeQuotes (tunnelConf2
        m.config.Server1.Host m.config.VPNSubnet m.config.Server2.Host)) ipsecConfPath) = .ok o) →
      finalConf m.remote .server2 (SetupAll m).2.trace =
        some (escapeQuotes (tunnelConf2 m.config.Server1.Host m.config.VPNSubnet
          m.config.Server2.Host))) := by
  obtain ⟨pre, c2, c1, iface, script, e, hs⟩ := SetupAll_ok_trace m h
  have n12 : Host.server2 ≠ Host.server1 := by decide
  have n21 : Host.server1 ≠ Host.server2 := by decide
  constructor
  · intro hw
    have e2 : (SetupAll m).2.trace =
        (pre ++ [.run .server2 ("cat ".toList ++ caCertPath),
          .run .server1 (teeCmd c2 server2CaPath),
          .run .server1 ("cat ".toList ++ caCertPath),
          .run .server2 (teeCmd c1 server1CaPath)]) ++
        .run .server1 (teeCmd (escapeQuotes (tunnelConf1 m.config.Server1.Host
           m.config.VPNSubnet m.config.Server2.Host)) ipsecConfPath) ::
        [.run .server2 (teeCmd (escapeQuotes (tunnelConf2 m.config.Server1.Host
           m.config.VPNSubnet m.config.Server2.Host)) ipsecConfPath),
         .run .server1 restartCmd,
         .run .server2 restartCmd,
         .log routingMsg,
         .log "Configuring policy routing and fixing potential lockouts...".toList,
         .run .server1 ifaceCmd,
         .run .server1 (gwCmd iface),
         .run .server1 script,
         .log doneMsg, .close .server1, .close .server2] := by
      rw [e]
      simp only [List.append_assoc, List.cons_append, List.nil_append]
    rw [e2]
    apply finalConf_last_write _ _ _ _ _ (hw _)
    intro ev hev cmd hcmd
    simp only [List.mem_cons, List.mem_singleton, List.not_mem_nil, or_false] at hev
    rcases hev with rfl | rfl | rfl | rfl | rfl | rfl | rfl | rfl | rfl | rfl | rfl
    · injection hcmd with x _; exact absurd x n12
    · injection hcmd with _ x; rw [← x]; exact confTextOf_restartCmd
    · injection hcmd with x _; exact absurd x n12
    · cases hcmd
    · cases hcmd
    · injection hcmd with _ x; rw [← x]; exact confTextOf_ifaceCmd
    · injection hcmd with _ x; rw [← x]; exact confTextOf_gwCmd _
    · injection hcmd with _ x; rw [← x]; exact hs
    · cases hcmd
    · cases hcmd
    · cases hcmd
  · intro hw
    have e2 : (SetupAll m).2.trace =
        (pre ++ [.run .server2 ("cat ".toList ++ caCertPath),
          .run .server1 (teeCmd c2 server2CaPath),
          .run .server1 ("cat ".toList ++ caCertPath),
          .run .server2 (teeCmd c1 server1CaPath),
          .run .server1 (teeCmd (escapeQuotes (tunnelConf1 m.config.Server1.Host
           m.config.VPNSubnet m.config.Server2.Host)) ipsecConfPath)]) ++
        .run .server2 (teeCmd (escapeQuotes (tunnelConf2 m.config.Server1.Host
           m.config.VPNSubnet m.config.Server2.Host)) ipsecConfPath) ::
        [.run .server1 restartCmd,
         .run .server2 restartCmd,
         .log routingMsg,
         .log "Configuring policy routing and fixing potential lockouts...".toList,
         .run .server1 ifaceCmd,
         .run .server1 (gwCmd iface),
         .run .server1 script,
         .log doneMsg, .close .server1, .close .server2] := by
      rw [e]
      simp only [List.append_assoc, List.cons_append, List.nil_append]
    rw [e2]
    apply finalConf_last_write _ _ _ _ _ (hw _)
    intro ev hev cmd hcmd
    simp only [List.mem_cons, List.mem_singleton, List.not_mem_nil, or_false] at hev
    rcases hev with rfl | rfl | rfl | rfl | rfl | rfl | rfl | rfl | rfl | rfl
    · injection hcmd with x _; exact absurd x n21
    · injection hcmd with _ x; rw [← x]; exact confTextOf_restartCmd
    · cases hcmd
    · cases hcmd
    · injection hcmd with x _; exact absurd x n21
    · injection hcmd with x _; exact absurd x n21
    · injection hcmd with x _; exact absurd x n21
    · cases hcmd
    · cases hcmd
    · cases hcmd

set_option maxRecDepth 100000 in
/-- C30, as stated, fails: the result of the tunnel-stage write of the daemon
configuration is discarded. On hosts where that write fails on the exit host,
SetupAll returns nil for the sample topology and for the same topology with the
tunnel pool `10.99.0.0/24`, and the exit host is left with its first-stage
configuration, which holds the tunnel pool: the final configuration of the exit
host differs between the two runs. -/
theorem C30_counterexample :
    PoolBlind exitRewriteFails ∧
    otherTunnelConfig = { sampleConfig with TunnelSubnet := "10.99.0.0/24".toList } ∧
    (SetupAll (NewManager sampleConfig exitRewriteFails)).1 = none ∧
    (SetupAll (NewManager otherTunnelConfig exitRewriteFails)).1 = none ∧
    Event.run .server2 (teeCmd (escapeQuotes (tunnelConf2 "198.51.100.1".toList
        "10.10.10.0/24".toList "203.0.113.2".toList)) ipsecConfPath) ∈
      (SetupAll (NewManager otherTunnelConfig exitRewriteFails)).2.trace ∧
    (∀ tr, exitRewriteFails.answer .server2 tr (teeCmd (escapeQuotes (tunnelConf2
        "198.51.100.1".toList "10.10.10.0/24".toList "203.0.113.2".toList)) ipsecConfPath) =
      .error "exit status 1".toList) ∧
    finalConf exitRewriteFails .server2
        (SetupAll (NewManager sampleConfig exitRewriteFails)).2.trace =
      some (escapeQuotes (ipsecConf true "203.0.113.2".toList "10.10.20.0/24".toList)) ∧
    finalConf exitRewriteFails .server2
        (SetupAll (NewManager otherTunnelConfig exitRewriteFails)).2.trace =
      some (escapeQuotes (ipsecConf true "203.0.113.2".toList "10.99.0.0/24".toList)) ∧
    finalConf exitRewriteFails .server2
        (SetupAll (NewManager sampleConfig exitRewriteFails)).2.trace ≠
      finalConf exitRewriteFails .server2
        (SetupAll (NewManager otherTunnelConfig exitRewriteFails)).2.trace ∧
    Contains (escapeQuotes (ipsecConf true "203.0.113.2".toList "10.99.0.0/24".toList))
      "rightsourceip=10.99.0.0/24".toList = true := by
  refine ⟨fun _ _ _ _ _ => rfl, rfl, by decide, by decide, by decide, fun _ => rfl,
    by decide, by decide, by decide, by decide⟩

/-- C30 (amended): for two topologies that differ only in TunnelSubnet, on
hosts whose answers do not depend on which first-stage configuration the exit
host was given, when SetupAll succeeds for both, the two runs have the same
events in the same order (logger calls, connections, commands with their full
text) apart from the writes of the exit host's first-stage configuration. The
firewall scripts, the policy-routing script and the tunnel-stage configuration
writes are not such writes, so they are identical in the two runs; both runs
send the tunnel-stage configuration to `/etc/ipsec.conf` on each host, with the
same text, which does not hold TunnelSubnet. A host that accepts the
tunnel-stage write of its configuration is left, by both runs, with the text of
that write: its final configuration does not depend on TunnelSubnet. -/
theorem C30_tunnel_pool (c : SetupConfig) (t : Str) (R : Remote) (hR : PoolBlind R)
    (h1 : (SetupAll (NewManager c R)).1 = none)
    (h2 : (SetupAll (NewManager { c with TunnelSubnet := t } R)).1 = none) :
    otherEvents (SetupAll (NewManager c R)).2.trace =
      otherEvents (SetupAll (NewManager { c with TunnelSubnet := t } R)).2.trace ∧
    ((∀ tr, ∃ o, R.answer .server1 tr (teeCmd (escapeQuotes (tunnelConf1 c.Server1.Host
        c.VPNSubnet c.Server2.Host)) ipsecConfPath) = .ok o) →
      finalConf R .server1 (SetupAll (NewManager c R)).2.trace =
        some (escapeQuotes (tunnelConf1 c.Server1.Host c.VPNSubnet c.Server2.Host)) ∧
      finalConf R .server1 (SetupAll (NewManager { c with TunnelSubnet := t } R)).2.trace =
        some (escapeQuotes (tunnelConf1 c.Server1.Host c.VPNSubnet c.Server2.Host))) ∧
    ((∀ tr, ∃ o, R.answer .server2 tr (teeCmd (escapeQuotes (tunnelConf2 c.Server1.Host
        c.VPNSubnet c.Server2.Host)) ipsecConfPath) = .ok o) →
      finalConf R .server2 (SetupAll (NewManager c R)).2.trace =
        some (escapeQuotes (tunnelConf2 c.Server1.Host c.VPNSubnet c.Server2.Host)) ∧
      finalConf R .server2 (SetupAll (NewManager { c with TunnelSubnet := t } R)).2.trace =
        some (escapeQuotes (tunnelConf2 c.Server1.Host c.VPNSubnet c.Server2.Host))) ∧
    (Event.run .server1 (teeCmd (escapeQuotes (tunnelConf1 c.Server1.Host c.VPNSubnet
        c.Server2.Host)) ipsecConfPath) ∈ (SetupAll (NewManager c R)).2.trace ∧
     Event.run .server2 (teeCmd (escapeQuotes (tunnelConf2 c.Server1.Host c.VPNSubnet
        c.Server2.Host)) ipsecConfPath) ∈ (SetupAll (NewManager c R)).2.trace) ∧
    (Event.run .server1 (teeCmd (escapeQuotes (tunnelConf1 c.Server1.Host c.VPNSubnet
        c.Server2.Host)) ipsecConfPath) ∈
        (SetupAll (NewManager { c with TunnelSubnet := t } R)).2.trace ∧
     Event.run .server2 (teeCmd (escapeQuotes (tunnelConf2 c.Server1.Host c.VPNSubnet
        c.Server2.Host)) ipsecConfPath) ∈
        (SetupAll (NewManager { c with TunnelSubnet := t } R)).2.trace) ∧
    (∀ (h : Host) (host1 vpnSubnet host2 : Str),
      isExitConfWrite (.run h (teeCmd (escapeQuotes (tunnelConf1 host1 vpnSubnet host2))
        ipsecConfPath)) = false ∧
      isExitConfWrite (.run h (teeCmd (escapeQuotes (tunnelConf2 host1 vpnSubnet host2))
        ipsecConfPath)) = false) ∧
    (∀ (h : Host) (iface : Str), isExitConfWrite (.run h (firewallScript iface)) = false) ∧
    (∀ (h : Host) (host1 host2 gw iface vpnSubnet : Str),
      isExitConfWrite (.run h (routingScript host1 host2 gw iface vpnSubnet)) = false) ∧
    isExitConfWrite (exitConfWrite c) = true ∧
    isExitConfWrite (exitConfWrite { c with TunnelSubnet := t }) = true :=
  ⟨(SetupAll_Twin c t R hR h1 h2).2.2.2.2.2,
    fun hw => ⟨(SetupAll_ok_finalConf (NewManager c R) h1).1 hw,
      (SetupAll_ok_finalConf (NewManager { c with TunnelSubnet := t } R) h2).1 hw⟩,
    fun hw => ⟨(SetupAll_ok_finalConf (NewManager c R) h1).2 hw,
      (SetupAll_ok_finalConf (NewManager { c with TunnelSubnet := t } R) h2).2 hw⟩,
    SetupAll_ok_tunnel_writes (NewManager c R) h1,
    SetupAll_ok_tunnel_writes (NewManager { c with TunnelSubnet := t } R) h2,
    fun h host1 vpnSubnet host2 => tunnelConf_other h host1 vpnSubnet host2,
    fun h iface => firewallScript_other h iface,
    fun h host1 host2 gw iface vpnSubnet => routingScript_other h host1 host2 gw iface vpnSubnet,
    rfl, rfl⟩

set_option maxRecDepth 100000 in
theorem C30_tunnel_pool_witness :
    (SetupAll (NewManager sampleConfig (sampleRemote [] (fun _ _ => false)))).1 = none ∧
    (SetupAll (NewManager { sampleConfig with TunnelSubnet := "10.99.0.0/24".toList }
      (sampleRemote [] (fun _ _ => false)))).1 = none ∧
    otherEvents (SetupAll (NewManager sampleConfig (sampleRemote [] (fun _ _ => false)))).2.trace =
      otherEvents (SetupAll (NewManager
        { sampleConfig with TunnelSubnet := "10.99.0.0/24".toList }
        (sampleRemote [] (fun _ _ => false)))).2.trace ∧
    (finalConf (sampleRemote [] (fun _ _ => false)) .server2
        (SetupAll (NewManager sampleConfig (sampleRemote [] (fun _ _ => false)))).2.trace =
      some (escapeQuotes (tunnelConf2 sampleConfig.Server1.Host sampleConfig.VPNSubnet
        sampleConfig.Server2.Host)) ∧
     finalConf (sampleRemote [] (fun _ _ => false)) .server2
        (SetupAll (NewManager { sampleConfig with TunnelSubnet := "10.99.0.0/24".toList }
          (sampleRemote [] (fun _ _ => false)))).2.trace =
      some (escapeQuotes (tunnelConf2 sampleConfig.Server1.Host sampleConfig.VPNSubnet
        sampleConfig.Server2.Host))) :=
  ⟨by decide, by decide,
    (C30_tunnel_pool sampleConfig "10.99.0.0/24".toList (sampleRemote [] (fun _ _ => false))
      (fun _ _ _ _ _ => rfl) (by decide) (by decide)).1,
    (C30_tunnel_pool sampleConfig "10.99.0.0/24".toList (sampleRemote [] (fun _ _ => false))
      (fun _ _ _ _ _ => rfl) (by decide) (by decide)).2.2.1 (fun _ => ⟨_, rfl⟩)⟩

/-! ## The tunnel stage in the run -/

set_option maxRecDepth 100000 in
/-- C13, as stated, fails: the result of writing the peer's certificate
authority file is discarded. Here that write fails on the entry host, yet
SetupAll returns nil and the routing script is sent. -/
theorem C13_counterexample :
    (∀ tr, caWriteFails.answer .server1 tr (teeCmd "eth0\n".toList server2CaPath) =
      .error "exit status 1".toList) ∧
    Event.run .server1 (teeCmd "eth0\n".toList server2CaPath) ∈
      (SetupAll (NewManager sampleConfig caWriteFails)).2.trace ∧
    (SetupAll (NewManager sampleConfig caWriteFails)).1 = none ∧
    Event.run .server1 (routingScript sampleConfig.Server1.Host sampleConfig.Server2.Host
        "eth0".toList "eth0".toList sampleConfig.VPNSubnet) ∈
      (SetupAll (NewManager sampleConfig caWriteFails)).2.trace := by
  refine ⟨fun _ => rfl, by decide, by decide, by decide⟩

/-- C13 (amended): in the tunnel stage, if reading the certificate authority
file of Server 2 or of Server 1 fails, the stage fails with that error, SetupAll
returns "failed to setup tunnel: " followed by it, and the run ends with the
disconnection: the routing stage is not run. When both reads succeed and both
restarts succeed, the stage returns nil whatever the commands that write the
peers' authority files and rewrite the two daemon configurations answer, and
SetupAll goes on to the routing stage: its log line and the four events of
`setupRouting` follow the events of the tunnel stage, and the result of SetupAll
is that of the routing stage. -/
theorem C13_tunnel_stage (m : Manager) (hd1 : m.remote.dial .server1 = none)
    (hd2 : m.remote.dial .server2 = none)
    (h2 : (stage2 m).1 = none) (h1 : (stage1 m).1 = none) :
    (∀ e, (stageT m).1 = some e →
      SetupAll m = (some ("failed to setup tunnel: ".toList ++ e),
        disconnectServers (stageT m).2)) ∧
    (∀ (m0 : Manager) (e : Str), m0.client .server2 = some true →
      m0.remote.answer .server2 m0.trace ("cat ".toList ++ caCertPath) = .error e →
      (setupTunnel m0).1 = some ("failed to read CA cert from Server 2: ".toList ++ e)) ∧
    (∀ (m0 : Manager) (c2 e : Str),
      m0.client .server1 = some true → m0.client .server2 = some true →
      m0.remote.answer .server2 m0.trace ("cat ".toList ++ caCertPath) = .ok c2 →
      m0.remote.answer .server1
        (m0.trace ++ [.run .server2 ("cat ".toList ++ caCertPath),
          .run .server1 (teeCmd c2 server2CaPath)]) ("cat ".toList ++ caCertPath) = .error e →
      (setupTunnel m0).1 = some ("failed to read CA cert from Server 1: ".toList ++ e)) ∧
    (∀ (m0 : Manager) (c2 c1 : Str),
      m0.client .server1 = some true → m0.client .server2 = some true →
      m0.remote.answer .server2 m0.trace ("cat ".toList ++ caCertPath) = .ok c2 →
      m0.remote.answer .server1
        (m0.trace ++ [.run .server2 ("cat ".toList ++ caCertPath),
          .run .server1 (teeCmd c2 server2CaPath)]) ("cat ".toList ++ caCertPath) = .ok c1 →
      (∀ h tr, ∃ o, m0.remote.answer h tr restartCmd = .ok o) →
      (setupTunnel m0).1 = none) ∧
    (∀ (c2 c1 : Str),
      m.remote.answer .server2 ((stage1 m).2.log tunnelMsg).trace
        ("cat ".toList ++ caCertPath) = .ok c2 →
      m.remote.answer .server1
        (((stage1 m).2.log tunnelMsg).trace ++ [.run .server2 ("cat ".toList ++ caCertPath),
          .run .server1 (teeCmd c2 server2CaPath)]) ("cat ".toList ++ caCertPath) = .ok c1 →
      (∀ h tr, ∃ o, m.remote.answer h tr restartCmd = .ok o) →
      (stageT m).1 = none ∧
      (stageT m).2.trace = ((stage1 m).2.log tunnelMsg).trace ++
        tunnelEvents ((stage1 m).2.log tunnelMsg) c2 c1 ∧
      SetupAll m =
        (match (stageR m).1 with
         | some e => (some ("failed to setup routing: ".toList ++ e),
             disconnectServers (stageR m).2)
         | none => (none, disconnectServers ((stageR m).2.log doneMsg))) ∧
      eventsOf setupRouting ((stageT m).2.log routingMsg) =
        [.log "Configuring policy routing and fixing potential lockouts...".toList,
         .run .server1 ifaceCmd,
         .run .server1 (gwCmd (routingIface ((stageT m).2.log routingMsg))),
         .run .server1 (routingScriptOf ((stageT m).2.log routingMsg))] ∧
      ∃ rest, (SetupAll m).2.trace = (stageT m).2.trace ++ [.log routingMsg] ++
        eventsOf setupRouting ((stageT m).2.log routingMsg) ++ rest ++
        [.close .server1, .close .server2]) := by
  refine ⟨?_, ?_, ?_, ?_, ?_⟩
  · intro e ht
    rw [SetupAll_stages m hd1 hd2, h2]
    simp only
    rw [h1]
    simp only
    rw [ht]
  · intro m0 e hc h
    exact setupTunnel_read2_failed m0 e hc h
  · intro m0 c2 e hc1 hc2 ha hb
    exact setupTunnel_read1_failed m0 c2 e hc1 hc2 ha hb
  · intro m0 c2 c1 hc1 hc2 ha hb _
    exact setupTunnel_reads_ok m0 c2 c1 hc1 hc2 ha hb
  · intro c2 c1 r2 r1 _
    obtain ⟨cc1, cc2, cr, _⟩ := connected_clients m hd1 hd2
    have g2 : Grows isWork (connected m) (stage2 m).2 :=
      (Grows_log _ _ server2Msg trivial).trans ((setupServer2_Grows _).mono (onHost_isWork _))
    have g1 : Grows isWork (connected m) ((stage1 m).2.log tunnelMsg) :=
      g2.trans ((Grows_log _ _ server1Msg trivial).trans
        (((setupServer1_Grows _).mono (onHost_isWork _)).trans
          (Grows_log _ _ tunnelMsg trivial)))
    obtain ⟨_, a2, a3, a4, _⟩ := g1
    have k1 : ((stage1 m).2.log tunnelMsg).client .server1 = some true := a3.trans cc1
    have k2 : ((stage1 m).2.log tunnelMsg).client .server2 = some true := a4.trans cc2
    have hrem : ((stage1 m).2.log tunnelMsg).remote = m.remote := a2.trans cr
    have r2b : ((stage1 m).2.log tunnelMsg).remote.answer .server2
        ((stage1 m).2.log tunnelMsg).trace ("cat ".toList ++ caCertPath) = .ok c2 := by
      rw [hrem]; exact r2
    have r1b : ((stage1 m).2.log tunnelMsg).remote.answer .server1
        (((stage1 m).2.log tunnelMsg).trace ++ [.run .server2 ("cat ".toList ++ caCertPath),
          .run .server1 (teeCmd c2 server2CaPath)]) ("cat ".toList ++ caCertPath) = .ok c1 := by
      rw [hrem]; exact r1
    have hT : (stageT m).1 = none := setupTunnel_reads_ok _ c2 c1 k1 k2 r2b r1b
    obtain ⟨c2b, c1b, et⟩ := setupTunnel_ok_events _ k1 k2 hT
    have et2 : (stageT m).2.trace = ((stage1 m).2.log tunnelMsg).trace ++
        tunnelEvents ((stage1 m).2.log tunnelMsg) c2 c1 := by
      have e := (eventsOf_setupTunnel _ c2 c1 k1 k2 r2b r1b).2
      unfold eventsOf at e
      have et3 : (stageT m).2.trace = ((stage1 m).2.log tunnelMsg).trace ++
          tunnelEvents ((stage1 m).2.log tunnelMsg) c2b c1b := et
      unfold stageT at et3 ⊢
      rw [et3, List.drop_left] at e
      rw [et3, e]
    obtain ⟨_, _, b3, b4, _⟩ := setupTunnel_Grows ((stage1 m).2.log tunnelMsg)
    have kR1 : ((stageT m).2.log routingMsg).client .server1 = some true := b3.trans k1
    obtain ⟨_, _, d3, d4, evs, d5, _⟩ := setupRouting_Grows ((stageT m).2.log routingMsg)
    have q1 : (stageR m).2.client1 = some true := d3.trans (b3.trans k1)
    have q2 : (stageR m).2.client2 = some true := d4.trans (b4.trans k2)
    have hS : SetupAll m =
        (match (stageR m).1 with
         | some e => (some ("failed to setup routing: ".toList ++ e),
             disconnectServers (stageR m).2)
         | none => (none, disconnectServers ((stageR m).2.log doneMsg))) := by
      rw [SetupAll_stages m hd1 hd2, h2]
      simp only
      rw [h1]
      simp only
      rw [hT]
    have hev : (stageR m).2.trace = (stageT m).2.trace ++ [.log routingMsg] ++
        eventsOf setupRouting ((stageT m).2.log routingMsg) := by
      have e0 : (stageR m).2.trace = ((stageT m).2.log routingMsg).trace ++ evs := d5
      have e1 : eventsOf setupRouting ((stageT m).2.log routingMsg) = evs := by
        unfold eventsOf
        have e2 : (setupRouting ((stageT m).2.log routingMsg)).2.trace =
            ((stageT m).2.log routingMsg).trace ++ evs := d5
        rw [e2, List.drop_left]
      rw [e0, e1]
      rfl
    refine ⟨hT, et2, hS, eventsOf_setupRouting _ kR1, ?_⟩
    rw [hS]
    cases hr : (stageR m).1 with
    | some e =>
      refine ⟨[], ?_⟩
      simp only
      rw [disconnectServers_trace _ q1 q2, hev]
      simp only [List.append_nil]
    | none =>
      refine ⟨[.log doneMsg], ?_⟩
      simp only
      rw [disconnectServers_trace ((stageR m).2.log doneMsg) q1 q2]
      simp only [Manager.log, hev, List.append_assoc]

set_option maxRecDepth 100000 in
theorem C13_tunnel_stage_witness :
    SetupAll (NewManager sampleConfig
        (sampleRemote [] (fun _ cmd => cmd == "cat ".toList ++ caCertPath))) =
      (some ("failed to setup tunnel: ".toList ++
        "failed to read CA cert from Server 2: exit status 1".toList),
       disconnectServers (stageT (NewManager sampleConfig
        (sampleRemote [] (fun _ cmd => cmd == "cat ".toList ++ caCertPath)))).2) ∧
    (stageT (NewManager sampleConfig caWriteFails)).1 = none ∧
    Event.log routingMsg ∈ (SetupAll (NewManager sampleConfig caWriteFails)).2.trace :=
  ⟨(C13_tunnel_stage (NewManager sampleConfig
      (sampleRemote [] (fun _ cmd => cmd == "cat ".toList ++ caCertPath))) rfl rfl
    (by decide) (by decide)).1 "failed to read CA cert from Server 2: exit status 1".toList
    (by decide),
   ((C13_tunnel_stage (NewManager sampleConfig caWriteFails) rfl rfl
    (by decide) (by decide)).2.2.2.2 "eth0\n".toList "eth0\n".toList rfl rfl
      (fun _ _ => ⟨_, rfl⟩)).1,
   by decide⟩

end IKEv2
